import Mathlib

/-!
# Reactive store and event pipeline of the HUD

A shallow embedding of `HudStateManager` (`src/html/js/state-manager.js`) and of
`HudEventManager` (`src/html/js/event-manager.js`), from the ingress of a message
to the drain of the queue, the handlers and the recovery, with the two methods
of `HudController` and the method of `HudThemeManager` that treat the same
payloads (`validateStat`, `isStatCritical`, `triggerCriticalAlert`): JavaScript
values are finite trees, each object is a record of its fields, and every method
is a function from the object before the call to the object after it, the value
returned and, for the store, the list of subscriber invocations the call made.

Modelling decisions, each visible in the definitions below:

* values are `undefined`, `null`, booleans, numbers, strings, functions, dates,
  dense arrays and plain objects; numbers are the integers plus `NaN`;
* an object is the list of its own enumerable entries in `Object.keys` order, and
  only own properties are read (keys naming members of `Object.prototype` are
  outside the model);
* in the main model object identity is not represented: `deepEqual` is only
  called by `set` and `updateMultiple` with one argument freshly produced by
  `deepClone`, which allocates a new object for every date, array and object
  node, so `a === b` never holds between two such nodes there; the section
  `Identity` gives `set`, `get` and `notifyChange` again with the identity of every
  object, to follow which objects the store shares with its callers;
* subscriber callbacks and validators are observers: a callback may throw, a
  validator may return any value or throw, and neither calls back into the store;
* the theme manager is an observer as well: the calls the handlers make to it
  are recorded, each may raise, and two of them return a value; the listeners of
  the document are not represented, the notifications dispatched on it are;
* the drain is given twice: run to its end, and as the turns of its loop between
  which other code runs, the second being the `async` method as the engine
  schedules it; the two agree when nothing runs in between;
* the clock is a parameter of the calls that read it;
* console output and the periodic performance checks (which only log) are not
  represented.
-/

namespace HudState

/-! ## JavaScript values -/

/-- Numbers: the finite numbers of the model are the integers, `NaN` apart. -/
inductive JSNumber where
  | nan
  | fin (x : Int)
  deriving DecidableEq, Repr

/-- JavaScript values handled by the store. -/
inductive JSValue where
  | undefined
  | null
  | bool (b : Bool)
  | number (n : JSNumber)
  | string (s : String)
  | func (id : Nat)
  | date (time : JSNumber)
  | array (items : List JSValue)
  | object (fields : List (String × JSValue))
  deriving Repr

mutual
/-- Decision procedure for equality of values (structural equality of the trees). -/
def JSValue.decEq : (a b : JSValue) → Decidable (a = b)
  | .undefined, .undefined => isTrue rfl
  | .null, .null => isTrue rfl
  | .bool a, .bool b =>
    if h : a = b then isTrue (by rw [h]) else isFalse (by intro e; cases e; exact h rfl)
  | .number a, .number b =>
    if h : a = b then isTrue (by rw [h]) else isFalse (by intro e; cases e; exact h rfl)
  | .string a, .string b =>
    if h : a = b then isTrue (by rw [h]) else isFalse (by intro e; cases e; exact h rfl)
  | .func a, .func b =>
    if h : a = b then isTrue (by rw [h]) else isFalse (by intro e; cases e; exact h rfl)
  | .date a, .date b =>
    if h : a = b then isTrue (by rw [h]) else isFalse (by intro e; cases e; exact h rfl)
  | .array a, .array b =>
    match JSValue.decEqItems a b with
    | isTrue h => isTrue (by rw [h])
    | isFalse h => isFalse (by intro e; cases e; exact h rfl)
  | .object a, .object b =>
    match JSValue.decEqFields a b with
    | isTrue h => isTrue (by rw [h])
    | isFalse h => isFalse (by intro e; cases e; exact h rfl)
  | .undefined, .null | .undefined, .bool _ | .undefined, .number _ | .undefined, .string _
  | .undefined, .func _ | .undefined, .date _ | .undefined, .array _ | .undefined, .object _
  | .null, .undefined | .null, .bool _ | .null, .number _ | .null, .string _
  | .null, .func _ | .null, .date _ | .null, .array _ | .null, .object _
  | .bool _, .undefined | .bool _, .null | .bool _, .number _ | .bool _, .string _
  | .bool _, .func _ | .bool _, .date _ | .bool _, .array _ | .bool _, .object _
  | .number _, .undefined | .number _, .null | .number _, .bool _ | .number _, .string _
  | .number _, .func _ | .number _, .date _ | .number _, .array _ | .number _, .object _
  | .string _, .undefined | .string _, .null | .string _, .bool _ | .string _, .number _
  | .string _, .func _ | .string _, .date _ | .string _, .array _ | .string _, .object _
  | .func _, .undefined | .func _, .null | .func _, .bool _ | .func _, .number _
  | .func _, .string _ | .func _, .date _ | .func _, .array _ | .func _, .object _
  | .date _, .undefined | .date _, .null | .date _, .bool _ | .date _, .number _
  | .date _, .string _ | .date _, .func _ | .date _, .array _ | .date _, .object _
  | .array _, .undefined | .array _, .null | .array _, .bool _ | .array _, .number _
  | .array _, .string _ | .array _, .func _ | .array _, .date _ | .array _, .object _
  | .object _, .undefined | .object _, .null | .object _, .bool _ | .object _, .number _
  | .object _, .string _ | .object _, .func _ | .object _, .date _ | .object _, .array _ =>
    isFalse (by intro e; cases e)
/-- Equality of lists of values, decided element by element. -/
def JSValue.decEqItems : (a b : List JSValue) → Decidable (a = b)
  | [], [] => isTrue rfl
  | [], _ :: _ => isFalse (by intro e; cases e)
  | _ :: _, [] => isFalse (by intro e; cases e)
  | x :: xs, y :: ys =>
    match JSValue.decEq x y, JSValue.decEqItems xs ys with
    | isTrue h1, isTrue h2 => isTrue (by rw [h1, h2])
    | isFalse h1, _ => isFalse (by intro e; cases e; exact h1 rfl)
    | _, isFalse h2 => isFalse (by intro e; cases e; exact h2 rfl)
/-- Equality of entry lists, decided entry by entry. -/
def JSValue.decEqFields : (a b : List (String × JSValue)) → Decidable (a = b)
  | [], [] => isTrue rfl
  | [], _ :: _ => isFalse (by intro e; cases e)
  | _ :: _, [] => isFalse (by intro e; cases e)
  | (k, x) :: xs, (l, y) :: ys =>
    if hk : k = l then
      match JSValue.decEq x y, JSValue.decEqFields xs ys with
      | isTrue h1, isTrue h2 => isTrue (by rw [hk, h1, h2])
      | isFalse h1, _ => isFalse (by intro e; cases e; exact h1 rfl)
      | _, isFalse h2 => isFalse (by intro e; cases e; exact h2 rfl)
    else isFalse (by intro e; cases e; exact hk rfl)
end

instance : DecidableEq JSValue := JSValue.decEq

/-- Results of the `typeof` operator. -/
inductive JSType where
  | undefined | object | boolean | number | string | function
  deriving DecidableEq, Repr

/-- The `typeof` operator (`typeof null` is `'object'`). -/
def typeof : JSValue → JSType
  | .undefined => .undefined
  | .null => .object
  | .bool _ => .boolean
  | .number _ => .number
  | .string _ => .string
  | .func _ => .function
  | .date _ => .object
  | .array _ => .object
  | .object _ => .object

/-- The test `Array.isArray`. -/
def isArray : JSValue → Bool
  | .array _ => true
  | _ => false

/-- The test `x === null`. -/
def isNull : JSValue → Bool
  | .null => true
  | _ => false

/-- Strict equality `a === b`. `NaN` differs from itself; functions are compared
by identity; two date, array or object nodes are distinct objects (see the
header), hence never strictly equal. -/
def strictEq : JSValue → JSValue → Bool
  | .undefined, .undefined => true
  | .null, .null => true
  | .bool a, .bool b => a == b
  | .number (.fin a), .number (.fin b) => a == b
  | .string a, .string b => a == b
  | .func a, .func b => a == b
  | _, _ => false

/-- Truthiness, as used by `!x`. -/
def truthy : JSValue → Bool
  | .undefined => false
  | .null => false
  | .bool b => b
  | .number .nan => false
  | .number (.fin x) => x != 0
  | .string s => s != ""
  | _ => true

/-- The `length` of a string: its number of UTF-16 code units. -/
def jsLength (s : String) : Nat :=
  (s.data.map (fun c => if c.val < 0x10000 then 1 else 2)).sum

/-- Own property read `obj[key]` on the entry list of a plain object. -/
def getField : List (String × JSValue) → String → JSValue
  | [], _ => .undefined
  | (k, x) :: fs, key => if k = key then x else getField fs key

/-- The entries of an array, keyed by index, starting at index `i`. -/
def indexed : Nat → List JSValue → List (String × JSValue)
  | _, [] => []
  | i, x :: xs => (toString i, x) :: indexed (i + 1) xs

/-- The result of `Object.entries` on an object value (no entry for a date). -/
def entries : JSValue → List (String × JSValue)
  | .object fields => fields
  | .array items => indexed 0 items
  | _ => []

/-- The length of `Object.keys(x)` for an object value. -/
def keyCount : JSValue → Nat
  | .object fields => fields.length
  | .array items => items.length
  | _ => 0

mutual
/-- The method `deepClone` (lines 408-427): primitives and functions are returned as
they are, a date is rebuilt from its time, an array is mapped, and a plain
object is rebuilt key by key. -/
def deepClone : JSValue → JSValue
  | .date t => .date t
  | .array items => .array (deepCloneItems items)
  | .object fields => .object (deepCloneFields fields)
  | v => v
/-- The clone of each item of an array. -/
def deepCloneItems : List JSValue → List JSValue
  | [] => []
  | x :: xs => deepClone x :: deepCloneItems xs
/-- The clone of each entry of an object. -/
def deepCloneFields : List (String × JSValue) → List (String × JSValue)
  | [] => []
  | (k, x) :: fs => (k, deepClone x) :: deepCloneFields fs
end

mutual
/-- The method `deepEqual` (lines 435-452). -/
def deepEqual (a b : JSValue) : Bool :=
  if strictEq a b then true
  else if isNull a || isNull b then false
  else if typeof a != typeof b then false
  else if typeof a == JSType.object then
    if isArray a != isArray b then false
    else if keyCount a != keyCount b then false
    else
      match a, b with
      | .array as, .array bs => deepEqualItems as bs
      | .object fa, .object fb => deepEqualFields fa fb
      | .object fa, _ => deepEqualFields fa []
      | _, _ => true
  else false
/-- The `every` of `deepEqual` over the indices of an array `a`, reading `b` at the
same index (`undefined` past its end). -/
def deepEqualItems : List JSValue → List JSValue → Bool
  | [], _ => true
  | x :: xs, y :: ys => deepEqual x y && deepEqualItems xs ys
  | x :: xs, [] => deepEqual x .undefined && deepEqualItems xs []
/-- The `every` of `deepEqual` over the keys of an object `a`, reading `b[key]`. -/
def deepEqualFields : List (String × JSValue) → List (String × JSValue) → Bool
  | [], _ => true
  | (k, x) :: fs, fb => deepEqual x (getField fb k) && deepEqualFields fs fb
end

/-! ## Maps with insertion order -/

/-- The lookup `Map.prototype.get`, with `none` for an absent key. -/
def mapGet? {β : Type} : List (String × β) → String → Option β
  | [], _ => none
  | (k, x) :: m, key => if k = key then some x else mapGet? m key

/-- The test `Map.prototype.has`. -/
def mapHas {β : Type} (m : List (String × β)) (key : String) : Bool :=
  (mapGet? m key).isSome

/-- The update `Map.prototype.set`: an existing key keeps its position, a new key
goes last. -/
def mapSet {β : Type} : List (String × β) → String → β → List (String × β)
  | [], key, x => [(key, x)]
  | (k, y) :: m, key, x => if k = key then (k, x) :: m else (k, y) :: mapSet m key x

/-- The removal `Map.prototype.delete`; the keys of a `Map` are distinct, so the
entry of `key` is the only one removed. -/
def mapDelete {β : Type} : List (String × β) → String → List (String × β)
  | [], _ => []
  | (k, y) :: m, key => if k = key then mapDelete m key else (k, y) :: mapDelete m key

/-! ## The store -/

/-- How a call of a user-supplied function ends. -/
inductive Completion where
  | returns (v : JSValue)
  | throws

/-- A validator `(newValue, oldValue) => boolean`. -/
abbrev Validator := JSValue → JSValue → Completion

/-- A subscriber callback `(newValue, oldValue, key) => void`: its identity as a
function object and whether it throws on given arguments. -/
structure Callback where
  id : Nat
  throwsOn : JSValue → JSValue → String → Bool

/-- One call `callback(newValue, oldValue, key)` made by the store. -/
structure Invocation where
  callback : Nat
  newValue : JSValue
  oldValue : JSValue
  key : String
  deriving DecidableEq, Repr

/-- The fields of a `HudStateManager` (constructor, lines 13-29). -/
structure Store where
  state : List (String × JSValue)
  changeListeners : List (String × List Callback)
  validators : List (String × Validator)
  initialized : Bool
  debugMode : Bool
  operationCount : Nat
  errorCount : Nat
  maxErrors : Nat

/-- What a method call leaves behind: the store, the value returned and the
subscriber invocations made, in order. -/
structure Outcome where
  store : Store
  result : Bool
  calls : List Invocation

namespace HudStateManager

/-- The constructor (lines 13-29). -/
def new : Store :=
  { state := [], changeListeners := [], validators := [], initialized := false,
    debugMode := false, operationCount := 0, errorCount := 0, maxErrors := 50 }

/-- The read `this.state.get(key)`: `undefined` for an absent key. -/
def stateGet (s : Store) (key : String) : JSValue :=
  (mapGet? s.state key).getD .undefined

/-- The loop `Object.entries(initialState).forEach(...)` of the merge branch
(lines 45-49). -/
def seedAbsent : List (String × JSValue) → List (String × JSValue) → List (String × JSValue)
  | m, [] => m
  | m, (key, value) :: rest =>
    seedAbsent (if !mapHas m key then mapSet m key (deepClone value) else m) rest

/-- The loop `Object.entries(initialState).forEach(...)` of the full initialization
(lines 53-55). -/
def seedAll : List (String × JSValue) → List (String × JSValue) → List (String × JSValue)
  | m, [] => m
  | m, (key, value) :: rest => seedAll (mapSet m key (deepClone value)) rest

/-- The method `initialize(initialState, merge)` (lines 36-65); `initialState` is
an object, given by its entries. -/
def initializeStore (s : Store) (initialState : List (String × JSValue)) (merge : Bool) :
    Store × Bool :=
  if s.initialized && !merge then
    (s, false)
  else if merge && s.initialized then
    ({ s with state := seedAbsent s.state initialState, initialized := true }, true)
  else
    ({ s with state := seedAll [] initialState, initialized := true }, true)

/-- The method `error` (lines 547-556): counts the error and, past `maxErrors`,
calls `initialize` with an empty object and `merge = false`, then zeroes the counter. -/
def error (s : Store) : Store :=
  let s1 := { s with errorCount := s.errorCount + 1 }
  if s1.errorCount > s1.maxErrors then
    { (initializeStore s1 [] false).1 with errorCount := 0 }
  else
    s1

/-- The method `isValidKey` (lines 399-401). -/
def isValidKey : JSValue → Bool
  | .string key => decide (jsLength key > 0) && decide (jsLength key < 256)
  | _ => false

/-- The method `incrementOperationCount` (lines 493-500); the performance check it
may start only logs. -/
def incrementOperationCount (s : Store) : Store :=
  { s with operationCount := s.operationCount + 1 }

/-- The loop `listeners.forEach(callback => ...)` of `notifyChange`: each callback
is called inside its own `try`, and a throw is reported through `error`. -/
def notifyEach : Store → List Callback → String → JSValue → JSValue → Store × List Invocation
  | s, [], _, _, _ => (s, [])
  | s, cb :: rest, key, newValue, oldValue =>
    let s1 := if cb.throwsOn newValue oldValue key then error s else s
    let r := notifyEach s1 rest key newValue oldValue
    (r.1, ⟨cb.id, newValue, oldValue, key⟩ :: r.2)

/-- The method `notifyChange` (lines 460-488). -/
def notifyChange (s : Store) (key : String) (newValue oldValue : JSValue) :
    Store × List Invocation :=
  let r1 :=
    match mapGet? s.changeListeners key with
    | some listeners => notifyEach s listeners key newValue oldValue
    | none => (s, [])
  let r2 :=
    match mapGet? r1.1.changeListeners "*" with
    | some globalListeners => notifyEach r1.1 globalListeners key newValue oldValue
    | none => (r1.1, [])
  (r2.1, r1.2 ++ r2.2)

/-- The part of `set` after the validator (lines 93-106). -/
def commit (s : Store) (key : String) (clonedValue oldValue : JSValue) (silent : Bool) :
    Outcome :=
  if deepEqual oldValue clonedValue then
    ⟨s, true, []⟩
  else
    let s1 := { s with state := mapSet s.state key clonedValue }
    let s2 := incrementOperationCount s1
    if !silent then
      let r := notifyChange s2 key clonedValue oldValue
      ⟨r.1, true, r.2⟩
    else
      ⟨s2, true, []⟩

/-- The method `set(key, value, silent)` (lines 74-111). -/
def set (s : Store) (key : JSValue) (value : JSValue) (silent : Bool) : Outcome :=
  if !isValidKey key then
    ⟨error s, false, []⟩
  else
    match key with
    | .string k =>
      let oldValue := stateGet s k
      let clonedValue := deepClone value
      match mapGet? s.validators k with
      | some validator =>
        match validator clonedValue oldValue with
        | .throws => ⟨error s, false, []⟩
        | .returns r =>
          if !truthy r then ⟨s, false, []⟩
          else commit s k clonedValue oldValue silent
      | none => commit s k clonedValue oldValue silent
    | _ => ⟨error s, false, []⟩

/-- The method `get(key, defaultValue)` (lines 119-132). -/
def get (s : Store) (key : JSValue) (defaultValue : JSValue) : JSValue :=
  if !isValidKey key then
    defaultValue
  else
    match key with
    | .string k =>
      let value := stateGet s k
      if value ≠ .undefined then deepClone value else defaultValue
    | _ => defaultValue

/-- The method `has(key)` (lines 139-141); the backing map only receives string
keys. -/
def has (s : Store) (key : JSValue) : Bool :=
  match key with
  | .string k => mapHas s.state k
  | _ => false

/-- The addition `Set.prototype.add`: a callback already in the set is not added
again. -/
def setAdd (listeners : List Callback) (callback : Callback) : List Callback :=
  if listeners.any (fun c => c.id == callback.id) then listeners else listeners ++ [callback]

/-- The method `subscribe(key, callback)` (lines 177-206), for a function
`callback`; the closure it returns is left out. -/
def subscribe (s : Store) (key : JSValue) (callback : Callback) : Store :=
  if !isValidKey key then
    error s
  else
    match key with
    | .string k =>
      let listeners := (mapGet? s.changeListeners k).getD []
      { s with changeListeners := mapSet s.changeListeners k (setAdd listeners callback) }
    | _ => error s

/-- The method `subscribeAll(callback)` (lines 213-215). -/
def subscribeAll (s : Store) (callback : Callback) : Store :=
  subscribe s (.string "*") callback

/-- The method `addValidator(key, validator)` (lines 222-231), for a function
`validator`. -/
def addValidator (s : Store) (key : JSValue) (validator : Validator) : Store × Bool :=
  if !isValidKey key then
    (error s, false)
  else
    match key with
    | .string k => ({ s with validators := mapSet s.validators k validator }, true)
    | _ => (error s, false)

/-- One element of the `changes` array of `updateMultiple`. -/
structure Change where
  key : String
  newValue : JSValue
  oldValue : JSValue
  deriving DecidableEq, Repr

/-- How the first pass of `updateMultiple` ends: with the `changes` collected, with
a `return false` reported through `error` (invalid key, or a throw caught by the
outer `catch`), or with a `return false` reported through `warn`. -/
inductive FirstPass where
  | collected (changes : List Change)
  | errored
  | warned

/-- The first pass of `updateMultiple` (lines 308-327); it reads the store and
does not write it. -/
def firstPass (s : Store) : List (String × JSValue) → List Change → FirstPass
  | [], changes => .collected changes
  | (key, value) :: rest, changes =>
    if !isValidKey (.string key) then .errored
    else
      let oldValue := stateGet s key
      let clonedValue := deepClone value
      match mapGet? s.validators key with
      | some validator =>
        match validator clonedValue oldValue with
        | .throws => .errored
        | .returns r =>
          if !truthy r then .warned
          else firstPass s rest (changes ++ [⟨key, clonedValue, oldValue⟩])
      | none => firstPass s rest (changes ++ [⟨key, clonedValue, oldValue⟩])

/-- The second pass of `updateMultiple` (lines 330-332). -/
def applyChanges : List (String × JSValue) → List Change → List (String × JSValue)
  | m, [] => m
  | m, c :: rest => applyChanges (mapSet m c.key c.newValue) rest

/-- The third pass of `updateMultiple` (lines 338-342). -/
def notifyChanges : Store → List Change → Store × List Invocation
  | s, [] => (s, [])
  | s, c :: rest =>
    let r1 :=
      if !deepEqual c.newValue c.oldValue then notifyChange s c.key c.newValue c.oldValue
      else (s, [])
    let r2 := notifyChanges r1.1 rest
    (r2.1, r1.2 ++ r2.2)

/-- The method `updateMultiple(updates, silent)` (lines 298-351). -/
def updateMultiple (s : Store) (updates : JSValue) (silent : Bool) : Outcome :=
  if !truthy updates || typeof updates != JSType.object then
    ⟨error s, false, []⟩
  else
    match firstPass s (entries updates) [] with
    | .errored => ⟨error s, false, []⟩
    | .warned => ⟨s, false, []⟩
    | .collected changes =>
      let s1 := { s with state := applyChanges s.state changes }
      let s2 := incrementOperationCount s1
      if !silent then
        let r := notifyChanges s2 changes
        ⟨r.1, true, r.2⟩
      else
        ⟨s2, true, []⟩

/-- The method `delete(key, silent)` (lines 149-169); the backing map only holds
string keys, so another key is absent. -/
def delete (s : Store) (key : JSValue) (silent : Bool) : Outcome :=
  match key with
  | .string k =>
    if !mapHas s.state k then
      ⟨s, true, []⟩
    else
      let oldValue := stateGet s k
      let s1 := { s with state := mapDelete s.state k }
      let s2 := incrementOperationCount s1
      if !silent then
        let r := notifyChange s2 k .undefined oldValue
        ⟨r.1, true, r.2⟩
      else
        ⟨s2, true, []⟩
  | _ => ⟨s, true, []⟩

/-- The removal `Set.prototype.delete` of a callback, found by identity. -/
def setDelete (listeners : List Callback) (callback : Callback) : List Callback :=
  listeners.filter (fun c => c.id != callback.id)

/-- The closure returned by `subscribe(key, callback)` once the callback is
registered (lines 192-201): it removes the callback from the set of `key` and
drops the entry of `key` when the set is left empty. -/
def unsubscribe (s : Store) (key : String) (callback : Callback) : Store :=
  match mapGet? s.changeListeners key with
  | some listeners =>
    let listeners1 := setDelete listeners callback
    let s1 := { s with changeListeners := mapSet s.changeListeners key listeners1 }
    if listeners1.length == 0 then
      { s1 with changeListeners := mapDelete s1.changeListeners key }
    else
      s1
  | none => s

/-- The method `removeValidator(key)` (lines 237-239): it returns whether a
validator was registered. -/
def removeValidator (s : Store) (key : JSValue) : Store × Bool :=
  match key with
  | .string k => ({ s with validators := mapDelete s.validators k }, mapHas s.validators k)
  | _ => (s, false)

/-! ## Vocabulary of the statements -/

/-- The callbacks registered on `key`, in registration order (none when the key
has no entry in `changeListeners`). -/
def listenersOf (s : Store) (key : String) : List Callback :=
  (mapGet? s.changeListeners key).getD []

/-- One notification pass for a change of `key`: a call `(newValue, oldValue, key)`
of each callback registered on `key`, then of each callback registered on the
wildcard key, in registration order. -/
def notificationPass (s : Store) (key : String) (newValue oldValue : JSValue) :
    List Invocation :=
  (listenersOf s key ++ listenersOf s "*").map
    (fun cb => (⟨cb.id, newValue, oldValue, key⟩ : Invocation))

/-- How many calls of one notification pass end in a throw. -/
def throwCount (s : Store) (key : String) (newValue oldValue : JSValue) : Nat :=
  ((listenersOf s key ++ listenersOf s "*").filter
    (fun cb => cb.throwsOn newValue oldValue key)).length

/-- The read `this.state.get(key)` for any key: the backing map only holds string
keys, so another key reads `undefined`. -/
def stored (s : Store) (key : JSValue) : JSValue :=
  match key with
  | .string k => stateGet s k
  | _ => .undefined

/-- The predicate of the data model on a store: every key of the backing map
passes `isValidKey`. -/
def keysValid (s : Store) : Bool :=
  s.state.all (fun e => isValidKey (.string e.1))

/-- The listener map holds no empty callback set. -/
def noEmptySet (s : Store) : Bool :=
  s.changeListeners.all (fun e => e.2.length != 0)

/-- The validator given by a predicate `(newValue, oldValue) => boolean` that
always returns. -/
def predicate (p : JSValue → JSValue → Bool) : Validator :=
  fun newValue oldValue => .returns (.bool (p newValue oldValue))

/-- A validator that throws on every call. -/
def faulty : Validator := fun _ _ => .throws

/-- Fifty calls `set('', null)`, each refused for its invalid key. -/
def fiftyErrors (s : Store) : Store :=
  (List.range 50).foldl (fun t _ => (set t (.string "") .null false).store) s

/-- A callback that returns normally on every call. -/
def observer : Callback := ⟨1, fun _ _ _ => false⟩

/-- A callback that throws on every call. -/
def thrower : Callback := ⟨2, fun _ _ _ => true⟩

end HudStateManager

/-! ## The validator library (lines 564-615) -/

namespace HudValidators

/-- The validator `boolean` (lines 582-584). -/
def boolean : Validator :=
  fun value _ => .returns (.bool (typeof value == JSType.boolean))

end HudValidators

/-! ## Object identity

The same methods with the identity of every object made explicit, to follow which
objects the store shares with its callers. A value is a tree whose date, array
and object nodes carry the identity of the object; a node that occurs in the
backing map is an object the store refers to, so a write by outside code to the
object of identity `r` is seen by the store exactly at the nodes of identity `r`. -/

namespace Identity

/-- The identity of an object: one allocated by the code that calls the store, or
the `n`-th object allocated by the store. -/
inductive ObjId where
  | external (n : Nat)
  | internal (n : Nat)
  deriving DecidableEq, Repr

/-- Values with the identity of each object. -/
inductive RefValue where
  | undefined
  | null
  | bool (b : Bool)
  | number (n : JSNumber)
  | string (s : String)
  | func (id : Nat)
  | date (ref : ObjId) (time : JSNumber)
  | array (ref : ObjId) (items : List RefValue)
  | object (ref : ObjId) (fields : List (String × RefValue))
  deriving Repr

mutual
/-- The value without the identities. -/
def erase : RefValue → JSValue
  | .undefined => .undefined
  | .null => .null
  | .bool b => .bool b
  | .number n => .number n
  | .string s => .string s
  | .func id => .func id
  | .date _ t => .date t
  | .array _ items => .array (eraseItems items)
  | .object _ fields => .object (eraseFields fields)
/-- The items of an array without the identities. -/
def eraseItems : List RefValue → List JSValue
  | [] => []
  | x :: xs => erase x :: eraseItems xs
/-- The entries of an object without the identities. -/
def eraseFields : List (String × RefValue) → List (String × JSValue)
  | [] => []
  | (k, x) :: fs => (k, erase x) :: eraseFields fs
end

/-- The identity of the object a value is, if it is one. -/
def refOf : RefValue → Option ObjId
  | .date r _ => some r
  | .array r _ => some r
  | .object r _ => some r
  | _ => none

mutual
/-- The method `deepClone` (lines 408-427), `next` being the number of objects the
store has allocated so far: `new Date`, `map` and the literal `{}` each allocate a
new object. -/
def deepClone : Nat → RefValue → RefValue × Nat
  | next, .date _ t => (.date (.internal next) t, next + 1)
  | next, .array _ items =>
    let r := deepCloneItems (next + 1) items
    (.array (.internal next) r.1, r.2)
  | next, .object _ fields =>
    let r := deepCloneFields (next + 1) fields
    (.object (.internal next) r.1, r.2)
  | next, v => (v, next)
/-- The clone of each item of an array. -/
def deepCloneItems : Nat → List RefValue → List RefValue × Nat
  | next, [] => ([], next)
  | next, x :: xs =>
    let r1 := deepClone next x
    let r2 := deepCloneItems r1.2 xs
    (r1.1 :: r2.1, r2.2)
/-- The clone of each entry of an object. -/
def deepCloneFields : Nat → List (String × RefValue) → List (String × RefValue) × Nat
  | next, [] => ([], next)
  | next, (k, x) :: fs =>
    let r1 := deepClone next x
    let r2 := deepCloneFields r1.2 fs
    ((k, r1.1) :: r2.1, r2.2)
end

/-- One call `callback(newValue, oldValue, key)`, with the objects handed over. -/
structure RefInvocation where
  callback : Nat
  newValue : RefValue
  oldValue : RefValue
  key : String

/-- The fields of a `HudStateManager`, and the number of objects it has allocated. -/
structure RefStore where
  state : List (String × RefValue)
  changeListeners : List (String × List Callback)
  validators : List (String × Validator)
  initialized : Bool
  operationCount : Nat
  errorCount : Nat
  maxErrors : Nat
  allocated : Nat

/-- What a method call leaves behind. -/
structure RefOutcome where
  store : RefStore
  result : Bool
  calls : List RefInvocation

/-- The constructor (lines 13-29). -/
def new : RefStore :=
  { state := [], changeListeners := [], validators := [], initialized := false,
    operationCount := 0, errorCount := 0, maxErrors := 50, allocated := 0 }

/-- The read `this.state.get(key)`. -/
def stateGet (s : RefStore) (key : String) : RefValue :=
  (mapGet? s.state key).getD .undefined

/-- The call `initialize({}, false)` made by `error` (lines 36-65, with no entry to
seed). -/
def initializeEmpty (s : RefStore) : RefStore :=
  if s.initialized && !false then s
  else { s with state := [], initialized := true }

/-- The method `error` (lines 547-556). -/
def error (s : RefStore) : RefStore :=
  let s1 := { s with errorCount := s.errorCount + 1 }
  if s1.errorCount > s1.maxErrors then
    { initializeEmpty s1 with errorCount := 0 }
  else
    s1

/-- The loop `listeners.forEach(callback => ...)` of `notifyChange`: the callback
is handed `newValue` and `oldValue` themselves. -/
def notifyEach : RefStore → List Callback → String → RefValue → RefValue →
    RefStore × List RefInvocation
  | s, [], _, _, _ => (s, [])
  | s, cb :: rest, key, newValue, oldValue =>
    let s1 := if cb.throwsOn (erase newValue) (erase oldValue) key then error s else s
    let r := notifyEach s1 rest key newValue oldValue
    (r.1, ⟨cb.id, newValue, oldValue, key⟩ :: r.2)

/-- The method `notifyChange` (lines 460-488). -/
def notifyChange (s : RefStore) (key : String) (newValue oldValue : RefValue) :
    RefStore × List RefInvocation :=
  let r1 :=
    match mapGet? s.changeListeners key with
    | some listeners => notifyEach s listeners key newValue oldValue
    | none => (s, [])
  let r2 :=
    match mapGet? r1.1.changeListeners "*" with
    | some globalListeners => notifyEach r1.1 globalListeners key newValue oldValue
    | none => (r1.1, [])
  (r2.1, r1.2 ++ r2.2)

/-- The part of `set` after the validator (lines 93-106): `clonedValue` is the
object put into the backing map and the object handed to `notifyChange`. The
clone is a new object, so `deepEqual` never finds it identical to a stored one
and compares the contents. -/
def commit (s : RefStore) (key : String) (clonedValue oldValue : RefValue) (silent : Bool) :
    RefOutcome :=
  if deepEqual (erase oldValue) (erase clonedValue) then
    ⟨s, true, []⟩
  else
    let s1 := { s with state := mapSet s.state key clonedValue,
                       operationCount := s.operationCount + 1 }
    if !silent then
      let r := notifyChange s1 key clonedValue oldValue
      ⟨r.1, true, r.2⟩
    else
      ⟨s1, true, []⟩

/-- The method `set(key, value, silent)` (lines 74-111). -/
def set (s : RefStore) (key : JSValue) (value : RefValue) (silent : Bool) : RefOutcome :=
  if !HudStateManager.isValidKey key then
    ⟨error s, false, []⟩
  else
    match key with
    | .string k =>
      let oldValue := stateGet s k
      let cloned := deepClone s.allocated value
      let clonedValue := cloned.1
      let s0 := { s with allocated := cloned.2 }
      match mapGet? s.validators k with
      | some validator =>
        match validator (erase clonedValue) (erase oldValue) with
        | .throws => ⟨error s0, false, []⟩
        | .returns r =>
          if !truthy r then ⟨s0, false, []⟩
          else commit s0 k clonedValue oldValue silent
      | none => commit s0 k clonedValue oldValue silent
    | _ => ⟨error s, false, []⟩

/-- The method `get(key, defaultValue)` (lines 119-132): the value returned, and
the store after the allocation of the clone. -/
def get (s : RefStore) (key : JSValue) (defaultValue : RefValue) : RefValue × RefStore :=
  if !HudStateManager.isValidKey key then
    (defaultValue, s)
  else
    match key with
    | .string k =>
      let value := stateGet s k
      if erase value ≠ .undefined then
        let cloned := deepClone s.allocated value
        (cloned.1, { s with allocated := cloned.2 })
      else (defaultValue, s)
    | _ => (defaultValue, s)

/-- The method `subscribe(key, callback)` (lines 177-206), for a function
`callback`. -/
def subscribe (s : RefStore) (key : JSValue) (callback : Callback) : RefStore :=
  if !HudStateManager.isValidKey key then
    error s
  else
    match key with
    | .string k =>
      let listeners := (mapGet? s.changeListeners k).getD []
      { s with changeListeners :=
          mapSet s.changeListeners k (HudStateManager.setAdd listeners callback) }
    | _ => error s

mutual
/-- The assignment `obj[key] = x` made by outside code on the object of identity
`r`, as seen through a value that may contain this object. -/
def assign (r : ObjId) (key : String) (x : RefValue) : RefValue → RefValue
  | .array ref items => .array ref (assignItems r key x items)
  | .object ref fields =>
    if ref = r then .object ref (mapSet (assignFields r key x fields) key x)
    else .object ref (assignFields r key x fields)
  | v => v
/-- The assignment seen through the items of an array. -/
def assignItems (r : ObjId) (key : String) (x : RefValue) : List RefValue → List RefValue
  | [] => []
  | y :: ys => assign r key x y :: assignItems r key x ys
/-- The assignment seen through the entries of an object. -/
def assignFields (r : ObjId) (key : String) (x : RefValue) :
    List (String × RefValue) → List (String × RefValue)
  | [] => []
  | (k, y) :: fs => (k, assign r key x y) :: assignFields r key x fs
end

/-- The store after outside code has made the assignment `obj[key] = x` on the
object of identity `r`: the backing map refers to the objects of its values, and
sees the new property wherever it refers to `r`. -/
def afterAssign (s : RefStore) (r : ObjId) (key : String) (x : RefValue) : RefStore :=
  { s with state := s.state.map (fun e => (e.1, assign r key x e.2)) }

/-- The backing map without the identities. -/
def eraseState (m : List (String × RefValue)) : List (String × JSValue) :=
  m.map (fun e => (e.1, erase e.2))

/-- The store without the identities, as a store of the main model. -/
def eraseStore (s : RefStore) : Store :=
  { state := eraseState s.state, changeListeners := s.changeListeners,
    validators := s.validators, initialized := s.initialized, debugMode := false,
    operationCount := s.operationCount, errorCount := s.errorCount,
    maxErrors := s.maxErrors }

/-- The calls without the identities. -/
def eraseCalls (calls : List RefInvocation) : List Invocation :=
  calls.map (fun i => ⟨i.callback, erase i.newValue, erase i.oldValue, i.key⟩)

end Identity

/-! ## The event pipeline (`src/html/js/event-manager.js`)

The ingress of host messages: origin check, rate limit, queue and history. The
clock is a parameter of each call; the two reads of `Date.now()` made while one
message is handled give the same time. -/

/-- A rate-limit rule `{ maxEvents, windowMs }`. -/
structure RateLimit where
  maxEvents : Nat
  windowMs : Int
  deriving DecidableEq, Repr

/-- An event of the queue (lines 101-107); its `type` and `source` are the
constants `'incoming'` and `'fivem'`. -/
structure InboundEvent where
  action : JSValue
  data : JSValue
  timestamp : Int
  deriving DecidableEq, Repr

/-- A `MessageEvent` delivered to the window. -/
structure MessageEvent where
  origin : String
  data : JSValue
  deriving DecidableEq, Repr

/-- The fields of a `HudEventManager` used by the ingress (constructor, lines
13-39). -/
structure EventManager where
  eventQueue : List InboundEvent
  processing : Bool
  eventCount : Nat
  errorCount : Nat
  eventHistory : List InboundEvent
  maxHistorySize : Nat
  trustedOrigins : List String
  rateLimits : List (String × RateLimit)
  isNuiEnvironment : Bool
  deriving DecidableEq

/-- The test `s.includes(sub)` on strings. -/
def includes (s sub : String) : Bool :=
  s.data.tails.any (fun t => sub.data.isPrefixOf t)

/-- The property read `data[key]` on a value: an own property of a plain object,
`undefined` otherwise. -/
def getProp (data : JSValue) (key : String) : JSValue :=
  match data with
  | .object fields => getField fields key
  | _ => .undefined

/-- The array method `slice(-n)`: the last `n` elements, and the whole array for
`n = 0` (as `-0` is `0`). -/
def sliceLast {α : Type} (n : Nat) (l : List α) : List α :=
  if n = 0 then l else l.drop (l.length - n)

namespace HudEventManager

/-- The method `initializeRateLimits` (lines 874-880). -/
def initializeRateLimits (rateLimits : List (String × RateLimit)) : List (String × RateLimit) :=
  mapSet (mapSet (mapSet (mapSet rateLimits "hudtick" ⟨100, 1000⟩) "update" ⟨60, 1000⟩)
    "triggerGlow" ⟨10, 1000⟩) "valueChanged" ⟨20, 1000⟩

/-- The constructor (lines 13-39) followed by the `initialize` it calls, which
fills the table of rate limits; `isNuiEnvironment` is what `detectNuiEnvironment`
returns. -/
def new (isNuiEnvironment : Bool) : EventManager :=
  { eventQueue := [], processing := false, eventCount := 0, errorCount := 0,
    eventHistory := [], maxHistorySize := 1000, trustedOrigins := ["nui-game-internal"],
    rateLimits := initializeRateLimits [], isNuiEnvironment := isNuiEnvironment }

/-- The method `validateMessageOrigin` (lines 655-667). -/
def validateMessageOrigin (p : EventManager) (event : MessageEvent) : Bool :=
  if p.isNuiEnvironment then true
  else if includes event.origin "localhost" || includes event.origin "127.0.0.1" then true
  else p.trustedOrigins.contains event.origin

/-- The method `checkRateLimit` (lines 674-689), `now` being the value of
`Date.now()`; the table of rate limits only has string keys. -/
def checkRateLimit (p : EventManager) (action : JSValue) (now : Int) : Bool :=
  match action with
  | .string a =>
    if !truthy action || !mapHas p.rateLimits a then true
    else
      match mapGet? p.rateLimits a with
      | some limit =>
        let windowStart := now - limit.windowMs
        let recentEvents := p.eventHistory.filter
          (fun event => strictEq event.action action && decide (event.timestamp > windowStart))
        decide (recentEvents.length < limit.maxEvents)
      | none => true
  | _ => true

/-- The method `addToHistory` (lines 695-702). -/
def addToHistory (p : EventManager) (eventData : InboundEvent) : EventManager :=
  let history := p.eventHistory ++ [eventData]
  if history.length > p.maxHistorySize then
    { p with eventHistory := sliceLast p.maxHistorySize history }
  else
    { p with eventHistory := history }

/-- The method `queueEvent` (lines 121-134); the performance check it may start
only logs. -/
def queueEvent (p : EventManager) (eventData : InboundEvent) : EventManager :=
  addToHistory
    { p with eventQueue := p.eventQueue ++ [eventData], eventCount := p.eventCount + 1 }
    eventData

/-- The part of `handleIncomingMessage` that comes before the drain (lines
81-107): the message is dropped, or queued with the time `now`. -/
def ingress (p : EventManager) (event : MessageEvent) (now : Int) : EventManager :=
  if !validateMessageOrigin p event then p
  else
    let data := event.data
    if !truthy data || typeof data != JSType.object then p
    else if !checkRateLimit p (getProp data "action") now then p
    else queueEvent p ⟨getProp data "action", data, now⟩

/-- The messages of a list, each with its arrival time, taken in order. The
drain started after each message takes events off the queue and never writes the
history; its recovery only writes the four rules of the constructor into the
table of rate limits again. The drain is left out here, so that the queue is the
record of every event queued so far. -/
def ingressAll : EventManager → List (MessageEvent × Int) → EventManager
  | p, [] => p
  | p, (event, now) :: rest => ingressAll (ingress p event now) rest

/-- The events of action `a` in a list whose timestamp lies in the window
`(t - w, t]`. -/
def inWindow (events : List InboundEvent) (a : String) (w t : Int) : List InboundEvent :=
  events.filter (fun e =>
    decide (e.action = .string a) && decide (t - w < e.timestamp) && decide (e.timestamp ≤ t))

/-- The bound on the input rate under which the history still holds the trailing
window: at each arrival at a time `t`, at most `capacity` of the messages that
arrived before it (`earlier`) did so after `t - w`. -/
def withinCapacity (capacity : Nat) (w : Int) :
    List (MessageEvent × Int) → List (MessageEvent × Int) → Bool
  | _, [] => true
  | earlier, (event, t) :: rest =>
    decide ((earlier.filter (fun x => decide (t - w < x.2))).length ≤ capacity) &&
      withinCapacity capacity w (earlier ++ [(event, t)]) rest

/-- What holds of the pipeline once the messages `earlier` have been handled, for
a rule `{ maxEvents: n, windowMs: w }` on the action `a`: the history is the tail
of the record of queued events, full once an event has been trimmed; the queued
events are among the messages, in order; and at any time from the last arrival
on, at most `n` queued events of action `a` lie in the trailing window. -/
def rateInvariant (a : String) (n : Nat) (w : Int) (p : EventManager)
    (earlier : List (MessageEvent × Int)) : Prop :=
  (∃ old, p.eventQueue = old ++ p.eventHistory ∧
      (old = [] ∨ (p.eventHistory.length = p.maxHistorySize ∧ 0 < p.maxHistorySize))) ∧
    (p.eventQueue.map (fun e => e.timestamp)).Sublist (earlier.map (fun x => x.2)) ∧
    ∀ now, (∀ x ∈ earlier, x.2 ≤ now) →
      (p.eventQueue.filter (fun e =>
        decide (e.action = .string a) && decide (now - w < e.timestamp))).length ≤ n

/-- A message `{ action: a }` from the host. -/
def message (a : String) : MessageEvent :=
  ⟨"nui-game-internal", .object [("action", .string a)]⟩

/-- The event queued for the message `{ action: a }` that arrives at the time `t`. -/
def queued (a : String) (t : Int) : InboundEvent :=
  ⟨.string a, (message a).data, t⟩

end HudEventManager

/-! ## The drain of the event pipeline and its handlers

The handlers of `HudEventManager` act on the page around the pipeline: the store,
the theme manager and the document on which they dispatch their notifications.
The theme manager is an observer, like the subscribers of the store: each call
made to it is recorded, and it answers with a value or raises. The listeners of
the document are not part of the model, which records the notifications in the
order of their dispatch. -/

/-- A `CustomEvent` dispatched on the document: its name and its `detail`. -/
structure Notification where
  name : String
  detail : JSValue
  deriving DecidableEq

/-- A call of a method of the theme manager. Arguments that are template
literals are recorded by the value they interpolate, a quotient by the value of
its divisor, and the constant `1.2` is left out. -/
structure ThemeCall where
  method : String
  args : List JSValue
  deriving DecidableEq

/-- The theme manager as the handlers see it: whether a call raises and what it
returns, given the calls made before it. -/
structure ThemeManager where
  raises : List ThemeCall → ThemeCall → Bool
  returns : List ThemeCall → ThemeCall → JSValue

/-- The conversions of the language that read the text of a value, taken from the
engine: `ToNumber` on strings, functions, dates, arrays and objects, and
`ToPropertyKey` on numbers, functions, dates, arrays and objects. -/
structure Engine where
  toNumber : JSValue → JSNumber
  toPropertyKey : JSValue → String

/-- What the handlers of the pipeline act on: `this.stateManager` and
`this.themeManager` (either may be missing), with the notifications dispatched on
the document, the calls made to the theme manager and the subscriber
invocations made by the store, each in order. -/
structure Page where
  stateManager : Option Store
  themeManager : Option ThemeManager
  engine : Engine
  dispatched : List Notification
  themeCalls : List ThemeCall
  subscriberCalls : List Invocation

/-- How a handler ends: the page it leaves, and whether it raised. -/
structure Handled where
  page : Page
  raised : Bool

/-- The pipeline on its page: the fields of the `HudEventManager`, the page, the
number of `message` listeners the pipeline has registered on the window, and the
calls of `processEvent` made so far, each with whether its handler raised. -/
structure Hud where
  manager : EventManager
  page : Page
  messageListeners : Nat
  processed : List (InboundEvent × Bool)

/-- The operator `a || b`. -/
def orElse (a b : JSValue) : JSValue :=
  if truthy a then a else b

/-- Whether a property read `x.key` raises a `TypeError`: `x` is `undefined` or
`null`. -/
def nullish : JSValue → Bool
  | .undefined => true
  | .null => true
  | _ => false

/-- The number `n` as a value. -/
def num (n : Int) : JSValue :=
  .number (.fin n)

/-- The conversion `ToNumber`. -/
def toNumber (engine : Engine) : JSValue → JSNumber
  | .undefined => .nan
  | .null => .fin 0
  | .bool b => .fin (if b then 1 else 0)
  | .number n => n
  | v => engine.toNumber v

/-- The conversion `ToPropertyKey` of a computed member access. -/
def toPropertyKey (engine : Engine) : JSValue → String
  | .undefined => "undefined"
  | .null => "null"
  | .bool b => if b then "true" else "false"
  | .string s => s
  | v => engine.toPropertyKey v

/-- The comparison `x <= bound` between numbers (`NaN` compares false). -/
def atMost : JSNumber → Int → Bool
  | .fin x, bound => decide (x ≤ bound)
  | .nan, _ => false

/-- The comparison `x >= bound` between numbers (`NaN` compares false). -/
def atLeast : JSNumber → Int → Bool
  | .fin x, bound => decide (bound ≤ x)
  | .nan, _ => false

/-- The number held by a value of type `number`. -/
def numberOf : JSValue → JSNumber
  | .number n => n
  | _ => .nan

/-- The queued event as the object it is: `type` and `source` are constants
(lines 101-107). -/
def eventObject (event : InboundEvent) : JSValue :=
  .object [("type", .string "incoming"), ("action", event.action), ("data", event.data),
    ("timestamp", num event.timestamp), ("source", .string "fivem")]

namespace HudEventManager

/-- The method `dispatchEvent` (lines 927-930). -/
def dispatchEvent (page : Page) (eventName : String) (detail : JSValue) : Page :=
  { page with dispatched := page.dispatched ++ [⟨eventName, detail⟩] }

/-- A call `this.stateManager.method(...)` guarded by `if (this.stateManager)`;
the store catches what its subscribers and validators raise. -/
def write (page : Page) (method : Store → Outcome) : Page :=
  match page.stateManager with
  | none => page
  | some s =>
    let o := method s
    { page with stateManager := some o.store,
                subscriberCalls := page.subscriberCalls ++ o.calls }

/-- A call of a method of the theme manager `t`, for its effect. -/
def callTheme (page : Page) (t : ThemeManager) (call : ThemeCall) : Handled :=
  ⟨{ page with themeCalls := page.themeCalls ++ [call] }, t.raises page.themeCalls call⟩

/-- A block guarded by `if (this.themeManager)`. -/
def withTheme (page : Page) (block : ThemeManager → Handled) : Handled :=
  match page.themeManager with
  | none => ⟨page, false⟩
  | some t => block t

/-- The last statement of a handler, `this.dispatchEvent(eventName, detail)`,
reached unless what came before it raised. -/
def thenDispatch (r : Handled) (eventName : String) (detail : JSValue) : Handled :=
  if r.raised then r else ⟨dispatchEvent r.page eventName detail, false⟩

/-- The loop of `checkCriticalValues` over the stats that are critical when low
(lines 629-642); an exception leaves the `forEach`. -/
def checkCriticalStats (page : Page) (t : ThemeManager) (data : JSValue) :
    List String → Handled
  | [] => ⟨page, false⟩
  | key :: rest =>
    let value := getProp data key
    if typeof value == JSType.number && atMost (numberOf value) 20 then
      let r := callTheme page t
        ⟨"triggerCriticalAlert", [.string ("." ++ key ++ "-indicator"), value]⟩
      if r.raised then r else checkCriticalStats r.page t data rest
    else checkCriticalStats page t data rest

/-- The method `checkCriticalValues` (lines 626-648). -/
def checkCriticalValues (page : Page) (data : JSValue) : Handled :=
  withTheme page (fun t =>
    let r := checkCriticalStats page t data ["health", "armor", "hunger", "thirst", "oxygen"]
    if r.raised then r
    else
      let stress := getProp data "stress"
      if typeof stress == JSType.number && atLeast (numberOf stress) 80 then
        callTheme r.page t ⟨"triggerCriticalAlert", [.string ".stress-indicator", stress]⟩
      else r)

/-- The object `handleHudTick` passes to `updateMultiple` (lines 269-285). -/
def hudTickUpdates (data : JSValue) : JSValue :=
  .object [
    ("playerStats", .object [
      ("health", orElse (getProp data "health") (num 100)),
      ("armor", orElse (getProp data "armor") (num 0)),
      ("hunger", orElse (getProp data "hunger") (num 100)),
      ("thirst", orElse (getProp data "thirst") (num 100)),
      ("stress", orElse (getProp data "stress") (num 0)),
      ("oxygen", orElse (getProp data "oxygen") (num 100)),
      ("stamina", orElse (getProp data "oxygen") (num 100))]),
    ("vehicleStats", .object [
      ("speed", orElse (getProp data "speed") (num 0)),
      ("engine", orElse (getProp data "engine") (num 100)),
      ("nos", orElse (getProp data "nos") (num 0))]),
    ("hudVisible", .bool (!strictEq (getProp data "show") (.bool false)))]

/-- The method `handleHudTick` (lines 264-295). -/
def handleHudTick (page : Page) (data : JSValue) : Handled :=
  if !truthy data || typeof data != JSType.object then ⟨page, false⟩
  else
    let page1 := write page (fun s => HudStateManager.updateMultiple s (hudTickUpdates data) true)
    thenDispatch (checkCriticalValues page1 data) "hudDataUpdated" data

/-- The object `handleVehicleHud` passes to `updateMultiple` (lines 306-314). -/
def vehicleHudUpdates (data : JSValue) : JSValue :=
  .object [
    ("inVehicle", .bool (strictEq (getProp data "show") (.bool true))),
    ("vehicleStats", .object [
      ("speed", orElse (getProp data "speed") (num 0)),
      ("fuel", orElse (getProp data "fuel") (num 100)),
      ("altitude", orElse (getProp data "altitude") (num 0)),
      ("seatbelt", .bool (strictEq (getProp data "seatbelt") (.bool true)))])]

/-- The method `handleVehicleHud` (lines 301-323). -/
def handleVehicleHud (page : Page) (data : JSValue) : Handled :=
  if !truthy data || typeof data != JSType.object then ⟨page, false⟩
  else
    let page1 := write page (fun s => HudStateManager.updateMultiple s (vehicleHudUpdates data) true)
    let fuel := getProp data "fuel"
    thenDispatch
      (withTheme page1 (fun t =>
        if atMost (toNumber page1.engine fuel) 20 then
          callTheme page1 t ⟨"triggerCriticalAlert", [.string ".fuel-indicator", fuel]⟩
        else ⟨page1, false⟩))
      "vehicleDataUpdated" data

/-- The object `handleCompassUpdate` passes to `updateMultiple` (lines 334-347). -/
def compassUpdates (data : JSValue) : JSValue :=
  .object [
    ("compassVisible", .bool (strictEq (getProp data "show") (.bool true))),
    ("streetNames", .object [
      ("street1", orElse (getProp data "street1") (.string "")),
      ("street2", orElse (getProp data "street2") (.string ""))]),
    ("compassSettings", .object [
      ("showCompass", getProp data "showCompass"),
      ("showStreets", getProp data "showStreets"),
      ("showPointer", getProp data "showPointer"),
      ("showDegrees", getProp data "showDegrees")])]

/-- The method `handleCompassUpdate` (lines 329-351). -/
def handleCompassUpdate (page : Page) (data : JSValue) : Handled :=
  if !truthy data || typeof data != JSType.object then ⟨page, false⟩
  else
    let page1 := write page (fun s => HudStateManager.updateMultiple s (compassUpdates data) true)
    thenDispatch ⟨page1, false⟩ "compassUpdated" data

/-- The method `handleCompassDirectionUpdate` (lines 357-366). -/
def handleCompassDirectionUpdate (page : Page) (data : JSValue) : Handled :=
  if !truthy data || typeof (getProp data "value") == JSType.undefined then ⟨page, false⟩
  else
    let page1 := write page
      (fun s => HudStateManager.set s (.string "compassHeading") (getProp data "value") true)
    thenDispatch ⟨page1, false⟩ "compassDirectionUpdated" data

/-- The theme effect of `handleMenuOpen` (lines 378-380): reading
`themeConfig.colors.secondary` raises when the configuration or its colours are
missing. -/
def menuGlow (page : Page) (t : ThemeManager) : Handled :=
  let r1 := callTheme page t ⟨"getCurrentTheme", []⟩
  if r1.raised then r1
  else
    let theme := t.returns page.themeCalls ⟨"getCurrentTheme", []⟩
    let r2 := callTheme r1.page t ⟨"getThemeConfig", [theme]⟩
    if r2.raised then r2
    else
      let themeConfig := t.returns r1.page.themeCalls ⟨"getThemeConfig", [theme]⟩
      if nullish themeConfig || nullish (getProp themeConfig "colors") then ⟨r2.page, true⟩
      else
        callTheme r2.page t ⟨"triggerGlow", [.string ".main-menu-container",
          getProp (getProp themeConfig "colors") "secondary"]⟩

/-- The method `handleMenuOpen` (lines 371-384); the store write is not silent. -/
def handleMenuOpen (page : Page) (data : JSValue) : Handled :=
  let page1 := write page (fun s => HudStateManager.set s (.string "menuOpen") (.bool true) false)
  thenDispatch (withTheme page1 (menuGlow page1)) "menuOpened" data

/-- The method `handleSettingsOpen` (lines 390-396); the store write is not
silent. -/
def handleSettingsOpen (page : Page) (data : JSValue) : Handled :=
  let page1 := write page
    (fun s => HudStateManager.set s (.string "settingsMenuOpen") (.bool true) false)
  thenDispatch ⟨page1, false⟩ "settingsMenuOpened" data

/-- The method `handleThemeUpdate` (lines 402-414); the store write is not
silent. -/
def handleThemeUpdate (page : Page) (data : JSValue) : Handled :=
  if nullish data then ⟨page, true⟩
  else if !truthy (getProp data "theme") then ⟨page, false⟩
  else
    let r := withTheme page (fun t =>
      callTheme page t ⟨"setTheme", [getProp data "theme", .bool true]⟩)
    if r.raised then r
    else
      let page1 := write r.page
        (fun s => HudStateManager.set s (.string "theme") (getProp data "theme") false)
      thenDispatch ⟨page1, false⟩ "themeUpdated" data

/-- The method `handleGlowEffect` (lines 420-432). -/
def handleGlowEffect (page : Page) (data : JSValue) : Handled :=
  if nullish data then ⟨page, true⟩
  else if !truthy (getProp data "element") || !truthy (getProp data "color") then ⟨page, false⟩
  else
    thenDispatch
      (withTheme page (fun t =>
        callTheme page t ⟨"triggerGlow", [getProp data "element", getProp data "color",
          orElse (getProp data "intensity") (num 1)]⟩))
      "glowTriggered" data

/-- The method `handleCriticalAlert` (lines 438-449). -/
def handleCriticalAlert (page : Page) (data : JSValue) : Handled :=
  if nullish data then ⟨page, true⟩
  else if !truthy (getProp data "statType") ||
      typeof (getProp data "value") == JSType.undefined then ⟨page, false⟩
  else
    thenDispatch
      (withTheme page (fun t =>
        callTheme page t
          ⟨"triggerCriticalAlert", [getProp data "statType", getProp data "value"]⟩))
      "criticalAlertTriggered" data

/-- The method `handleValueChanged` (lines 455-468). -/
def handleValueChanged (page : Page) (data : JSValue) : Handled :=
  if nullish data then ⟨page, true⟩
  else if !truthy (getProp data "statType") ||
      typeof (getProp data "newValue") == JSType.undefined then ⟨page, false⟩
  else
    thenDispatch
      (withTheme page (fun t =>
        callTheme page t ⟨"animateValueChange", [getProp data "statType",
          orElse (getProp data "oldValue") (num 0), getProp data "newValue",
          orElse (getProp data "animationSpeed") (num 1)]⟩))
      "valueChanged" data

/-- The method `handleGpsToggle` (lines 474-482); the store write is not silent. -/
def handleGpsToggle (page : Page) (data : JSValue) : Handled :=
  if nullish data then ⟨page, true⟩
  else
    let isActive := JSValue.bool (strictEq (getProp data "show") (.bool true))
    let page1 := write page (fun s => HudStateManager.set s (.string "gpsActive") isActive false)
    thenDispatch ⟨page1, false⟩ "gpsToggled" (.object [("active", isActive)])

/-- The object `handleGpsLocationUpdate` passes to `updateMultiple` (lines
490-498). -/
def gpsLocationUpdates (data : JSValue) : JSValue :=
  .object [
    ("gpsLocation", orElse (getProp data "location") (.string "UNKNOWN")),
    ("gpsDirection", orElse (getProp data "direction") (.string "↑")),
    ("gpsDistance", orElse (getProp data "distance") (.string "0.0KM")),
    ("gpsStreets", .object [
      ("street1", orElse (getProp data "street1") (.string "")),
      ("street2", orElse (getProp data "street2") (.string ""))])]

/-- The method `handleGpsLocationUpdate` (lines 488-502); the payload is only
read when there is a store. -/
def handleGpsLocationUpdate (page : Page) (data : JSValue) : Handled :=
  if page.stateManager.isSome && nullish data then ⟨page, true⟩
  else
    let page1 := write page
      (fun s => HudStateManager.updateMultiple s (gpsLocationUpdates data) true)
    thenDispatch ⟨page1, false⟩ "gpsLocationUpdated" data

/-- The method `handleGpsStatsUpdate` (lines 508-514). -/
def handleGpsStatsUpdate (page : Page) (data : JSValue) : Handled :=
  let page1 := write page (fun s => HudStateManager.set s (.string "gpsStats") data true)
  thenDispatch ⟨page1, false⟩ "gpsStatsUpdated" data

/-- The method `handleGpsPositionSet` (lines 520-526); the store write is not
silent. -/
def handleGpsPositionSet (page : Page) (data : JSValue) : Handled :=
  if page.stateManager.isSome && nullish data then ⟨page, true⟩
  else
    let page1 := write page (fun s => HudStateManager.set s (.string "gpsPosition")
      (orElse (getProp data "position") (.string "top-right")) false)
    thenDispatch ⟨page1, false⟩ "gpsPositionChanged" data

/-- The method `handleGpsThemeSet` (lines 532-538); the store write is not
silent. -/
def handleGpsThemeSet (page : Page) (data : JSValue) : Handled :=
  if page.stateManager.isSome && nullish data then ⟨page, true⟩
  else
    let page1 := write page (fun s => HudStateManager.set s (.string "gpsTheme")
      (orElse (getProp data "theme") (.string "cyberpunk")) false)
    thenDispatch ⟨page1, false⟩ "gpsThemeChanged" data

/-- The method `handleMoneyShow` (lines 544-552): the entry of the payload named
by its `type` is copied into the store. -/
def handleMoneyShow (page : Page) (data : JSValue) : Handled :=
  if page.stateManager.isSome && nullish data then ⟨page, true⟩
  else
    let key := toPropertyKey page.engine (getProp data "type")
    let page1 := write page
      (fun s => HudStateManager.updateMultiple s (.object [(key, getProp data key)]) true)
    thenDispatch ⟨page1, false⟩ "moneyShown" data

/-- The object `handleMoneyUpdate` passes to `updateMultiple` (lines 560-563). -/
def moneyUpdates (data : JSValue) : JSValue :=
  .object [
    ("cash", orElse (getProp data "cash") (num 0)),
    ("bank", orElse (getProp data "bank") (num 0))]

/-- The method `handleMoneyUpdate` (lines 558-573). -/
def handleMoneyUpdate (page : Page) (data : JSValue) : Handled :=
  if page.stateManager.isSome && nullish data then ⟨page, true⟩
  else
    let page1 := write page (fun s => HudStateManager.updateMultiple s (moneyUpdates data) true)
    thenDispatch
      (withTheme page1 (fun t =>
        if nullish data then ⟨page1, true⟩
        else if truthy (getProp data "type") then
          let color := if truthy (getProp data "minus") then "#ff4444" else "#66bb6a"
          callTheme page1 t ⟨"triggerGlow", [getProp data "type", .string color]⟩
        else ⟨page1, false⟩))
      "moneyUpdated" data

/-- The method `handleEffectsToggle` (lines 579-585). -/
def handleEffectsToggle (page : Page) (data : JSValue) : Handled :=
  thenDispatch
    (withTheme page (fun t =>
      if nullish data then ⟨page, true⟩
      else
        callTheme page t
          ⟨"setAnimationsEnabled", [.bool (strictEq (getProp data "enabled") (.bool true))]⟩))
    "effectsToggled" data

/-- The method `handleNeonIntensityChange` (lines 591-597). -/
def handleNeonIntensityChange (page : Page) (data : JSValue) : Handled :=
  thenDispatch
    (withTheme page (fun t =>
      if nullish data then ⟨page, true⟩
      else if typeof (getProp data "intensity") == JSType.number then
        callTheme page t ⟨"setNeonIntensity", [getProp data "intensity"]⟩
      else ⟨page, false⟩))
    "neonIntensityChanged" data

/-- The method `handleThemeSync` (lines 603-609). -/
def handleThemeSync (page : Page) (data : JSValue) : Handled :=
  thenDispatch
    (withTheme page (fun t =>
      if nullish data then ⟨page, true⟩
      else if truthy (getProp data "theme") then
        callTheme page t ⟨"setTheme", [getProp data "theme", .bool false]⟩
      else ⟨page, false⟩))
    "themeSync" data

/-- The method `handleUnknownEvent` (lines 615-618), which receives the whole
event. -/
def handleUnknownEvent (page : Page) (event : InboundEvent) : Handled :=
  thenDispatch ⟨page, false⟩ "unknownEvent" (eventObject event)

/-- The `case` labels of the `switch` of `processEvent` (lines 162-252), in
order, each with the handler its branch calls on `event.data`. -/
def handlers : List (String × (Page → JSValue → Handled)) :=
  [("hudtick", handleHudTick), ("car", handleVehicleHud), ("baseplate", handleCompassUpdate),
    ("update", handleCompassDirectionUpdate), ("open", handleMenuOpen),
    ("openSettings", handleSettingsOpen), ("updateTheme", handleThemeUpdate),
    ("triggerGlow", handleGlowEffect), ("criticalAlert", handleCriticalAlert),
    ("valueChanged", handleValueChanged), ("toggleGpsHud", handleGpsToggle),
    ("updateGpsLocation", handleGpsLocationUpdate), ("updateGpsStats", handleGpsStatsUpdate),
    ("setGpsPosition", handleGpsPositionSet), ("setGpsTheme", handleGpsThemeSet),
    ("show", handleMoneyShow), ("updatemoney", handleMoneyUpdate),
    ("setEffectsEnabled", handleEffectsToggle), ("setNeonIntensity", handleNeonIntensityChange),
    ("syncTheme", handleThemeSync)]

/-- The twenty actions that have a `case` in `processEvent`. -/
def handledActions : List String :=
  handlers.map (fun entry => entry.1)

/-- The `switch` of `processEvent` (lines 162-252): the event is compared with
the labels by `===`, and the handler of its branch runs on the page; the
`default` branch passes the whole event to `handleUnknownEvent`. -/
def route (page : Page) (event : InboundEvent) : Handled :=
  match event.action with
  | .string action =>
    match mapGet? handlers action with
    | some handler => handler page event.data
    | none => handleUnknownEvent page event
  | _ => handleUnknownEvent page event

/-- The method `initialize` (lines 45-60) on an existing pipeline: one more
`message` listener on the window, and the four rate limits set again. The other
listeners it adds and the allowlist it fills are not read by the pipeline. -/
def initializePipeline (h : Hud) : Hud :=
  { h with manager := { h.manager with rateLimits := initializeRateLimits h.manager.rateLimits },
           messageListeners := h.messageListeners + 1 }

/-- The method `attemptRecovery` (lines 834-850). -/
def attemptRecovery (h : Hud) : Hud :=
  initializePipeline
    { h with manager := { h.manager with eventQueue := [], processing := false, errorCount := 0 } }

/-- The `errorInfo` of `handleEventError` (lines 811-817), without its `message`
and `stack`, which describe the exception. -/
def errorInfo (context data : JSValue) (now : Int) : JSValue :=
  .object [("context", context), ("data", data), ("timestamp", num now)]

/-- The method `handleEventError` (lines 808-829), `now` being the value of
`Date.now()`. -/
def handleEventError (h : Hud) (context data : JSValue) (now : Int) : Hud :=
  let h1 := { h with manager := { h.manager with errorCount := h.manager.errorCount + 1 } }
  let h2 := { h1 with page := dispatchEvent h1.page "eventError" (errorInfo context data now) }
  if h2.manager.errorCount > 50 then attemptRecovery h2 else h2

/-- The method `processEvent` (lines 160-256): the handler runs, and what it
raises is passed to `handleEventError`. -/
def processEvent (h : Hud) (event : InboundEvent) (now : Int) : Hud :=
  let r := route h.page event
  let h1 := { h with page := r.page, processed := h.processed ++ [(event, r.raised)] }
  if r.raised then handleEventError h1 event.action (eventObject event) now else h1

/-- The `while` loop of `processEventQueue` (lines 145-148), run until the queue
is empty; no turn of it adds to the queue, so its length bounds the number of
turns. -/
def drainLoop (now : Int) : Nat → Hud → Hud
  | 0, h => h
  | turns + 1, h =>
    match h.manager.eventQueue with
    | [] => h
    | event :: rest =>
      drainLoop now turns
        (processEvent { h with manager := { h.manager with eventQueue := rest } } event now)

/-- The method `processEventQueue` (lines 137-154) run to its end, with no other
code running while the loop waits between two events; the clock reads `now`
throughout. -/
def processEventQueue (h : Hud) (now : Int) : Hud :=
  if h.manager.processing || h.manager.eventQueue.isEmpty then h
  else
    let h1 := drainLoop now h.manager.eventQueue.length
      { h with manager := { h.manager with processing := true } }
    { h1 with manager := { h1.manager with processing := false } }

/-- Whether `handleIncomingMessage` queues the message (lines 83-98). -/
def accepts (p : EventManager) (event : MessageEvent) (now : Int) : Bool :=
  validateMessageOrigin p event &&
    (truthy event.data && typeof event.data == JSType.object) &&
    checkRateLimit p (getProp event.data "action") now

/-- The method `handleIncomingMessage` (lines 80-115), the drain it starts being
run to its end. -/
def handleIncomingMessage (h : Hud) (event : MessageEvent) (now : Int) : Hud :=
  if accepts h.manager event now then
    processEventQueue { h with manager := ingress h.manager event now } now
  else h

/-- The pipeline as the constructor leaves it (lines 13-39) on a page. -/
def construct (isNuiEnvironment : Bool) (page : Page) : Hud :=
  { manager := new isNuiEnvironment, page := page, messageListeners := 1, processed := [] }

/-! ### The drain as interleaved steps

`processEventQueue` is an `async` method: it runs up to its first `await`, and
the rest of the loop runs later, one event at a time, other code running in
between. -/

/-- The pipeline with the drain loops that have begun and not finished; each
waits at the `await` of line 147. -/
structure Running where
  hud : Hud
  loops : Nat

/-- One turn of a drain loop, from the test of the `while` to the next `await`,
or to the end of the method through its `finally`. -/
def turn (r : Running) (now : Int) : Running :=
  match r.hud.manager.eventQueue with
  | [] =>
    { hud := { r.hud with manager := { r.hud.manager with processing := false } },
      loops := r.loops - 1 }
  | event :: rest =>
    { r with hud :=
        processEvent { r.hud with manager := { r.hud.manager with eventQueue := rest } } event now }

/-- A call of `processEventQueue`, up to its first `await`. -/
def beginDrain (r : Running) (now : Int) : Running :=
  if r.hud.manager.processing || r.hud.manager.eventQueue.isEmpty then r
  else
    turn { hud := { r.hud with manager := { r.hud.manager with processing := true } },
           loops := r.loops + 1 } now

/-- What happens next in an execution: a message arrives, a waiting drain loop
goes on, or an error is reported to the window with the given data. -/
inductive Step where
  | message (event : MessageEvent) (now : Int)
  | resume (now : Int)
  | globalError (data : JSValue) (now : Int)

/-- One step of an execution. -/
def step (r : Running) : Step → Running
  | .message event now =>
    if accepts r.hud.manager event now then
      beginDrain { r with hud := { r.hud with manager := ingress r.hud.manager event now } } now
    else r
  | .resume now => if r.loops = 0 then r else turn r now
  | .globalError data now =>
    { r with hud := handleEventError r.hud (.string "global_error") data now }

/-- An execution: the steps taken in order. -/
def run : Running → List Step → Running
  | r, [] => r
  | r, s :: rest => run (step r s) rest

end HudEventManager

/-! ### The stats of the controller (`src/html/js/hud-controller.js`) -/

namespace HudController

/-- The function `Math.max(min, Math.min(max, x))` for bounds that are numbers
other than `NaN` (of `NaN` it makes `NaN`). -/
def clamp (min max : Int) : JSNumber → JSNumber
  | .fin x => .fin (Max.max min (Min.min max x))
  | .nan => .nan

/-- The test `isNaN(x)` on a number. -/
def isNaN : JSNumber → Bool
  | .nan => true
  | .fin _ => false

/-- The method `validateStat` (lines 763-768), for bounds `min` and `max` that are
numbers other than `NaN`. -/
def validateStat (value : JSValue) (min max : Int) (fallback : JSValue) : JSValue :=
  if typeof value != JSType.number || isNaN (numberOf value) then fallback
  else .number (clamp min max (numberOf value))

/-- The method `isStatCritical` (lines 776-781) on a number, with the two
thresholds of the settings (20 and 80 at construction, lines 87-88). -/
def isStatCritical (criticalThreshold stressCriticalThreshold : Int) (stat : String)
    (value : JSNumber) : Bool :=
  if stat = "stress" then atLeast value stressCriticalThreshold
  else atMost value criticalThreshold

end HudController

/-! ### Vocabulary of the statements about the drain -/

/-- The `eventError` notifications among those dispatched on the page. -/
def eventErrors (page : Page) : List Notification :=
  page.dispatched.filter (fun n => n.name == "eventError")

/-- The events of a log of `processEvent` calls whose handler raised. -/
def faultsOf (log : List (InboundEvent × Bool)) : List InboundEvent :=
  (log.filter (fun entry => entry.2)).map (fun entry => entry.1)

/-- The `eventError` notification dispatched for a handler fault on `event`. -/
def faultNotice (now : Int) (event : InboundEvent) : Notification :=
  ⟨"eventError", HudEventManager.errorInfo event.action (eventObject event) now⟩

/-- A fault reported to `handleEventError`: its context, its data and the time
of the report. -/
structure Fault where
  context : JSValue
  data : JSValue
  time : Int

/-- The faults of a list reported one after the other. -/
def reportAll (h : Hud) (faults : List Fault) : Hud :=
  faults.foldl
    (fun hud fault => HudEventManager.handleEventError hud fault.context fault.data fault.time) h

/-- What the guard of `processEventQueue` keeps: the draining flag is set exactly
when one drain loop is waiting, and no second loop is. -/
def guarded (r : HudEventManager.Running) : Prop :=
  (r.hud.manager.processing = true ∧ r.loops = 1) ∨
    (r.hud.manager.processing = false ∧ r.loops = 0)

/-- The value the store of the page holds under a key (`undefined` without a
store). -/
def storeValue (h : Hud) (key : String) : JSValue :=
  match h.page.stateManager with
  | some s => HudStateManager.stateGet s key
  | none => .undefined

/-- An engine for pages whose payloads need no conversion from text. -/
def plainEngine : Engine :=
  ⟨fun _ => .nan, fun _ => "[object Object]"⟩

/-- A page with the given store and theme manager, on which nothing has happened
yet. -/
def pageOf (store : Option Store) (theme : Option ThemeManager) : Page :=
  ⟨store, theme, plainEngine, [], [], []⟩

/-- A theme manager whose `triggerGlow` raises on the selector `'###'`, as
`document.querySelector` does on a selector that is not valid. -/
def strictSelectors : ThemeManager :=
  ⟨fun _ call => decide (call.method = "triggerGlow" ∧ call.args.head? = some (.string "###")),
    fun _ _ => .undefined⟩

/-- The payload `{ action: 'triggerGlow', element: '###', color: 'red' }`. -/
def glowPayload : JSValue :=
  .object [("action", .string "triggerGlow"), ("element", .string "###"),
    ("color", .string "red")]

/-- The payload `{ action: 'updatemoney', cash: c, bank: b }`. -/
def moneyPayload (c b : JSValue) : JSValue :=
  .object [("action", .string "updatemoney"), ("cash", c), ("bank", b)]

/-- The payload `{ action: 'hudtick', health: health }`. -/
def hudTickPayload (health : JSValue) : JSValue :=
  .object [("action", .string "hudtick"), ("health", health)]

/-- A message from the game with the given payload. -/
def fromGame (data : JSValue) : MessageEvent :=
  ⟨"nui-game-internal", data⟩

/-- The event queued for a payload that arrives at the time `t`. -/
def queuedFor (data : JSValue) (t : Int) : InboundEvent :=
  ⟨getProp data "action", data, t⟩

/-- A pipeline in the game with an empty store and the theme manager
`strictSelectors`, as the constructor leaves it. -/
def gameHud : Hud :=
  HudEventManager.construct true (pageOf (some HudStateManager.new) (some strictSelectors))

/-- The pipeline `gameHud` once it has handled fifty messages with the payload
`glowPayload`, one every second: each of them made its handler raise. -/
def strainedHud : Hud :=
  (List.range 50).foldl
    (fun h i => HudEventManager.handleIncomingMessage h (fromGame glowPayload) (1000 * i)) gameHud

/-- The pipeline `h` once it has accepted the messages of a list, each at its
time of arrival, and before it drains them. -/
def withAccepted (h : Hud) (messages : List (MessageEvent × Int)) : Hud :=
  { h with manager := HudEventManager.ingressAll h.manager messages }

/-- A store that holds `playerStats` with a health of 73. -/
def storeWithHealth73 : Store :=
  (HudStateManager.set HudStateManager.new (.string "playerStats")
    (.object [("health", num 73), ("armor", num 0), ("hunger", num 100), ("thirst", num 100),
      ("stress", num 0), ("oxygen", num 100), ("stamina", num 100)]) true).store

/-! ### The critical alert of the theme manager (`src/html/js/theme-manager.js`) -/

/-- The comparison `x > bound` between numbers (`NaN` compares false). -/
def exceeds : JSNumber → Int → Bool
  | .fin x, bound => decide (bound < x)
  | .nan, _ => false

/-- What `triggerCriticalAlert` reads and writes: the flag `animationsEnabled`, the
selectors for which `document.querySelector` finds an element, and the alerts
that took effect, each with its selector and its value (the element was given
the class `critical-state`, made to glow, and a `criticalAlert` event was
dispatched). -/
structure ThemeState where
  animationsEnabled : Bool
  elements : List String
  alerts : List (String × JSValue)
  deriving DecidableEq

namespace HudThemeManager

/-- The method `triggerCriticalAlert(element, value, threshold)` (lines 411-438)
for a selector `element` that is well formed; the current theme always has a
configuration, so reading its critical colour does not raise. -/
def triggerCriticalAlert (t : ThemeState) (engine : Engine) (element : String)
    (value : JSValue) (threshold : Int) : ThemeState :=
  if !t.animationsEnabled || exceeds (toNumber engine value) threshold then t
  else if !t.elements.contains element then t
  else { t with alerts := t.alerts ++ [(element, value)] }

end HudThemeManager

namespace HudEventManager

/-- The global initialization (lines 988-998): the constructor, then the call of
`initialize` made by the `DOMContentLoaded` listener. -/
def loaded (isNuiEnvironment : Bool) (page : Page) : Hud :=
  initializePipeline (construct isNuiEnvironment page)

/-- One `message` event on the window: each `message` listener the pipeline has
registered calls `handleIncomingMessage` with it (lines 69-71), one after the
other, the drain a call starts being run to its end before the next call. -/
def deliver (h : Hud) (event : MessageEvent) (now : Int) : Hud :=
  (List.range h.messageListeners).foldl (fun hud _ => handleIncomingMessage hud event now) h

/-- The actions whose handler writes to the store with the silent flag, or does
not write to the store. -/
def quietActions : List String :=
  ["hudtick", "car", "baseplate", "update", "triggerGlow", "criticalAlert", "valueChanged",
    "updateGpsLocation", "updateGpsStats", "show", "updatemoney", "setEffectsEnabled",
    "setNeonIntensity", "syncTheme"]

end HudEventManager

/-! ### Vocabulary of the statements about the handlers and about single updates -/

/-- A theme manager whose methods never raise and return `undefined`. -/
def calmTheme : ThemeManager :=
  ⟨fun _ _ => false, fun _ _ => .undefined⟩

/-- The store of the constructor with the callback `observer` subscribed to a
key. -/
def watchedStore (key : String) : Store :=
  HudStateManager.subscribe HudStateManager.new (.string key) HudStateManager.observer

/-- The payload `{ action: 'hudtick', health: 0, hunger: 0, thirst: 0, oxygen: 0,
engine: 0 }`. -/
def zeroTickPayload : JSValue :=
  .object [("action", .string "hudtick"), ("health", num 0), ("hunger", num 0),
    ("thirst", num 0), ("oxygen", num 0), ("engine", num 0)]

/-- The payload `{ action: 'hudtick', stress: stress }`. -/
def stressPayload (stress : JSValue) : JSValue :=
  .object [("action", .string "hudtick"), ("stress", stress)]

/-- The payload `{ action: 'car', show: true, speed: 60, fuel: 40, altitude: 12,
seatbelt: true }`. -/
def carPayload : JSValue :=
  .object [("action", .string "car"), ("show", .bool true), ("speed", num 60),
    ("fuel", num 40), ("altitude", num 12), ("seatbelt", .bool true)]

/-- The payload `{ action: 'hudtick', health: 90, speed: 60, engine: 80, nos: 50 }`. -/
def drivingTickPayload : JSValue :=
  .object [("action", .string "hudtick"), ("health", num 90), ("speed", num 60),
    ("engine", num 80), ("nos", num 50)]

/-- A pipeline in the game with the store of the constructor and no theme
manager, as the constructor leaves it. -/
def plainHud : Hud :=
  HudEventManager.construct true (pageOf (some HudStateManager.new) none)

namespace HudStateManager

/-- What `updateMultiple({k: v}, silent)` does once the key and the validator
have let the value through. -/
def commitBatch (s : Store) (key : String) (clonedValue oldValue : JSValue) (silent : Bool) :
    Outcome :=
  let s2 := incrementOperationCount { s with state := mapSet s.state key clonedValue }
  if !silent then
    let r := if !deepEqual clonedValue oldValue then notifyChange s2 key clonedValue oldValue
      else (s2, [])
    ⟨r.1, true, r.2⟩
  else ⟨s2, true, []⟩

end HudStateManager

set_option maxRecDepth 100000

open HudStateManager

/-! ## Auxiliary facts -/

mutual
theorem deepClone_eq : ∀ v : JSValue, deepClone v = v
  | .undefined => by simp [deepClone]
  | .null => by simp [deepClone]
  | .bool _ => by simp [deepClone]
  | .number _ => by simp [deepClone]
  | .string _ => by simp [deepClone]
  | .func _ => by simp [deepClone]
  | .date _ => by simp [deepClone]
  | .array items => by simp [deepClone, deepCloneItems_eq items]
  | .object fields => by simp [deepClone, deepCloneFields_eq fields]
theorem deepCloneItems_eq : ∀ l : List JSValue, deepCloneItems l = l
  | [] => by simp [deepCloneItems]
  | x :: xs => by simp [deepCloneItems, deepClone_eq x, deepCloneItems_eq xs]
theorem deepCloneFields_eq : ∀ l : List (String × JSValue), deepCloneFields l = l
  | [] => by simp [deepCloneFields]
  | (k, x) :: fs => by simp [deepCloneFields, deepClone_eq x, deepCloneFields_eq fs]
end

theorem mapGet?_mapSet_same {β : Type} (m : List (String × β)) (k : String) (x : β) :
    mapGet? (mapSet m k x) k = some x := by
  induction m with
  | nil => simp [mapSet, mapGet?]
  | cons e m ih =>
    obtain ⟨k1, y⟩ := e
    by_cases h : k1 = k
    · simp [mapSet, mapGet?, h]
    · simp [mapSet, mapGet?, h, ih]

theorem mapGet?_mapSet_ne {β : Type} (m : List (String × β)) (k j : String) (x : β)
    (h : k ≠ j) : mapGet? (mapSet m k x) j = mapGet? m j := by
  induction m with
  | nil => simp [mapSet, mapGet?, h]
  | cons e m ih =>
    obtain ⟨k1, y⟩ := e
    by_cases h1 : k1 = k
    · subst h1
      simp [mapSet, mapGet?, h]
    · by_cases h2 : k1 = j
      · subst h2
        simp [mapSet, mapGet?, h1]
      · simp [mapSet, mapGet?, h1, h2, ih]

namespace HudStateManager

theorem error_changeListeners (s : Store) : (error s).changeListeners = s.changeListeners := by
  unfold error initializeStore
  dsimp only
  split_ifs <;> rfl

theorem error_validators (s : Store) : (error s).validators = s.validators := by
  unfold error initializeStore
  dsimp only
  split_ifs <;> rfl

/-- An error leaves the backing map alone on an initialized store and below the
threshold, and it keeps the store within `n` errors of the threshold. -/
theorem error_quiet (s : Store) (n : Nat)
    (h : s.initialized = true ∨ s.errorCount + (n + 1) ≤ s.maxErrors) :
    (error s).state = s.state ∧
      ((error s).initialized = true ∨ (error s).errorCount + n ≤ (error s).maxErrors) := by
  unfold error initializeStore
  dsimp only
  rcases h with h | h
  · simp [h]
    split_ifs <;> simp [h]
  · have : ¬ (s.errorCount + 1 > s.maxErrors) := by omega
    simp [this]
    right; omega

theorem notifyEach_calls (s : Store) (ls : List Callback) (key : String) (nv ov : JSValue) :
    (notifyEach s ls key nv ov).2 = ls.map (fun cb => (⟨cb.id, nv, ov, key⟩ : Invocation)) := by
  induction ls generalizing s with
  | nil => simp [notifyEach]
  | cons cb rest ih => simp [notifyEach, ih]

theorem notifyEach_changeListeners (s : Store) (ls : List Callback) (key : String)
    (nv ov : JSValue) : (notifyEach s ls key nv ov).1.changeListeners = s.changeListeners := by
  induction ls generalizing s with
  | nil => simp [notifyEach]
  | cons cb rest ih =>
    simp only [notifyEach]
    rw [ih]
    split_ifs
    · exact error_changeListeners s
    · rfl

theorem notifyEach_validators (s : Store) (ls : List Callback) (key : String)
    (nv ov : JSValue) : (notifyEach s ls key nv ov).1.validators = s.validators := by
  induction ls generalizing s with
  | nil => simp [notifyEach]
  | cons cb rest ih =>
    simp only [notifyEach]
    rw [ih]
    split_ifs
    · exact error_validators s
    · rfl

/-- A pass over `ls` leaves the backing map alone when the store is initialized or
the throws of the pass, and `n` more, stay within the threshold. -/
theorem notifyEach_quiet (s : Store) (ls : List Callback) (key : String) (nv ov : JSValue)
    (n : Nat)
    (h : s.initialized = true ∨
      s.errorCount + ((ls.filter (fun cb => cb.throwsOn nv ov key)).length + n) ≤ s.maxErrors) :
    (notifyEach s ls key nv ov).1.state = s.state ∧
      ((notifyEach s ls key nv ov).1.initialized = true ∨
        (notifyEach s ls key nv ov).1.errorCount + n ≤ (notifyEach s ls key nv ov).1.maxErrors) := by
  induction ls generalizing s with
  | nil => simpa [notifyEach] using h
  | cons cb rest ih =>
    simp only [notifyEach]
    by_cases ht : cb.throwsOn nv ov key = true
    · simp only [ht, if_true]
      have hq := error_quiet s ((rest.filter (fun cb => cb.throwsOn nv ov key)).length + n) (by
        rcases h with h | h
        · exact Or.inl h
        · right
          simp [List.filter, ht] at h
          omega)
      have := ih (error s) hq.2
      exact ⟨this.1.trans hq.1, this.2⟩
    · simp only [ht]
      have := ih s (by
        rcases h with h | h
        · exact Or.inl h
        · right
          simp [List.filter, ht] at h
          omega)
      simpa using this

/-- The two loops of `notifyChange`, with the listener sets read once. -/
theorem notifyChange_eq (s : Store) (key : String) (nv ov : JSValue) :
    notifyChange s key nv ov =
      ((notifyEach (notifyEach s (listenersOf s key) key nv ov).1 (listenersOf s "*")
          key nv ov).1,
        (notifyEach s (listenersOf s key) key nv ov).2 ++
          (notifyEach (notifyEach s (listenersOf s key) key nv ov).1 (listenersOf s "*")
            key nv ov).2) := by
  unfold notifyChange listenersOf
  cases h1 : mapGet? s.changeListeners key with
  | none =>
    cases h2 : mapGet? s.changeListeners "*" with
    | none => simp [h2, notifyEach]
    | some gl => simp [h2, notifyEach]
  | some ls =>
    cases h2 : mapGet? s.changeListeners "*" with
    | none => simp [h2, notifyEach, notifyEach_changeListeners]
    | some gl => simp [h2, notifyEach_changeListeners]

theorem notifyChange_calls (s : Store) (key : String) (nv ov : JSValue) :
    (notifyChange s key nv ov).2 = notificationPass s key nv ov := by
  rw [notifyChange_eq]
  simp [notificationPass, notifyEach_calls]

theorem notifyChange_changeListeners (s : Store) (key : String) (nv ov : JSValue) :
    (notifyChange s key nv ov).1.changeListeners = s.changeListeners := by
  rw [notifyChange_eq]
  simp [notifyEach_changeListeners]

theorem notifyChange_validators (s : Store) (key : String) (nv ov : JSValue) :
    (notifyChange s key nv ov).1.validators = s.validators := by
  rw [notifyChange_eq]
  simp [notifyEach_validators]

/-- A notification pass leaves the backing map alone when the store is initialized
or the throws of the pass, and `n` more, stay within the threshold. -/
theorem notifyChange_quiet (s : Store) (key : String) (nv ov : JSValue) (n : Nat)
    (h : s.initialized = true ∨ s.errorCount + (throwCount s key nv ov + n) ≤ s.maxErrors) :
    (notifyChange s key nv ov).1.state = s.state ∧
      ((notifyChange s key nv ov).1.initialized = true ∨
        (notifyChange s key nv ov).1.errorCount + n ≤ (notifyChange s key nv ov).1.maxErrors) := by
  rw [notifyChange_eq]
  simp only
  unfold throwCount at h
  have hq := notifyEach_quiet s (listenersOf s key) key nv ov
    (((listenersOf s "*").filter (fun cb => cb.throwsOn nv ov key)).length + n) (by
      rcases h with h | h
      · exact Or.inl h
      · right
        rw [List.filter_append, List.length_append] at h
        omega)
  have hq2 := notifyEach_quiet (notifyEach s (listenersOf s key) key nv ov).1
    (listenersOf s "*") key nv ov n hq.2
  exact ⟨hq2.1.trans hq.1, hq2.2⟩

theorem commit_result (s : Store) (k : String) (cv ov : JSValue) (silent : Bool) :
    (commit s k cv ov silent).result = true := by
  unfold commit
  split_ifs <;> rfl

theorem commit_validators (s : Store) (k : String) (cv ov : JSValue) (silent : Bool) :
    (commit s k cv ov silent).store.validators = s.validators := by
  unfold commit incrementOperationCount
  split_ifs
  · rfl
  · simp [notifyChange_validators]
  · rfl

theorem commit_same (s : Store) (k : String) (cv ov : JSValue) (silent : Bool)
    (h : deepEqual ov cv = true) : commit s k cv ov silent = ⟨s, true, []⟩ := by
  simp [commit, h]

theorem commit_calls (s : Store) (k : String) (cv ov : JSValue)
    (h : deepEqual ov cv = false) :
    (commit s k cv ov false).calls = notificationPass s k cv ov := by
  simp [commit, h, notifyChange_calls, incrementOperationCount, notificationPass, listenersOf]

/-- A write that goes through stores the clone, unless a self-reset follows. -/
theorem commit_state (s : Store) (k : String) (cv ov : JSValue) (silent : Bool)
    (h : deepEqual ov cv = false)
    (hq : s.initialized = true ∨ s.errorCount + throwCount s k cv ov ≤ s.maxErrors) :
    (commit s k cv ov silent).store.state = mapSet s.state k cv := by
  unfold commit
  simp only [h]
  cases silent with
  | true => simp [incrementOperationCount]
  | false =>
    simp only [Bool.not_false, if_true, Bool.false_eq_true, if_false]
    have := (notifyChange_quiet
      (incrementOperationCount { s with state := mapSet s.state k cv }) k cv ov 0
      (by simpa [incrementOperationCount, throwCount, listenersOf] using hq)).1
    simpa [incrementOperationCount] using this

/-- With a valid key and no validator, `set` is the write of the clone. -/
theorem set_eq_commit (s : Store) (k : String) (v : JSValue) (silent : Bool)
    (hk : isValidKey (.string k) = true) (hnv : mapGet? s.validators k = none) :
    set s (.string k) v silent = commit s k (deepClone v) (stateGet s k) silent := by
  simp [set, hk, hnv]

/-- With a valid key and a validator that accepts, `set` is the write of the clone. -/
theorem set_eq_commit_of_accept (s : Store) (k : String) (v : JSValue) (silent : Bool)
    (hk : isValidKey (.string k) = true)
    (hval : ∀ f, mapGet? s.validators k = some f →
      ∃ r, f (deepClone v) (stateGet s k) = .returns r ∧ truthy r = true) :
    set s (.string k) v silent = commit s k (deepClone v) (stateGet s k) silent := by
  cases hf : mapGet? s.validators k with
  | none => exact set_eq_commit s k v silent hk hf
  | some f =>
    obtain ⟨r, hr, ht⟩ := hval f hf
    simp [set, hk, hf, hr, ht]

theorem get_eq (s : Store) (key d : JSValue) :
    get s key d =
      if isValidKey key = true ∧ stored s key ≠ .undefined then stored s key else d := by
  unfold get stored
  cases key <;> simp [isValidKey, deepClone_eq]
  rename_i k
  split_ifs <;> first | rfl | omega | (exfalso; omega) | simp_all

theorem seedAbsent_present (m ds : List (String × JSValue)) (k : String)
    (h : mapHas m k = true) :
    mapGet? (seedAbsent m ds) k = mapGet? m k ∧ mapHas (seedAbsent m ds) k = true := by
  induction ds generalizing m with
  | nil => exact ⟨rfl, h⟩
  | cons e rest ih =>
    obtain ⟨key, value⟩ := e
    simp only [seedAbsent]
    by_cases hk : mapHas m key = true
    · simpa [hk] using ih m h
    · have hne : key ≠ k := by
        intro e; subst e; exact hk h
      have h1 : mapGet? (mapSet m key (deepClone value)) k = mapGet? m k :=
        mapGet?_mapSet_ne m key k _ hne
      have h2 : mapHas (mapSet m key (deepClone value)) k = true := by
        unfold mapHas at h ⊢
        rw [h1]; exact h
      have := ih (mapSet m key (deepClone value)) h2
      simp only [Bool.not_eq_true] at hk
      simp only [hk, Bool.not_false, if_true]
      exact ⟨this.1.trans h1, this.2⟩

theorem seedAbsent_absent (m ds : List (String × JSValue)) (k : String) (v : JSValue)
    (h : mapHas m k = false) (hv : mapGet? ds k = some v) :
    mapGet? (seedAbsent m ds) k = some v := by
  induction ds generalizing m with
  | nil => simp [mapGet?] at hv
  | cons e rest ih =>
    obtain ⟨key, value⟩ := e
    simp only [seedAbsent]
    by_cases hk : key = k
    · subst hk
      simp only [mapGet?, if_true, Option.some.injEq] at hv
      subst hv
      simp only [h, Bool.not_false, if_true]
      have hs : mapGet? (mapSet m key (deepClone value)) key = some (deepClone value) :=
        mapGet?_mapSet_same m key _
      have hh : mapHas (mapSet m key (deepClone value)) key = true := by
        simp [mapHas, hs]
      rw [(seedAbsent_present _ rest key hh).1, hs, deepClone_eq]
    · simp only [mapGet?, hk, if_false] at hv
      by_cases hm : mapHas m key = true
      · simpa [hm] using ih m h hv
      · simp only [Bool.not_eq_true] at hm
        simp only [hm, Bool.not_false, if_true]
        apply ih _ _ hv
        unfold mapHas at h ⊢
        rw [mapGet?_mapSet_ne m key k _ hk]; exact h

/-- When the first pass collects its changes, every entry had a valid key and
passed its validator, and the changes are the entries in order, each with the
value the store held before the call. -/
theorem firstPass_collected (s : Store) (es : List (String × JSValue)) (acc cs : List Change)
    (h : firstPass s es acc = .collected cs) :
    cs = acc ++ es.map (fun e => (⟨e.1, deepClone e.2, stateGet s e.1⟩ : Change)) ∧
      ∀ e ∈ es, isValidKey (.string e.1) = true ∧
        ∀ f, mapGet? s.validators e.1 = some f →
          ∃ r, f (deepClone e.2) (stateGet s e.1) = .returns r ∧ truthy r = true := by
  induction es generalizing acc with
  | nil =>
    simp only [firstPass, FirstPass.collected.injEq] at h
    simp [h]
  | cons e rest ih =>
    obtain ⟨key, value⟩ := e
    simp only [firstPass] at h
    by_cases hk : isValidKey (.string key) = true
    · simp only [hk, Bool.not_true, Bool.false_eq_true, if_false] at h
      cases hf : mapGet? s.validators key with
      | none =>
        simp only [hf] at h
        obtain ⟨h1, h2⟩ := ih _ h
        refine ⟨by simpa using h1, ?_⟩
        intro e he
        rcases List.mem_cons.mp he with he | he
        · subst he
          exact ⟨hk, by intro f hf2; simp [hf] at hf2⟩
        · exact h2 e he
      | some f =>
        simp only [hf] at h
        cases hr : f (deepClone value) (stateGet s key) with
        | throws => simp [hr] at h
        | returns r =>
          simp only [hr] at h
          by_cases ht : truthy r = true
          · simp only [ht, Bool.not_true, Bool.false_eq_true, if_false] at h
            obtain ⟨h1, h2⟩ := ih _ h
            refine ⟨by simpa using h1, ?_⟩
            intro e he
            rcases List.mem_cons.mp he with he | he
            · subst he
              refine ⟨hk, ?_⟩
              intro g hg
              rw [hf] at hg
              cases hg
              exact ⟨r, hr, ht⟩
            · exact h2 e he
          · simp [ht] at h
    · simp [hk] at h

theorem notifyChanges_calls (s0 s : Store) (cs : List Change)
    (hl : s.changeListeners = s0.changeListeners) :
    (notifyChanges s cs).2 =
      cs.flatMap (fun c =>
        if deepEqual c.newValue c.oldValue = true then []
        else notificationPass s0 c.key c.newValue c.oldValue) := by
  induction cs generalizing s with
  | nil => simp [notifyChanges]
  | cons c rest ih =>
    simp only [notifyChanges, List.flatMap_cons]
    by_cases hd : deepEqual c.newValue c.oldValue = true
    · simp only [hd, Bool.not_true, Bool.false_eq_true, if_false, if_true, List.nil_append]
      exact ih s hl
    · simp only [Bool.not_eq_true] at hd
      simp only [hd, Bool.not_false, if_true, Bool.false_eq_true, if_false]
      rw [ih _ ((notifyChange_changeListeners s c.key c.newValue c.oldValue).trans hl),
        notifyChange_calls]
      simp [notificationPass, listenersOf, hl]

theorem updateMultiple_not_object (s : Store) (updates : JSValue) (silent : Bool)
    (hg : (!truthy updates || typeof updates != JSType.object) = true) :
    updateMultiple s updates silent = ⟨error s, false, []⟩ := by
  simp only [updateMultiple, hg, if_true]

theorem updateMultiple_errored (s : Store) (updates : JSValue) (silent : Bool)
    (hg : (!truthy updates || typeof updates != JSType.object) = false)
    (hfp : firstPass s (entries updates) [] = .errored) :
    updateMultiple s updates silent = ⟨error s, false, []⟩ := by
  simp only [updateMultiple, hg, hfp, Bool.false_eq_true, if_false]

theorem updateMultiple_warned (s : Store) (updates : JSValue) (silent : Bool)
    (hg : (!truthy updates || typeof updates != JSType.object) = false)
    (hfp : firstPass s (entries updates) [] = .warned) :
    updateMultiple s updates silent = ⟨s, false, []⟩ := by
  simp only [updateMultiple, hg, hfp, Bool.false_eq_true, if_false]

theorem updateMultiple_collected (s : Store) (updates : JSValue) (cs : List Change)
    (hg : (!truthy updates || typeof updates != JSType.object) = false)
    (hfp : firstPass s (entries updates) [] = .collected cs) :
    updateMultiple s updates false =
      ⟨(notifyChanges (incrementOperationCount
          { s with state := applyChanges s.state cs }) cs).1, true,
        (notifyChanges (incrementOperationCount
          { s with state := applyChanges s.state cs }) cs).2⟩ := by
  simp only [updateMultiple, hg, hfp, Bool.false_eq_true, if_false, Bool.not_false, if_true]

/-! ## C1: `set` then `get` -/

/-- C1, amended: on a store where the throws of the notification pass keep the
error counter within `maxErrors`, for a valid key `k` with no validator and a
value `v` other than `undefined` that `deepEqual` does not equate with a different
current value, `get(k)` after `set(k, v)` returns a value structurally equal to
`v`. -/
theorem set_then_get (s : Store) (k : String) (v d : JSValue) (silent : Bool)
    (hk : isValidKey (.string k) = true)
    (hnv : mapHas s.validators k = false)
    (hv : v ≠ .undefined)
    (hq : s.errorCount + throwCount s k v (stateGet s k) ≤ s.maxErrors)
    (heq : deepEqual (stateGet s k) v = true → stateGet s k = v) :
    get (set s (.string k) v silent).store (.string k) d = v := by
  have hnone : mapGet? s.validators k = none := by simpa [mapHas] using hnv
  rw [set_eq_commit s k v silent hk hnone, deepClone_eq, get_eq]
  by_cases hd : deepEqual (stateGet s k) v = true
  · rw [commit_same s k v _ silent hd]
    simp [stored, hk, heq hd, hv]
  · simp only [Bool.not_eq_true] at hd
    have hst := commit_state s k v (stateGet s k) silent hd (Or.inr hq)
    have : stored (commit s k v (stateGet s k) silent).store (.string k) = v := by
      show (mapGet? (commit s k v (stateGet s k) silent).store.state k).getD .undefined = v
      rw [hst, mapGet?_mapSet_same]
      rfl
    simp [this, hk, hv]

/-- C1, witness: an initialized store with a throwing wildcard subscriber, and a
nested value. -/
theorem set_then_get_witness :
    get (set (initializeStore (subscribeAll new thrower) [("cash", .number (.fin 1))] false).1
        (.string "cash") (.object [("at", .date (.fin 5)), ("xs", .array [.null])]) false).store
      (.string "cash") .null
      = .object [("at", .date (.fin 5)), ("xs", .array [.null])] :=
  set_then_get _ "cash" _ .null false (by decide) (by decide) (by decide) (by decide) (by decide)

/-- C1, counterexample: on a store that was never initialized and has counted
fifty errors, `set("cash", 500)` succeeds, its wildcard subscriber throws, the
store resets itself, and `get("cash")` returns the default `null`, not `500`.
On the store of the constructor, `set("cash", undefined)` succeeds and
`get("cash")` returns the default `null`, not `undefined`. -/
theorem set_then_get_lost_by_reset :
    (isValidKey (.string "cash") = true ∧
      mapHas (fiftyErrors (subscribeAll new thrower)).validators "cash" = false ∧
      (set (fiftyErrors (subscribeAll new thrower)) (.string "cash") (.number (.fin 500))
        false).result = true ∧
      get (set (fiftyErrors (subscribeAll new thrower)) (.string "cash") (.number (.fin 500))
        false).store (.string "cash") .null = .null) ∧
    ((set new (.string "cash") .undefined false).result = true ∧
      get (set new (.string "cash") .undefined false).store (.string "cash") .null = .null) := by
  decide

/-! ## C3: a validator that always refuses -/

/-- C3: when the validator registered on `k` returns `false` for every input,
`set(k, v)` returns `false`, `get(k)` returns what it returned before, and no
subscriber is called, whatever the store. -/
theorem set_refused_by_validator (s : Store) (k : String) (v d : JSValue) (silent : Bool)
    (f : Validator) (hf : mapGet? s.validators k = some f)
    (hrej : ∀ a b, f a b = .returns (.bool false)) :
    (set s (.string k) v silent).result = false ∧
      get (set s (.string k) v silent).store (.string k) d = get s (.string k) d ∧
      (set s (.string k) v silent).calls = [] := by
  by_cases hk : isValidKey (.string k) = true
  · simp [set, hk, hf, hrej, truthy]
  · simp only [Bool.not_eq_true] at hk
    simp [set, get, hk]

/-- C3, witness: a store holding `volume = 3` with a subscriber, and a validator on
`volume` that refuses everything. -/
theorem set_refused_by_validator_witness :
    (set (addValidator (subscribe (set new (.string "volume") (.number (.fin 3)) false).store
        (.string "volume") observer) (.string "volume") (fun _ _ => .returns (.bool false))).1
      (.string "volume") (.number (.fin 9)) false).result = false ∧
    get (set (addValidator (subscribe (set new (.string "volume") (.number (.fin 3)) false).store
        (.string "volume") observer) (.string "volume") (fun _ _ => .returns (.bool false))).1
      (.string "volume") (.number (.fin 9)) false).store (.string "volume") .null
      = get (addValidator (subscribe (set new (.string "volume") (.number (.fin 3)) false).store
        (.string "volume") observer) (.string "volume") (fun _ _ => .returns (.bool false))).1
        (.string "volume") .null ∧
    (set (addValidator (subscribe (set new (.string "volume") (.number (.fin 3)) false).store
        (.string "volume") observer) (.string "volume") (fun _ _ => .returns (.bool false))).1
      (.string "volume") (.number (.fin 9)) false).calls = [] :=
  set_refused_by_validator _ "volume" _ .null false (fun _ _ => .returns (.bool false))
    rfl (fun _ _ => rfl)

/-! ## C4: the same value twice -/

/-- C4, amended: when the validator of a valid key `k`, if any, accepts `v`, when
`deepEqual(v, v)` holds, and when the throws of the first notification pass keep
the error counter within `maxErrors`, the second of two calls `set(k, v)` in a row returns `true` and calls no subscriber. -/
theorem set_twice_is_quiet (s : Store) (k : String) (v : JSValue) (silent1 silent2 : Bool)
    (hk : isValidKey (.string k) = true)
    (hval : ∀ f, mapGet? s.validators k = some f →
      ∀ old, ∃ r, f (deepClone v) old = .returns r ∧ truthy r = true)
    (hrefl : deepEqual v v = true)
    (hq : s.errorCount + throwCount s k v (stateGet s k) ≤ s.maxErrors) :
    (set (set s (.string k) v silent1).store (.string k) v silent2).result = true ∧
      (set (set s (.string k) v silent1).store (.string k) v silent2).calls = [] := by
  rw [set_eq_commit_of_accept s k v silent1 hk (fun f hf => hval f hf _), deepClone_eq]
  by_cases hd : deepEqual (stateGet s k) v = true
  · rw [commit_same s k v _ silent1 hd]
    rw [set_eq_commit_of_accept s k v silent2 hk (fun f hf => hval f hf _), deepClone_eq,
      commit_same s k v _ silent2 hd]
    exact ⟨rfl, rfl⟩
  · simp only [Bool.not_eq_true] at hd
    have hst := commit_state s k v (stateGet s k) silent1 hd (Or.inr hq)
    have hvs := commit_validators s k v (stateGet s k) silent1
    have hget : stateGet (commit s k v (stateGet s k) silent1).store k = v := by
      show (mapGet? (commit s k v (stateGet s k) silent1).store.state k).getD .undefined = v
      rw [hst, mapGet?_mapSet_same]
      rfl
    rw [set_eq_commit_of_accept _ k v silent2 hk (fun f hf => hval f (hvs ▸ hf) _),
      deepClone_eq, hget, commit_same _ k v v silent2 hrefl]
    exact ⟨rfl, rfl⟩

/-- C4, witness: a first write that changes `flag` and notifies, then the same write. -/
theorem set_twice_is_quiet_witness :
    (set (set (addValidator (subscribe new (.string "flag") thrower) (.string "flag")
        HudValidators.boolean).1 (.string "flag") (.bool true) false).store
      (.string "flag") (.bool true) false).result = true ∧
    (set (set (addValidator (subscribe new (.string "flag") thrower) (.string "flag")
        HudValidators.boolean).1 (.string "flag") (.bool true) false).store
      (.string "flag") (.bool true) false).calls = [] :=
  set_twice_is_quiet _ "flag" (.bool true) false false (by decide)
    (fun f hf old => ⟨.bool true, by
      have : f = HudValidators.boolean := by
        have h : mapGet? (addValidator (subscribe new (.string "flag") thrower) (.string "flag")
          HudValidators.boolean).1.validators "flag" = some HudValidators.boolean := rfl
        rw [h] at hf
        exact (Option.some.inj hf).symm
      subst this
      exact ⟨rfl, rfl⟩⟩)
    (by decide) (by decide)

/-- C4, counterexample: with the library validator `boolean` on `volume`, the
second of two calls `set("volume", 5)` in a row returns `false`, not `true`.
On a store that was never initialized and has counted fifty errors, with a
throwing subscriber on `health`, the first `set("health", 73)` ends in a
self-reset and the second one calls the subscriber again. -/
theorem set_twice_refused :
    (isValidKey (.string "volume") = true ∧
      (set (set (addValidator new (.string "volume") HudValidators.boolean).1
          (.string "volume") (.number (.fin 5)) false).store
        (.string "volume") (.number (.fin 5)) false).result = false) ∧
    (set (set (fiftyErrors (subscribe new (.string "health") thrower))
        (.string "health") (.number (.fin 73)) false).store
      (.string "health") (.number (.fin 73)) false).calls
      = [⟨2, .number (.fin 73), .undefined, "health"⟩] := by
  decide

/-! ## C5: an invalid key -/

/-- C5, amended: on a store whose error counter is below `maxErrors`, `set` with a
key that fails `isValidKey` returns `false`, leaves the backing map as it was and
calls no subscriber. -/
theorem set_invalid_key (s : Store) (key v : JSValue) (silent : Bool)
    (hk : isValidKey key = false)
    (hq : s.errorCount < s.maxErrors) :
    (set s key v silent).result = false ∧
      (set s key v silent).store.state = s.state ∧
      (set s key v silent).calls = [] := by
  have he := (error_quiet s 0 (Or.inr (by omega))).1
  simp [set, hk, he]

/-- C5, witness: a store holding `cash = 500` that has counted one error. -/
theorem set_invalid_key_witness :
    (set (set (set new (.string "cash") (.number (.fin 500)) false).store (.string "") .null
      false).store (.number (.fin 7)) .null false).result = false ∧
    (set (set (set new (.string "cash") (.number (.fin 500)) false).store (.string "") .null
      false).store (.number (.fin 7)) .null false).store.state
      = [("cash", .number (.fin 500))] ∧
    (set (set (set new (.string "cash") (.number (.fin 500)) false).store (.string "") .null
      false).store (.number (.fin 7)) .null false).calls = [] :=
  have h := set_invalid_key
    (set (set new (.string "cash") (.number (.fin 500)) false).store (.string "") .null
      false).store (.number (.fin 7)) .null false (by decide) (by decide)
  ⟨h.1, h.2.1.trans (by decide), h.2.2⟩

/-- C5, counterexample: a store built by `set('cash', 500)` and fifty refused keys,
never initialized; one more `set` with a key that is not a string returns `false`
and empties the backing map. -/
theorem set_invalid_key_resets :
    isValidKey (.number (.fin 7)) = false ∧
    (fiftyErrors (set new (.string "cash") (.number (.fin 500)) false).store).state
      = [("cash", .number (.fin 500))] ∧
    (set (fiftyErrors (set new (.string "cash") (.number (.fin 500)) false).store)
      (.number (.fin 7)) .null false).result = false ∧
    (set (fiftyErrors (set new (.string "cash") (.number (.fin 500)) false).store)
      (.number (.fin 7)) .null false).store.state = [] := by
  decide

/-! ## C2: a batch that is refused -/

/-- C2, amended: when some key of the batch is invalid, or the validator of some
key refuses its `(newValue, oldValue)` pair, `updateMultiple` returns `false` and
calls no subscriber, on every store; when the error counter of the store is below
`maxErrors`, the backing map is as it was. -/
theorem updateMultiple_refused (s : Store) (updates : JSValue) (silent : Bool)
    (hbad : ∃ e ∈ entries updates, isValidKey (.string e.1) = false ∨
      ∃ f r, mapGet? s.validators e.1 = some f ∧
        f (deepClone e.2) (stateGet s e.1) = .returns r ∧ truthy r = false) :
    (updateMultiple s updates silent).result = false ∧
      (updateMultiple s updates silent).calls = [] ∧
      (s.errorCount < s.maxErrors →
        (updateMultiple s updates silent).store.state = s.state) := by
  have he : s.errorCount < s.maxErrors → (error s).state = s.state :=
    fun hq => (error_quiet s 0 (Or.inr (by omega))).1
  rcases Bool.eq_false_or_eq_true (!truthy updates || typeof updates != JSType.object)
    with hg | hg
  · rw [updateMultiple_not_object s updates silent hg]
    exact ⟨rfl, rfl, he⟩
  · cases hfp : firstPass s (entries updates) [] with
    | errored =>
      rw [updateMultiple_errored s updates silent hg hfp]
      exact ⟨rfl, rfl, he⟩
    | warned =>
      rw [updateMultiple_warned s updates silent hg hfp]
      exact ⟨rfl, rfl, fun _ => rfl⟩
    | collected cs =>
      exfalso
      obtain ⟨e, he1, he2⟩ := hbad
      obtain ⟨hv, hacc⟩ := (firstPass_collected s _ _ _ hfp).2 e he1
      rcases he2 with h | ⟨f, r, hf, hr, ht⟩
      · rw [hv] at h; cases h
      · obtain ⟨r2, hr2, ht2⟩ := hacc f hf
        rw [hr] at hr2
        cases hr2
        rw [ht] at ht2; cases ht2

/-- C2, witness: the batch `{a: 1, b: 2}` on a store holding `a = 0` with a
subscriber on `a`, where the validator of `b` is the library validator `boolean`. -/
theorem updateMultiple_refused_witness :
    (updateMultiple (addValidator (subscribe (set new (.string "a") (.number (.fin 0)) false).store
        (.string "a") observer) (.string "b") HudValidators.boolean).1
      (.object [("a", .number (.fin 1)), ("b", .number (.fin 2))]) false).result = false ∧
    (updateMultiple (addValidator (subscribe (set new (.string "a") (.number (.fin 0)) false).store
        (.string "a") observer) (.string "b") HudValidators.boolean).1
      (.object [("a", .number (.fin 1)), ("b", .number (.fin 2))]) false).calls = [] ∧
    (updateMultiple (addValidator (subscribe (set new (.string "a") (.number (.fin 0)) false).store
        (.string "a") observer) (.string "b") HudValidators.boolean).1
      (.object [("a", .number (.fin 1)), ("b", .number (.fin 2))]) false).store.state
      = [("a", .number (.fin 0))] :=
  have h := updateMultiple_refused
    (addValidator (subscribe (set new (.string "a") (.number (.fin 0)) false).store
      (.string "a") observer) (.string "b") HudValidators.boolean).1
    (.object [("a", .number (.fin 1)), ("b", .number (.fin 2))]) false
    ⟨("b", .number (.fin 2)), by decide,
      Or.inr ⟨HudValidators.boolean, .bool false, rfl, rfl, rfl⟩⟩
  ⟨h.1, h.2.1, (h.2.2 (by decide)).trans (by decide)⟩

/-- C2, counterexample: a store built by `set('cash', 500)` and fifty refused keys,
never initialized; a batch with the invalid key `''` returns `false` and empties
the backing map, so that `get('cash')` no longer returns `500`. -/
theorem updateMultiple_invalid_key_resets :
    isValidKey (.string "") = false ∧
    get (fiftyErrors (set new (.string "cash") (.number (.fin 500)) false).store)
      (.string "cash") .null = .number (.fin 500) ∧
    (updateMultiple (fiftyErrors (set new (.string "cash") (.number (.fin 500)) false).store)
      (.object [("", .number (.fin 1))]) false).result = false ∧
    get (updateMultiple (fiftyErrors (set new (.string "cash") (.number (.fin 500)) false).store)
      (.object [("", .number (.fin 1))]) false).store (.string "cash") .null = .null := by
  decide

/-! ## C6: the order of the calls -/

/-- C6, at the failing input: with one callback registered through `subscribeAll`,
the change made by `set('*', 1)` calls that one registration twice. -/
theorem set_wildcard_key_calls_twice :
    isValidKey (.string "*") = true ∧
    (listenersOf (subscribeAll new observer) "*").map (fun cb => cb.id) = [1] ∧
    (set (subscribeAll new observer) (.string "*") (.number (.fin 1)) false).calls
      = [⟨1, .number (.fin 1), .undefined, "*"⟩, ⟨1, .number (.fin 1), .undefined, "*"⟩] := by
  decide

/-! ## C7: the notifications of a batch -/

/-- C7: the calls of a successful `updateMultiple(updates, false)` are, in the
order of the entries of `updates`, one notification pass `(newValue, oldValue, key)`
for each entry whose new value is not `deepEqual` to the value the store held
before the call, and nothing for the other entries. -/
theorem updateMultiple_notifications (s : Store) (updates : JSValue)
    (h : (updateMultiple s updates false).result = true) :
    (updateMultiple s updates false).calls =
      (entries updates).flatMap (fun e =>
        if deepEqual (deepClone e.2) (stateGet s e.1) = true then []
        else notificationPass s e.1 (deepClone e.2) (stateGet s e.1)) := by
  rcases Bool.eq_false_or_eq_true (!truthy updates || typeof updates != JSType.object)
    with hg | hg
  · rw [updateMultiple_not_object s updates false hg] at h
    cases h
  · cases hfp : firstPass s (entries updates) [] with
    | errored =>
      rw [updateMultiple_errored s updates false hg hfp] at h
      cases h
    | warned =>
      rw [updateMultiple_warned s updates false hg hfp] at h
      cases h
    | collected cs =>
      have hcs := (firstPass_collected s _ _ _ hfp).1
      simp only [List.nil_append] at hcs
      rw [updateMultiple_collected s updates cs hg hfp]
      simp only
      rw [notifyChanges_calls s
        (incrementOperationCount { s with state := applyChanges s.state cs }) cs rfl, hcs,
        List.flatMap_map]

/-- C7, witness: the batch `{a: 1, b: 2, c: 3}` on a store holding `a = 0, b = 2`,
with a subscriber on `a`, one on `b` and one on the wildcard key. -/
theorem updateMultiple_notifications_witness :
    (updateMultiple
      (subscribeAll (subscribe (subscribe
        (updateMultiple new (.object [("a", .number (.fin 0)), ("b", .number (.fin 2))]) true).store
        (.string "a") observer) (.string "b") thrower) ⟨3, fun _ _ _ => false⟩)
      (.object [("a", .number (.fin 1)), ("b", .number (.fin 2)), ("c", .number (.fin 3))])
      false).calls
      = [⟨1, .number (.fin 1), .number (.fin 0), "a"⟩, ⟨3, .number (.fin 1), .number (.fin 0), "a"⟩,
         ⟨3, .number (.fin 3), .undefined, "c"⟩] :=
  (updateMultiple_notifications _ _ (by decide)).trans (by decide)

/-! ## C8: callbacks that throw -/

/-- C8, amended: when a non-silent `set(k, v)` changes the value of `k`, every
callback registered on `k` and every callback registered on the wildcard key is
called, whichever of them throw, and `set` returns `true`; the new value is the
one stored after the call when the throws keep the error counter within
`maxErrors`. -/
theorem set_calls_all_despite_throws (s : Store) (k : String) (v : JSValue)
    (hk : isValidKey (.string k) = true)
    (hval : ∀ f, mapGet? s.validators k = some f →
      ∃ r, f (deepClone v) (stateGet s k) = .returns r ∧ truthy r = true)
    (hchg : deepEqual (stateGet s k) (deepClone v) = false) :
    (set s (.string k) v false).result = true ∧
      (set s (.string k) v false).calls = notificationPass s k (deepClone v) (stateGet s k) ∧
      (s.errorCount + throwCount s k (deepClone v) (stateGet s k) ≤ s.maxErrors →
        stateGet (set s (.string k) v false).store k = deepClone v) := by
  rw [set_eq_commit_of_accept s k v false hk hval]
  refine ⟨commit_result _ _ _ _ _, commit_calls s k _ _ hchg, ?_⟩
  intro hq
  show (mapGet? (commit s k (deepClone v) (stateGet s k) false).store.state k).getD .undefined
    = deepClone v
  rw [commit_state s k _ _ false hchg (Or.inr hq), mapGet?_mapSet_same]
  rfl

/-- C8, witness: a thrower and an observer on `health`, a thrower on the wildcard
key. -/
theorem set_calls_all_despite_throws_witness :
    (set (subscribeAll (subscribe (subscribe new (.string "health") thrower)
        (.string "health") observer) ⟨3, fun _ _ _ => true⟩)
      (.string "health") (.number (.fin 73)) false).result = true ∧
    (set (subscribeAll (subscribe (subscribe new (.string "health") thrower)
        (.string "health") observer) ⟨3, fun _ _ _ => true⟩)
      (.string "health") (.number (.fin 73)) false).calls
      = [⟨2, .number (.fin 73), .undefined, "health"⟩, ⟨1, .number (.fin 73), .undefined, "health"⟩,
         ⟨3, .number (.fin 73), .undefined, "health"⟩] ∧
    stateGet (set (subscribeAll (subscribe (subscribe new (.string "health") thrower)
        (.string "health") observer) ⟨3, fun _ _ _ => true⟩)
      (.string "health") (.number (.fin 73)) false).store "health" = .number (.fin 73) :=
  have h := set_calls_all_despite_throws
    (subscribeAll (subscribe (subscribe new (.string "health") thrower)
      (.string "health") observer) ⟨3, fun _ _ _ => true⟩)
    "health" (.number (.fin 73)) (by decide) (fun f hf => by cases hf) (by decide)
  ⟨h.1, h.2.1.trans (by decide), h.2.2 (by decide)⟩

/-- C8, counterexample: on a store that was never initialized and has counted
fifty errors, a thrower and an observer are registered on `health`; `set('health',
73)` calls both and returns `true`, but the throw resets the store and `73` is not
stored. -/
theorem set_throw_resets_store :
    (set (fiftyErrors (subscribe (subscribe new (.string "health") thrower)
        (.string "health") observer))
      (.string "health") (.number (.fin 73)) false).result = true ∧
    (set (fiftyErrors (subscribe (subscribe new (.string "health") thrower)
        (.string "health") observer))
      (.string "health") (.number (.fin 73)) false).calls
      = [⟨2, .number (.fin 73), .undefined, "health"⟩,
         ⟨1, .number (.fin 73), .undefined, "health"⟩] ∧
    has (set (fiftyErrors (subscribe (subscribe new (.string "health") thrower)
        (.string "health") observer))
      (.string "health") (.number (.fin 73)) false).store (.string "health") = false := by
  decide

/-! ## C9: `get` and `has` -/

/-- C9, amended: `get(k, d)` returns a value structurally equal to the stored
value when `k` is valid and the stored value is not `undefined`; it returns `d`
when `k` is invalid, when `k` is absent, and when the value stored for `k` is
`undefined`. -/
theorem get_default_or_stored (s : Store) (key d : JSValue) :
    get s key d =
      if isValidKey key = true ∧ stored s key ≠ .undefined then stored s key else d :=
  get_eq s key d

/-- C9, counterexample: after `set('a', 1)` and `set('a', undefined)` the key is
valid and `has('a')` is true, yet `get('a', 0)` returns the default `0`, which is
not the stored value. -/
theorem get_default_for_stored_undefined :
    isValidKey (.string "a") = true ∧
    has (set (set new (.string "a") (.number (.fin 1)) false).store (.string "a")
      .undefined false).store (.string "a") = true ∧
    stored (set (set new (.string "a") (.number (.fin 1)) false).store (.string "a")
      .undefined false).store (.string "a") = .undefined ∧
    get (set (set new (.string "a") (.number (.fin 1)) false).store (.string "a")
      .undefined false).store (.string "a") (.number (.fin 0)) = .number (.fin 0) := by
  decide

/-! ## C10: `initialize` with `merge` -/

/-- C10, amended: on an initialized store, `initialize(defaults, true)` returns
`true`, every key present before the call holds its prior value, and every key of
`defaults` absent before the call holds the value given in `defaults`. -/
theorem initialize_merge (s : Store) (defaults : List (String × JSValue))
    (hinit : s.initialized = true) :
    (initializeStore s defaults true).2 = true ∧
      (∀ k, mapHas s.state k = true →
        mapGet? (initializeStore s defaults true).1.state k = mapGet? s.state k) ∧
      (∀ k v, mapHas s.state k = false → mapGet? defaults k = some v →
        mapGet? (initializeStore s defaults true).1.state k = some v) := by
  simp only [initializeStore, hinit, Bool.not_true, Bool.and_false, Bool.false_eq_true,
    if_false, Bool.and_self, if_true]
  refine ⟨trivial, ?_, ?_⟩
  · intro k hk
    exact (seedAbsent_present s.state defaults k hk).1
  · intro k v hk hv
    exact seedAbsent_absent s.state defaults k v hk hv

/-- C10, witness: a store initialized with `a = 1`, merged with `{a: 9, b: 2}`. -/
theorem initialize_merge_witness :
    (initializeStore (initializeStore new [("a", .number (.fin 1))] false).1
      [("a", .number (.fin 9)), ("b", .number (.fin 2))] true).1.state
      = [("a", .number (.fin 1)), ("b", .number (.fin 2))] ∧
    mapGet? (initializeStore (initializeStore new [("a", .number (.fin 1))] false).1
      [("a", .number (.fin 9)), ("b", .number (.fin 2))] true).1.state "b"
      = some (.number (.fin 2)) :=
  ⟨by decide,
    (initialize_merge (initializeStore new [("a", .number (.fin 1))] false).1
      [("a", .number (.fin 9)), ("b", .number (.fin 2))] (by decide)).2.2 "b" _
      (by decide) (by decide)⟩

/-- C10, counterexample: on a store that was never initialized and holds `a = 1`,
`initialize` with `merge = true` and the defaults `{b: 2}` returns `true` and drops
the key `a`. -/
theorem initialize_merge_drops_keys :
    has (set new (.string "a") (.number (.fin 1)) false).store (.string "a") = true ∧
    (initializeStore (set new (.string "a") (.number (.fin 1)) false).store
      [("b", .number (.fin 2))] true).2 = true ∧
    has (initializeStore (set new (.string "a") (.number (.fin 1)) false).store
      [("b", .number (.fin 2))] true).1 (.string "a") = false := by
  decide

theorem mapGet?_mapDelete_same {β : Type} (m : List (String × β)) (k : String) :
    mapGet? (mapDelete m k) k = none := by
  induction m with
  | nil => rfl
  | cons e m ih =>
    obtain ⟨k1, y⟩ := e
    by_cases h : k1 = k
    · simp [mapDelete, h, ih]
    · simp [mapDelete, mapGet?, h, ih]

theorem mapGet?_mapDelete_ne {β : Type} (m : List (String × β)) (k j : String)
    (h : k ≠ j) : mapGet? (mapDelete m k) j = mapGet? m j := by
  induction m with
  | nil => rfl
  | cons e m ih =>
    obtain ⟨k1, y⟩ := e
    by_cases h1 : k1 = k
    · subst h1
      simp [mapDelete, mapGet?, h, ih]
    · by_cases h2 : k1 = j
      · subst h2
        simp [mapDelete, mapGet?, h1]
      · simp [mapDelete, mapGet?, h1, h2, ih]

theorem mapSet_mapSet {β : Type} (m : List (String × β)) (k : String) (x y : β) :
    mapSet (mapSet m k x) k y = mapSet m k y := by
  induction m with
  | nil => simp [mapSet]
  | cons e m ih =>
    obtain ⟨k1, z⟩ := e
    by_cases h : k1 = k
    · simp [mapSet, h]
    · simp [mapSet, h, ih]

theorem mem_mapSet {β : Type} (m : List (String × β)) (k : String) (x : β)
    (e : String × β) (he : e ∈ mapSet m k x) : e ∈ m ∨ e.1 = k := by
  induction m with
  | nil =>
    simp only [mapSet, List.mem_singleton] at he
    right; rw [he]
  | cons a m ih =>
    obtain ⟨k1, z⟩ := a
    by_cases h : k1 = k
    · simp only [mapSet, h, if_true, List.mem_cons] at he
      rcases he with he | he
      · right; rw [he]
      · left; exact List.mem_cons_of_mem _ he
    · simp only [mapSet, h, if_false, List.mem_cons] at he
      rcases he with he | he
      · left; rw [he]; exact List.mem_cons_self _ _
      · rcases ih he with h1 | h1
        · left; exact List.mem_cons_of_mem _ h1
        · right; exact h1

theorem mem_mapDelete {β : Type} (m : List (String × β)) (k : String)
    (e : String × β) (he : e ∈ mapDelete m k) : e ∈ m := by
  induction m with
  | nil => simp [mapDelete] at he
  | cons a m ih =>
    obtain ⟨k1, z⟩ := a
    by_cases h : k1 = k
    · simp only [mapDelete, h, if_true] at he
      exact List.mem_cons_of_mem _ (ih he)
    · simp only [mapDelete, h, if_false, List.mem_cons] at he
      rcases he with he | he
      · rw [he]; exact List.mem_cons_self _ _
      · exact List.mem_cons_of_mem _ (ih he)

/-- An error keeps the backing map or empties it. -/
theorem error_state_cases (s : Store) : (error s).state = s.state ∨ (error s).state = [] := by
  unfold error initializeStore
  dsimp only
  split_ifs <;> simp [seedAll, seedAbsent]

theorem notifyEach_state_cases (s : Store) (ls : List Callback) (key : String)
    (nv ov : JSValue) :
    (notifyEach s ls key nv ov).1.state = s.state ∨ (notifyEach s ls key nv ov).1.state = [] := by
  induction ls generalizing s with
  | nil => left; rfl
  | cons cb rest ih =>
    simp only [notifyEach]
    by_cases ht : cb.throwsOn nv ov key = true
    · simp only [ht, if_true]
      rcases ih (error s) with h | h
      · rcases error_state_cases s with h1 | h1
        · left; exact h.trans h1
        · right; exact h.trans h1
      · right; exact h
    · simp only [ht]
      exact ih s

theorem notifyChange_state_cases (s : Store) (key : String) (nv ov : JSValue) :
    (notifyChange s key nv ov).1.state = s.state ∨ (notifyChange s key nv ov).1.state = [] := by
  rw [notifyChange_eq]
  simp only
  rcases notifyEach_state_cases (notifyEach s (listenersOf s key) key nv ov).1
    (listenersOf s "*") key nv ov with h | h
  · rcases notifyEach_state_cases s (listenersOf s key) key nv ov with h1 | h1
    · left; exact h.trans h1
    · right; exact h.trans h1
  · right; exact h

/-! ## C11: `initialize` on an initialized store -/

/-- C11: on a store that is already initialized, `initialize(defaults, false)`
returns `false` and leaves the store, its backing map included, as it was. -/
theorem initialize_again_refused (s : Store) (defaults : List (String × JSValue))
    (hinit : s.initialized = true) :
    (initializeStore s defaults false).2 = false ∧
      (initializeStore s defaults false).1.state = s.state ∧
      (initializeStore s defaults false).1 = s := by
  simp [initializeStore, hinit]

/-- C11, witness: a store initialized with `cash = 500`, then `initialize` with
`{cash: 0, bank: 7}`. -/
theorem initialize_again_refused_witness :
    (initializeStore (initializeStore (subscribeAll new observer)
        [("cash", .number (.fin 500))] false).1
      [("cash", .number (.fin 0)), ("bank", .number (.fin 7))] false).2 = false ∧
    (initializeStore (initializeStore (subscribeAll new observer)
        [("cash", .number (.fin 500))] false).1
      [("cash", .number (.fin 0)), ("bank", .number (.fin 7))] false).1.state
      = [("cash", .number (.fin 500))] :=
  have h := initialize_again_refused
    (initializeStore (subscribeAll new observer) [("cash", .number (.fin 500))] false).1
    [("cash", .number (.fin 0)), ("bank", .number (.fin 7))] (by decide)
  ⟨h.1, h.2.1.trans (by decide)⟩

/-! ## C12: the self-reset -/

/-- C12, at the failing input: a store initialized with `cash = 500` counts fifty
errors; the fifty-first error, logged by one more `set("", null)`, zeroes the
counter, but the backing map still holds `cash = 500`. -/
theorem error_past_threshold_keeps_map :
    (fiftyErrors (initializeStore new [("cash", .number (.fin 500))] false).1).errorCount = 50 ∧
    (fiftyErrors (initializeStore new [("cash", .number (.fin 500))] false).1).maxErrors = 50 ∧
    (set (fiftyErrors (initializeStore new [("cash", .number (.fin 500))] false).1)
      (.string "") .null false).store.errorCount = 0 ∧
    (set (fiftyErrors (initializeStore new [("cash", .number (.fin 500))] false).1)
      (.string "") .null false).store.state = [("cash", .number (.fin 500))] := by
  decide

/-! ## C13: the keys of the backing map -/

theorem keysValid_of_state (s t : Store)
    (h : t.state = s.state ∨ t.state = []) (hs : keysValid s = true) : keysValid t = true := by
  unfold keysValid at hs ⊢
  rcases h with h | h <;> simp [h, hs]

theorem keysValid_mapSet (s : Store) (k : String) (x : JSValue)
    (hk : isValidKey (.string k) = true) (hs : keysValid s = true) :
    keysValid { s with state := mapSet s.state k x } = true := by
  unfold keysValid at hs ⊢
  rw [List.all_eq_true] at hs ⊢
  intro e he
  rcases mem_mapSet _ _ _ _ he with h | h
  · exact hs e h
  · rw [h]; exact hk

/-- The method `set` keeps every key of the backing map valid. -/
theorem set_keysValid (s : Store) (key v : JSValue) (silent : Bool)
    (hs : keysValid s = true) : keysValid (set s key v silent).store = true := by
  have herr : keysValid (error s) = true := keysValid_of_state s _ (error_state_cases s) hs
  unfold set
  by_cases hk : isValidKey key = true
  · simp only [hk, Bool.not_true, Bool.false_eq_true, if_false]
    cases key with
    | string k =>
      have hc : ∀ cv ov, keysValid (commit s k cv ov silent).store = true := by
        intro cv ov
        unfold commit
        by_cases hd : deepEqual ov cv = true
        · simpa [hd] using hs
        · simp only [hd, if_false]
          have h1 := keysValid_mapSet s k cv hk hs
          cases silent with
          | true => simpa [incrementOperationCount, keysValid] using h1
          | false =>
            simp only [Bool.not_false, if_true]
            exact keysValid_of_state
              (incrementOperationCount { s with state := mapSet s.state k cv }) _
              (notifyChange_state_cases _ k cv ov)
              (by simpa [incrementOperationCount, keysValid] using h1)
      simp only
      cases hf : mapGet? s.validators k with
      | none => exact hc _ _
      | some f =>
        simp only
        cases hr : f (deepClone v) (stateGet s k) with
        | throws => exact herr
        | returns r =>
          simp only
          by_cases ht : truthy r = true
          · simpa [ht] using hc _ _
          · simpa [ht] using hs
    | _ => exact herr
  · simpa [hk] using herr

/-- The method `delete` keeps every key of the backing map valid. -/
theorem delete_keysValid (s : Store) (key : JSValue) (silent : Bool)
    (hs : keysValid s = true) : keysValid (delete s key silent).store = true := by
  unfold delete
  cases key with
  | string k =>
    simp only
    by_cases hh : mapHas s.state k = true
    · simp only [hh, Bool.not_true, Bool.false_eq_true, if_false]
      have h1 : keysValid (incrementOperationCount { s with state := mapDelete s.state k })
          = true := by
        unfold keysValid at hs ⊢
        rw [List.all_eq_true] at hs ⊢
        intro e he
        exact hs e (mem_mapDelete _ _ _ he)
      cases silent with
      | true => simpa using h1
      | false =>
        simp only [Bool.not_false, if_true]
        exact keysValid_of_state _ _ (notifyChange_state_cases _ k _ _) h1
    · simpa [hh] using hs
  | _ => exact hs

/-- C13, at the failing input: the store of the constructor satisfies the
predicate, and `initialize` with the defaults `{"": 1}` puts the key `""`, which
fails `isValidKey`, into the backing map. -/
theorem initialize_stores_invalid_key :
    keysValid new = true ∧
    isValidKey (.string "") = false ∧
    (initializeStore new [("", .number (.fin 1))] false).2 = true ∧
    has (initializeStore new [("", .number (.fin 1))] false).1 (.string "") = true ∧
    keysValid (initializeStore new [("", .number (.fin 1))] false).1 = false := by
  decide

theorem notifyChanges_state_cases (s : Store) (cs : List Change) :
    (notifyChanges s cs).1.state = s.state ∨ (notifyChanges s cs).1.state = [] := by
  induction cs generalizing s with
  | nil => left; rfl
  | cons c rest ih =>
    simp only [notifyChanges]
    by_cases hd : deepEqual c.newValue c.oldValue = true
    · simpa [hd] using ih s
    · simp only [Bool.not_eq_true] at hd
      simp only [hd, Bool.not_false, if_true]
      rcases ih (notifyChange s c.key c.newValue c.oldValue).1 with h | h
      · rcases notifyChange_state_cases s c.key c.newValue c.oldValue with h1 | h1
        · left; exact h.trans h1
        · right; exact h.trans h1
      · right; exact h

theorem applyChanges_all_valid (m : List (String × JSValue)) (cs : List Change)
    (hm : m.all (fun e => isValidKey (.string e.1)) = true)
    (hcs : ∀ c ∈ cs, isValidKey (.string c.key) = true) :
    (applyChanges m cs).all (fun e => isValidKey (.string e.1)) = true := by
  induction cs generalizing m with
  | nil => exact hm
  | cons c rest ih =>
    simp only [applyChanges]
    apply ih
    · rw [List.all_eq_true] at hm ⊢
      intro e he
      rcases mem_mapSet _ _ _ _ he with h | h
      · exact hm e h
      · rw [h]; exact hcs c (List.mem_cons_self _ _)
    · intro c1 hc1
      exact hcs c1 (List.mem_cons_of_mem _ hc1)

/-- The method `updateMultiple` keeps every key of the backing map valid. -/
theorem updateMultiple_keysValid (s : Store) (updates : JSValue) (silent : Bool)
    (hs : keysValid s = true) : keysValid (updateMultiple s updates silent).store = true := by
  have herr : keysValid (error s) = true := keysValid_of_state s _ (error_state_cases s) hs
  rcases Bool.eq_false_or_eq_true (!truthy updates || typeof updates != JSType.object)
    with hg | hg
  · rw [updateMultiple_not_object s updates silent hg]; exact herr
  · cases hfp : firstPass s (entries updates) [] with
    | errored => rw [updateMultiple_errored s updates silent hg hfp]; exact herr
    | warned => rw [updateMultiple_warned s updates silent hg hfp]; exact hs
    | collected cs =>
      obtain ⟨hcs, hval⟩ := firstPass_collected s _ _ _ hfp
      simp only [List.nil_append] at hcs
      have hkeys : ∀ c ∈ cs, isValidKey (.string c.key) = true := by
        intro c hc
        rw [hcs] at hc
        obtain ⟨e, he, rfl⟩ := List.mem_map.mp hc
        exact (hval e he).1
      have h1 : keysValid (incrementOperationCount
          { s with state := applyChanges s.state cs }) = true :=
        applyChanges_all_valid s.state cs hs hkeys
      cases silent with
      | false =>
        rw [updateMultiple_collected s updates cs hg hfp]
        exact keysValid_of_state _ _ (notifyChanges_state_cases _ cs) h1
      | true =>
        simp only [updateMultiple, hg, hfp, Bool.false_eq_true, if_false, Bool.not_true]
        exact h1

/-! ## C14: `delete` -/

/-- C14, amended: `delete` of an absent key returns `true`, leaves the store as it
was and calls no subscriber. `delete(k)` of a present key returns `true`; afterwards
`has(k)` is false; unless silent, the calls are those of one notification pass
`(undefined, oldValue, k)`; and every other key holds its prior value when the
call is silent or the throws of the pass keep the error counter within
`maxErrors`. -/
theorem delete_spec (s : Store) (k : String) (silent : Bool) :
    (mapHas s.state k = false →
      (delete s (.string k) silent).result = true ∧
        (delete s (.string k) silent).store = s ∧
        (delete s (.string k) silent).calls = []) ∧
    (mapHas s.state k = true →
      (delete s (.string k) silent).result = true ∧
        has (delete s (.string k) silent).store (.string k) = false ∧
        (delete s (.string k) silent).calls =
          (if silent = true then [] else notificationPass s k .undefined (stateGet s k)) ∧
        ((silent = true ∨
            s.errorCount + throwCount s k .undefined (stateGet s k) ≤ s.maxErrors) →
          ∀ j, j ≠ k →
            mapGet? (delete s (.string k) silent).store.state j = mapGet? s.state j)) := by
  constructor
  · intro h
    simp [delete, h]
  · intro h
    have hdel : mapHas (mapDelete s.state k) k = false := by
      simp [mapHas, mapGet?_mapDelete_same]
    cases silent with
    | true =>
      simp only [delete, h, Bool.not_true, Bool.false_eq_true, if_false, if_true]
      refine ⟨trivial, ?_, trivial, ?_⟩
      · simpa [has, incrementOperationCount] using hdel
      · intro _ j hj
        simpa [incrementOperationCount] using mapGet?_mapDelete_ne s.state k j (Ne.symm hj)
    | false =>
      simp only [delete, h, Bool.not_true, Bool.false_eq_true, if_false, Bool.not_false,
        if_true]
      refine ⟨trivial, ?_, ?_, ?_⟩
      · rcases notifyChange_state_cases
          (incrementOperationCount { s with state := mapDelete s.state k }) k .undefined
          (stateGet s k) with h1 | h1
        · simp only [has, h1]
          simpa [incrementOperationCount] using hdel
        · simp [has, h1, mapHas, mapGet?]
      · rw [notifyChange_calls]
        simp [notificationPass, listenersOf, incrementOperationCount]
      · intro hq j hj
        have hq1 : s.initialized = true ∨
            s.errorCount + throwCount s k .undefined (stateGet s k) ≤ s.maxErrors := by
          rcases hq with hq | hq
          · cases hq
          · exact Or.inr hq
        have := (notifyChange_quiet
          (incrementOperationCount { s with state := mapDelete s.state k }) k .undefined
          (stateGet s k) 0
          (by simpa [incrementOperationCount, throwCount, listenersOf] using hq1)).1
        rw [this]
        simpa [incrementOperationCount] using mapGet?_mapDelete_ne s.state k j (Ne.symm hj)

/-- C14, counterexample: a store that was never initialized holds `a = 1, b = 2`,
has a throwing subscriber on `a` and has counted fifty errors; `delete("a")`
returns `true`, the throw resets the store, and `b` no longer holds `2`. -/
theorem delete_throw_resets_store :
    has (fiftyErrors (updateMultiple (subscribe new (.string "a") thrower)
      (.object [("a", .number (.fin 1)), ("b", .number (.fin 2))]) true).store)
      (.string "a") = true ∧
    get (fiftyErrors (updateMultiple (subscribe new (.string "a") thrower)
      (.object [("a", .number (.fin 1)), ("b", .number (.fin 2))]) true).store)
      (.string "b") .null = .number (.fin 2) ∧
    (delete (fiftyErrors (updateMultiple (subscribe new (.string "a") thrower)
      (.object [("a", .number (.fin 1)), ("b", .number (.fin 2))]) true).store)
      (.string "a") false).result = true ∧
    get (delete (fiftyErrors (updateMultiple (subscribe new (.string "a") thrower)
      (.object [("a", .number (.fin 1)), ("b", .number (.fin 2))]) true).store)
      (.string "a") false).store (.string "b") .null = .null := by
  decide

/-- C14, witness: `delete("a")` on a store holding `a = 1, b = 2` with a throwing
subscriber on `a`, and `delete("c")` on the same store. -/
theorem delete_spec_witness :
    (delete (subscribe (updateMultiple new
        (.object [("a", .number (.fin 1)), ("b", .number (.fin 2))]) true).store
      (.string "a") thrower) (.string "a") false).calls
      = [⟨2, .undefined, .number (.fin 1), "a"⟩] ∧
    mapGet? (delete (subscribe (updateMultiple new
        (.object [("a", .number (.fin 1)), ("b", .number (.fin 2))]) true).store
      (.string "a") thrower) (.string "a") false).store.state "b" = some (.number (.fin 2)) ∧
    (delete (subscribe (updateMultiple new
        (.object [("a", .number (.fin 1)), ("b", .number (.fin 2))]) true).store
      (.string "a") thrower) (.string "c") false).calls = [] :=
  have h := delete_spec (subscribe (updateMultiple new
    (.object [("a", .number (.fin 1)), ("b", .number (.fin 2))]) true).store
    (.string "a") thrower) "a" false
  have h2 := delete_spec (subscribe (updateMultiple new
    (.object [("a", .number (.fin 1)), ("b", .number (.fin 2))]) true).store
    (.string "a") thrower) "c" false
  ⟨((h.2 (by decide)).2.2.1).trans (by decide),
    ((h.2 (by decide)).2.2.2 (by decide) "b" (by decide)).trans (by decide),
    (h2.1 (by decide)).2.2⟩

/-! ## C15: the unsubscribe closure -/

theorem listenersOf_unsubscribe_ne (s : Store) (k j : String) (cb : Callback) (h : j ≠ k) :
    listenersOf (unsubscribe s k cb) j = listenersOf s j := by
  unfold unsubscribe listenersOf
  cases hl : mapGet? s.changeListeners k with
  | none => rfl
  | some ls =>
    simp only
    split_ifs
    · simp only [mapGet?_mapDelete_ne _ k j (Ne.symm h), mapGet?_mapSet_ne _ k j _ (Ne.symm h)]
    · simp only [mapGet?_mapSet_ne _ k j _ (Ne.symm h)]

theorem listenersOf_unsubscribe_same (s : Store) (k : String) (cb : Callback) :
    listenersOf (unsubscribe s k cb) k = setDelete (listenersOf s k) cb := by
  unfold unsubscribe listenersOf
  cases hl : mapGet? s.changeListeners k with
  | none => simp [hl, setDelete]
  | some ls =>
    simp only
    split_ifs with h0
    · simp only [mapGet?_mapDelete_same, Option.getD_none, Option.getD_some]
      have : (setDelete ls cb).length = 0 := by simpa using h0
      exact (List.length_eq_zero.mp this).symm
    · simp only [mapGet?_mapSet_same, Option.getD_some]

theorem all_mapSet {β : Type} (p : String × β → Bool) (m : List (String × β)) (k : String)
    (x : β) (hm : m.all p = true) (hx : p (k, x) = true) : (mapSet m k x).all p = true := by
  induction m with
  | nil => simp [mapSet, hx]
  | cons e m ih =>
    obtain ⟨k1, y⟩ := e
    simp only [List.all_cons, Bool.and_eq_true] at hm
    by_cases h : k1 = k
    · subst h
      simp [mapSet, hx, hm.2]
    · simp [mapSet, h, hm.1, ih hm.2]

theorem all_mapDelete {β : Type} (p : String × β → Bool) (m : List (String × β)) (k : String)
    (hm : m.all p = true) : (mapDelete m k).all p = true := by
  rw [List.all_eq_true] at hm ⊢
  intro e he
  exact hm e (mem_mapDelete m k e he)

theorem all_mapSet_of_delete {β : Type} (p : String × β → Bool) (m : List (String × β))
    (k : String) (x : β) (hm : m.all p = true) :
    (mapDelete (mapSet m k x) k).all p = true := by
  rw [List.all_eq_true] at hm ⊢
  intro e he
  have hne : e.1 ≠ k := by
    intro hk
    have h1 : mapGet? (mapDelete (mapSet m k x) k) k = none := mapGet?_mapDelete_same _ k
    have h2 : ∀ (l : List (String × β)), e ∈ l → mapGet? l e.1 ≠ none := by
      intro l hl
      induction l with
      | nil => cases hl
      | cons a l ih =>
        obtain ⟨k2, z⟩ := a
        by_cases hk2 : k2 = e.1
        · simp [mapGet?, hk2]
        · simp only [mapGet?, hk2, if_false]
          rcases List.mem_cons.mp hl with h3 | h3
          · exact absurd (by rw [h3]) hk2
          · exact ih h3
    exact h2 _ he (hk ▸ h1)
  rcases mem_mapSet m k x e (mem_mapDelete _ k e he) with h | h
  · exact hm e h
  · exact absurd h hne

theorem setAdd_length (ls : List Callback) (cb : Callback) : (setAdd ls cb).length ≠ 0 := by
  unfold setAdd
  split_ifs with h
  · intro h0
    rw [List.length_eq_zero.mp h0] at h
    simp at h
  · simp

/-- The method `subscribe` never leaves an empty callback set. -/
theorem subscribe_noEmptySet (s : Store) (key : JSValue) (cb : Callback)
    (hs : noEmptySet s = true) : noEmptySet (subscribe s key cb) = true := by
  unfold noEmptySet at hs ⊢
  unfold subscribe
  split_ifs
  · rw [error_changeListeners]; exact hs
  · cases key with
    | string k => exact all_mapSet _ _ k _ hs (by simpa using setAdd_length _ cb)
    | _ => simp only; rw [error_changeListeners]; exact hs

/-- C15, amended: once the closure returned by `subscribe(k, cb)` is called, `cb`
is no longer registered on `k`, the other callbacks of `k` and the registrations
on every other key are as before, a listener map without empty set stays so
through `subscribe` and through the closure, and a later change of `k` does not call `cb` unless `cb` is also registered on the
wildcard key. -/
theorem unsubscribe_spec (s : Store) (k : String) (cb : Callback) :
    (∀ c ∈ listenersOf (unsubscribe s k cb) k, c.id ≠ cb.id) ∧
      listenersOf (unsubscribe s k cb) k = (listenersOf s k).filter (fun c => c.id != cb.id) ∧
      (∀ j, j ≠ k → listenersOf (unsubscribe s k cb) j = listenersOf s j) ∧
      (noEmptySet s = true →
        noEmptySet (unsubscribe s k cb) = true ∧
          noEmptySet (subscribe s (.string k) cb) = true) ∧
      ((∀ c ∈ listenersOf s "*", c.id ≠ cb.id) →
        ∀ nv ov, ∀ i ∈ notificationPass (unsubscribe s k cb) k nv ov, i.callback ≠ cb.id) := by
  have hsame := listenersOf_unsubscribe_same s k cb
  have hmem : ∀ c ∈ listenersOf (unsubscribe s k cb) k, c.id ≠ cb.id := by
    intro c hc
    rw [hsame] at hc
    simpa [setDelete] using (List.mem_filter.mp hc).2
  refine ⟨hmem, hsame, fun j hj => listenersOf_unsubscribe_ne s k j cb hj, ?_, ?_⟩
  · intro hne
    refine ⟨?_, subscribe_noEmptySet s _ cb hne⟩
    unfold noEmptySet at hne ⊢
    unfold unsubscribe
    cases hl : mapGet? s.changeListeners k with
    | none => exact hne
    | some ls =>
      simp only
      split_ifs with h0
      · exact all_mapSet_of_delete _ _ k _ hne
      · exact all_mapSet _ _ k _ hne (by simpa using h0)
  · intro hw nv ov i hi
    unfold notificationPass at hi
    obtain ⟨c, hc, rfl⟩ := List.mem_map.mp hi
    rcases List.mem_append.mp hc with hc | hc
    · exact hmem c hc
    · by_cases hk : k = "*"
      · subst hk
        exact hmem c hc
      · rw [listenersOf_unsubscribe_ne s k "*" cb (Ne.symm hk)] at hc
        exact hw c hc

/-- C15, witness: `health` has the subscribers `observer` and `thrower`; after the
closure of `observer` is called, a change of `health` calls `thrower` only. -/
theorem unsubscribe_spec_witness :
    (set (unsubscribe (subscribe (subscribe new (.string "health") observer)
        (.string "health") thrower) "health" observer)
      (.string "health") (.number (.fin 73)) false).calls
      = [⟨2, .number (.fin 73), .undefined, "health"⟩] ∧
    ∀ i ∈ notificationPass (unsubscribe (subscribe (subscribe new (.string "health") observer)
        (.string "health") thrower) "health" observer) "health" (.number (.fin 73)) .undefined,
      i.callback ≠ observer.id :=
  ⟨by decide,
    (unsubscribe_spec (subscribe (subscribe new (.string "health") observer)
      (.string "health") thrower) "health" observer).2.2.2.2 (by decide)
      (.number (.fin 73)) .undefined⟩

/-- C15, counterexample: `observer` is registered on `health` and through
`subscribeAll`; after the closure of its registration on `health` is called,
`set("health", 73)` still calls it. -/
theorem unsubscribed_callback_still_called :
    (listenersOf (unsubscribe (subscribeAll (subscribe new (.string "health") observer) observer)
      "health" observer) "health").length = 0 ∧
    (set (unsubscribe (subscribeAll (subscribe new (.string "health") observer) observer)
        "health" observer)
      (.string "health") (.number (.fin 73)) false).calls
      = [⟨1, .number (.fin 73), .undefined, "health"⟩] := by
  decide

/-! ## C16: one validator per key -/

/-- C16, amended: for a valid key `k` and predicates `p1`, `p2`, the store left by
`addValidator(k, p1)` then `addValidator(k, p2)` is the store left by
`addValidator(k, p2)` alone, and on it `set(k, v)` returns `false` exactly when
`p2(v, currentValue)` is false; after `removeValidator(k)`, `set(k, v)` returns
`true` for every value `v`. -/
theorem addValidator_replaces (s : Store) (k : String) (v : JSValue) (silent : Bool)
    (p1 p2 : JSValue → JSValue → Bool) (hk : isValidKey (.string k) = true) :
    (addValidator (addValidator s (.string k) (predicate p1)).1 (.string k) (predicate p2)).1
        = (addValidator s (.string k) (predicate p2)).1 ∧
      ((set (addValidator (addValidator s (.string k) (predicate p1)).1 (.string k)
          (predicate p2)).1 (.string k) v silent).result = false ↔
        p2 (deepClone v) (stateGet s k) = false) ∧
      (set (removeValidator s (.string k)).1 (.string k) v silent).result = true := by
  have h1 : (addValidator (addValidator s (.string k) (predicate p1)).1 (.string k)
      (predicate p2)).1 = (addValidator s (.string k) (predicate p2)).1 := by
    simp [addValidator, hk, mapSet_mapSet]
  refine ⟨h1, ?_, ?_⟩
  · rw [h1]
    have hv : mapGet? (addValidator s (.string k) (predicate p2)).1.validators k
        = some (predicate p2) := by
      simp [addValidator, hk, mapGet?_mapSet_same]
    have hst : stateGet (addValidator s (.string k) (predicate p2)).1 k = stateGet s k := by
      simp [addValidator, hk, stateGet]
    cases hp : p2 (deepClone v) (stateGet s k) with
    | false =>
      simp [set, hk, hv, hst, predicate, hp, truthy]
    | true =>
      rw [set_eq_commit_of_accept _ k v silent hk (by
        intro f hf
        rw [hv] at hf
        cases hf
        exact ⟨.bool true, by simp [predicate, hst, hp], rfl⟩)]
      simp [commit_result]
  · have hv : mapGet? (removeValidator s (.string k)).1.validators k = none := by
      simp [removeValidator, mapGet?_mapDelete_same]
    rw [set_eq_commit _ k v silent hk hv]
    exact commit_result _ _ _ _ _

/-- C16, witness: on `volume`, a first validator that accepts nothing is replaced
by one that accepts numbers only. -/
theorem addValidator_replaces_witness :
    ((set (addValidator (addValidator new (.string "volume") (predicate (fun _ _ => false))).1
        (.string "volume") (predicate (fun a _ => typeof a == JSType.number))).1
      (.string "volume") (.number (.fin 5)) false).result = false ↔
      (fun (a : JSValue) (_ : JSValue) => typeof a == JSType.number)
        (deepClone (.number (.fin 5))) (stateGet new "volume") = false) ∧
    (set (addValidator (addValidator new (.string "volume") (predicate (fun _ _ => false))).1
        (.string "volume") (predicate (fun a _ => typeof a == JSType.number))).1
      (.string "volume") (.number (.fin 5)) false).result = true ∧
    (set (addValidator (addValidator new (.string "volume") (predicate (fun _ _ => false))).1
        (.string "volume") (predicate (fun a _ => typeof a == JSType.number))).1
      (.string "volume") (.string "loud") false).result = false :=
  ⟨(addValidator_replaces new "volume" (.number (.fin 5)) false (fun _ _ => false)
      (fun a _ => typeof a == JSType.number) (by decide)).2.1,
    by decide, by decide⟩

/-- C16, counterexample: the key `""` fails `isValidKey`, so `addValidator` returns
`false` for it; after `addValidator("", p1)` and `addValidator("", p2)` with a
predicate `p2` that accepts everything, `set("", 1)` still returns `false`. -/
theorem invalid_key_refused_despite_validator :
    isValidKey (.string "") = false ∧
    (addValidator (addValidator new (.string "") (predicate (fun _ _ => false))).1 (.string "")
      (predicate (fun _ _ => true))).2 = false ∧
    (set (addValidator (addValidator new (.string "") (predicate (fun _ _ => false))).1
        (.string "") (predicate (fun _ _ => true))).1
      (.string "") (.number (.fin 1)) false).result = false := by
  decide

/-! ## C17: a validator that throws -/

/-- C17, amended: when the validator registered for `k` throws on `(v,
currentValue)`, `set(k, v)` and `updateMultiple({k: v})` end with the result
`false` and call no subscriber; on a store whose error counter is below
`maxErrors`, the backing map is as it was. -/
theorem validator_throw_is_caught (s : Store) (k : String) (v : JSValue) (silent : Bool)
    (f : Validator) (hf : mapGet? s.validators k = some f)
    (hthrow : f (deepClone v) (stateGet s k) = .throws) :
    (set s (.string k) v silent).result = false ∧
      (set s (.string k) v silent).calls = [] ∧
      (updateMultiple s (.object [(k, v)]) silent).result = false ∧
      (updateMultiple s (.object [(k, v)]) silent).calls = [] ∧
      (s.errorCount < s.maxErrors →
        (set s (.string k) v silent).store.state = s.state ∧
          (updateMultiple s (.object [(k, v)]) silent).store.state = s.state) := by
  have hset : set s (.string k) v silent = ⟨error s, false, []⟩ := by
    by_cases hk : isValidKey (.string k) = true
    · simp [set, hk, hf, hthrow]
    · simp [set, hk]
  have hfp : firstPass s (entries (.object [(k, v)])) [] = .errored := by
    by_cases hk : isValidKey (.string k) = true
    · simp [entries, firstPass, hk, hf, hthrow]
    · simp [entries, firstPass, hk]
  have hup : updateMultiple s (.object [(k, v)]) silent = ⟨error s, false, []⟩ :=
    updateMultiple_errored s _ silent rfl hfp
  rw [hset, hup]
  refine ⟨rfl, rfl, rfl, rfl, ?_⟩
  intro hq
  have he := (error_quiet s 0 (Or.inr (by omega))).1
  exact ⟨he, he⟩

/-- C17, witness: a store initialized with `cash = 500`, with a validator on
`cash` that throws. -/
theorem validator_throw_is_caught_witness :
    (set (addValidator (initializeStore new [("cash", .number (.fin 500))] false).1
        (.string "cash") faulty).1 (.string "cash") (.number (.fin 1)) false).result = false ∧
    (updateMultiple (addValidator (initializeStore new [("cash", .number (.fin 500))] false).1
        (.string "cash") faulty).1 (.object [("cash", .number (.fin 1))]) false).result = false ∧
    (set (addValidator (initializeStore new [("cash", .number (.fin 500))] false).1
        (.string "cash") faulty).1 (.string "cash") (.number (.fin 1)) false).store.state
      = [("cash", .number (.fin 500))] :=
  have h := validator_throw_is_caught
    (addValidator (initializeStore new [("cash", .number (.fin 500))] false).1
      (.string "cash") faulty).1 "cash" (.number (.fin 1)) false faulty rfl rfl
  ⟨h.1, h.2.2.1, (h.2.2.2.2 (by decide)).1.trans (by decide)⟩

/-- C17, counterexample: a store that was never initialized holds `cash = 500`,
has a validator on `cash` that throws and has counted fifty errors; `set("cash",
1)` returns `false` and the value stored for `cash` is gone. -/
theorem validator_throw_resets_store :
    get (fiftyErrors (addValidator (set new (.string "cash") (.number (.fin 500)) false).store
      (.string "cash") faulty).1) (.string "cash") .null = .number (.fin 500) ∧
    (set (fiftyErrors (addValidator (set new (.string "cash") (.number (.fin 500)) false).store
      (.string "cash") faulty).1) (.string "cash") (.number (.fin 1)) false).result = false ∧
    get (set (fiftyErrors (addValidator (set new (.string "cash") (.number (.fin 500)) false).store
      (.string "cash") faulty).1) (.string "cash") (.number (.fin 1)) false).store
      (.string "cash") .null = .null ∧
    get (updateMultiple
      (fiftyErrors (addValidator (set new (.string "cash") (.number (.fin 500)) false).store
        (.string "cash") faulty).1) (.object [("cash", .number (.fin 1))]) false).store
      (.string "cash") .null = .null := by
  decide

end HudStateManager

end HudState

namespace HudState

set_option maxRecDepth 100000

namespace Identity

/-! ## C18: the objects shared with the callers -/

mutual
/-- A clone has the contents of the value cloned. -/
theorem erase_deepClone : ∀ (next : Nat) (v : RefValue), erase (deepClone next v).1 = erase v
  | _, .undefined => by simp [deepClone]
  | _, .null => by simp [deepClone]
  | _, .bool _ => by simp [deepClone]
  | _, .number _ => by simp [deepClone]
  | _, .string _ => by simp [deepClone]
  | _, .func _ => by simp [deepClone]
  | _, .date _ _ => by simp [deepClone, erase]
  | next, .array _ items => by simp [deepClone, erase, eraseItems_deepClone (next + 1) items]
  | next, .object _ fields => by
    simp [deepClone, erase, eraseFields_deepClone (next + 1) fields]
theorem eraseItems_deepClone :
    ∀ (next : Nat) (l : List RefValue), eraseItems (deepCloneItems next l).1 = eraseItems l
  | _, [] => by simp [deepCloneItems]
  | next, x :: xs => by
    simp [deepCloneItems, eraseItems, erase_deepClone next x,
      eraseItems_deepClone (deepClone next x).2 xs]
theorem eraseFields_deepClone :
    ∀ (next : Nat) (l : List (String × RefValue)),
      eraseFields (deepCloneFields next l).1 = eraseFields l
  | _, [] => by simp [deepCloneFields]
  | next, (k, x) :: fs => by
    simp [deepCloneFields, eraseFields, erase_deepClone next x,
      eraseFields_deepClone (deepClone next x).2 fs]
end

/-- C18, at the failing input: a subscriber is registered on `stats` and outside
code calls `set("stats", obj)` with its own object `{hp: 73}`. The clone stored
is the first object the store allocates, and it is the very object handed to the
subscriber as `newValue`. After outside code assigns `hp = 0` on the object it
was handed, `get("stats")` returns `{hp: 0}`. The same assignment on the object
passed to `set`, or on the object returned by a `get`, leaves `get("stats")` at
`{hp: 73}`. -/
theorem callback_shares_stored_object :
    ((set (subscribe new (.string "stats") HudStateManager.observer) (.string "stats")
        (.object (.external 0) [("hp", .number (.fin 73))]) false).calls.map
      (fun i => refOf i.newValue)) = [some (.internal 0)] ∧
    ((set (subscribe new (.string "stats") HudStateManager.observer) (.string "stats")
        (.object (.external 0) [("hp", .number (.fin 73))]) false).store.state.map
      (fun e => refOf e.2)) = [some (.internal 0)] ∧
    erase (get (set (subscribe new (.string "stats") HudStateManager.observer)
        (.string "stats") (.object (.external 0) [("hp", .number (.fin 73))]) false).store
      (.string "stats") .null).1 = .object [("hp", .number (.fin 73))] ∧
    erase (get (afterAssign (set (subscribe new (.string "stats") HudStateManager.observer)
        (.string "stats") (.object (.external 0) [("hp", .number (.fin 73))]) false).store
        (.internal 0) "hp" (.number (.fin 0)))
      (.string "stats") .null).1 = .object [("hp", .number (.fin 0))] ∧
    erase (get (afterAssign (set (subscribe new (.string "stats") HudStateManager.observer)
        (.string "stats") (.object (.external 0) [("hp", .number (.fin 73))]) false).store
        (.external 0) "hp" (.number (.fin 0)))
      (.string "stats") .null).1 = .object [("hp", .number (.fin 73))] ∧
    refOf (get (set (subscribe new (.string "stats") HudStateManager.observer)
        (.string "stats") (.object (.external 0) [("hp", .number (.fin 73))]) false).store
      (.string "stats") .null).1 = some (.internal 1) ∧
    erase (get (afterAssign (get (set (subscribe new (.string "stats") HudStateManager.observer)
        (.string "stats") (.object (.external 0) [("hp", .number (.fin 73))]) false).store
        (.string "stats") .null).2 (.internal 1) "hp" (.number (.fin 0)))
      (.string "stats") .null).1 = .object [("hp", .number (.fin 73))] := by
  decide

/-! ### Agreement with the main model -/

theorem mapGet?_eraseState (m : List (String × RefValue)) (k : String) :
    mapGet? (eraseState m) k = (mapGet? m k).map erase := by
  induction m with
  | nil => rfl
  | cons e m ih =>
    obtain ⟨k1, x⟩ := e
    by_cases h : k1 = k
    · simp [eraseState, mapGet?, h]
    · have : mapGet? (eraseState m) k = (mapGet? m k).map erase := ih
      simpa [eraseState, mapGet?, h] using this

theorem eraseState_mapSet (m : List (String × RefValue)) (k : String) (x : RefValue) :
    eraseState (mapSet m k x) = mapSet (eraseState m) k (erase x) := by
  induction m with
  | nil => rfl
  | cons e m ih =>
    obtain ⟨k1, y⟩ := e
    by_cases h : k1 = k
    · simp [eraseState, mapSet, h]
    · have : eraseState (mapSet m k x) = mapSet (eraseState m) k (erase x) := ih
      simpa [eraseState, mapSet, h] using this

theorem stateGet_eraseStore (s : RefStore) (k : String) :
    HudStateManager.stateGet (eraseStore s) k = erase (stateGet s k) := by
  unfold HudStateManager.stateGet stateGet
  simp only [eraseStore, mapGet?_eraseState]
  cases mapGet? s.state k <;> simp [erase]

theorem error_eraseStore (s : RefStore) :
    eraseStore (error s) = HudStateManager.error (eraseStore s) := by
  unfold error HudStateManager.error initializeEmpty HudStateManager.initializeStore
  simp only [eraseStore]
  split_ifs <;> simp_all [eraseState, HudStateManager.seedAll]

theorem notifyEach_eraseStore (ls : List Callback) (key : String) (nv ov : RefValue) :
    ∀ s : RefStore,
      eraseStore (notifyEach s ls key nv ov).1 =
          (HudStateManager.notifyEach (eraseStore s) ls key (erase nv) (erase ov)).1 ∧
        eraseCalls (notifyEach s ls key nv ov).2 =
          (HudStateManager.notifyEach (eraseStore s) ls key (erase nv) (erase ov)).2 := by
  induction ls with
  | nil => intro s; exact ⟨rfl, rfl⟩
  | cons cb rest ih =>
    intro s
    simp only [notifyEach, HudStateManager.notifyEach]
    by_cases ht : cb.throwsOn (erase nv) (erase ov) key = true
    · simp only [ht, if_true]
      have := ih (error s)
      rw [error_eraseStore] at this
      exact ⟨this.1, by simp [eraseCalls] at this ⊢; exact this.2⟩
    · simp only [ht]
      have := ih s
      exact ⟨this.1, by simp [eraseCalls] at this ⊢; exact this.2⟩

theorem notifyChange_eraseStore (s : RefStore) (key : String) (nv ov : RefValue) :
    eraseStore (notifyChange s key nv ov).1 =
        (HudStateManager.notifyChange (eraseStore s) key (erase nv) (erase ov)).1 ∧
      eraseCalls (notifyChange s key nv ov).2 =
        (HudStateManager.notifyChange (eraseStore s) key (erase nv) (erase ov)).2 := by
  have key1 : ∀ (t : RefStore) (k : String),
      eraseStore (match mapGet? t.changeListeners k with
        | some ls => notifyEach t ls key nv ov
        | none => (t, [])).1 =
        (match mapGet? (eraseStore t).changeListeners k with
        | some ls => HudStateManager.notifyEach (eraseStore t) ls key (erase nv) (erase ov)
        | none => (eraseStore t, [])).1 ∧
      eraseCalls (match mapGet? t.changeListeners k with
        | some ls => notifyEach t ls key nv ov
        | none => (t, [])).2 =
        (match mapGet? (eraseStore t).changeListeners k with
        | some ls => HudStateManager.notifyEach (eraseStore t) ls key (erase nv) (erase ov)
        | none => (eraseStore t, [])).2 := by
    intro t k
    have hcl : (eraseStore t).changeListeners = t.changeListeners := rfl
    rw [hcl]
    cases mapGet? t.changeListeners k with
    | none => exact ⟨rfl, rfl⟩
    | some ls => exact notifyEach_eraseStore ls key nv ov t
  unfold notifyChange HudStateManager.notifyChange
  simp only
  have h1 := key1 s key
  have h2 := key1 (match mapGet? s.changeListeners key with
    | some ls => notifyEach s ls key nv ov
    | none => (s, [])).1 "*"
  rw [h1.1] at h2
  refine ⟨h2.1, ?_⟩
  unfold eraseCalls at h1 h2 ⊢
  rw [List.map_append, h1.2, h2.2]

theorem commit_eraseStore (s : RefStore) (key : String) (cv ov : RefValue) (silent : Bool) :
    eraseStore (commit s key cv ov silent).store =
        (HudStateManager.commit (eraseStore s) key (erase cv) (erase ov) silent).store ∧
      (commit s key cv ov silent).result =
        (HudStateManager.commit (eraseStore s) key (erase cv) (erase ov) silent).result ∧
      eraseCalls (commit s key cv ov silent).calls =
        (HudStateManager.commit (eraseStore s) key (erase cv) (erase ov) silent).calls := by
  unfold commit HudStateManager.commit
  by_cases hd : deepEqual (erase ov) (erase cv) = true
  · refine ⟨?_, ?_, ?_⟩ <;> simp [hd, eraseCalls]
  · simp only [hd, if_false]
    have hs : ∀ t : RefStore,
        t = { s with state := mapSet s.state key cv, operationCount := s.operationCount + 1 } →
        eraseStore t = HudStateManager.incrementOperationCount
          { eraseStore s with state := mapSet (eraseStore s).state key (erase cv) } := by
      intro t ht
      rw [ht]
      simp [eraseStore, HudStateManager.incrementOperationCount, eraseState_mapSet]
    cases silent with
    | true =>
      exact ⟨hs _ rfl, rfl, rfl⟩
    | false =>
      simp only [Bool.not_false, if_true]
      have := notifyChange_eraseStore ({ s with state := mapSet s.state key cv, operationCount := s.operationCount + 1 } : RefStore) key cv ov
      rw [hs _ rfl] at this
      exact ⟨this.1, rfl, this.2⟩

/-- Once the identities are forgotten, `set` of this section is `set` of the main
model. -/
theorem set_eraseStore (s : RefStore) (key : JSValue) (v : RefValue) (silent : Bool) :
    eraseStore (set s key v silent).store =
        (HudStateManager.set (eraseStore s) key (erase v) silent).store ∧
      (set s key v silent).result =
        (HudStateManager.set (eraseStore s) key (erase v) silent).result ∧
      eraseCalls (set s key v silent).calls =
        (HudStateManager.set (eraseStore s) key (erase v) silent).calls := by
  unfold set HudStateManager.set
  by_cases hk : HudStateManager.isValidKey key = true
  · simp only [hk, Bool.not_true, Bool.false_eq_true, if_false]
    cases key with
    | string k =>
      simp only
      have hval : (eraseStore s).validators = s.validators := rfl
      have herr : eraseStore (error { s with allocated := (deepClone s.allocated v).2 })
          = HudStateManager.error (eraseStore s) := by
        rw [error_eraseStore]; rfl
      have hcommit := commit_eraseStore { s with allocated := (deepClone s.allocated v).2 } k
        (deepClone s.allocated v).1 (stateGet s k) silent
      have he : eraseStore { s with allocated := (deepClone s.allocated v).2 } = eraseStore s :=
        rfl
      rw [he, erase_deepClone] at hcommit
      rw [hval, stateGet_eraseStore, deepClone_eq, erase_deepClone]
      cases mapGet? s.validators k with
      | none => exact hcommit
      | some f =>
        simp only
        cases f (erase v) (erase (stateGet s k)) with
        | throws => exact ⟨herr, rfl, rfl⟩
        | returns r =>
          simp only
          by_cases ht : truthy r = true
          · simpa [ht] using hcommit
          · have ht1 : truthy r = false := by simpa using ht
            simp only [ht1, Bool.not_false, if_true]
            refine ⟨?_, ?_, ?_⟩ <;> first | rfl | trivial
    | _ => exact ⟨error_eraseStore s, rfl, rfl⟩
  · have hk1 : HudStateManager.isValidKey key = false := by simpa using hk
    simp only [hk1, Bool.not_false, if_true]
    refine ⟨error_eraseStore s, ?_, ?_⟩ <;> first | rfl | trivial

/-- Once the identities are forgotten, `get` of this section is `get` of the main
model. -/
theorem get_eraseStore (s : RefStore) (key : JSValue) (d : RefValue) :
    erase (get s key d).1 = HudStateManager.get (eraseStore s) key (erase d) := by
  unfold get HudStateManager.get
  by_cases hk : HudStateManager.isValidKey key = true
  · simp only [hk, Bool.not_true, Bool.false_eq_true, if_false]
    cases key with
    | string k =>
      simp only [stateGet_eraseStore, deepClone_eq]
      by_cases hu : erase (stateGet s k) = .undefined
      · simp [hu]
      · simp [hu, erase_deepClone]
    | _ => rfl
  · simp only [Bool.not_eq_true] at hk
    simp [hk]

end Identity

namespace HudEventManager

/-! ## C20: `checkRateLimit` -/

theorem strictEq_string (x : JSValue) (a : String) :
    strictEq x (.string a) = true ↔ x = .string a := by
  cases x <;> simp [strictEq]

/-- C20: `checkRateLimit(a)` returns `true` exactly when `a` is falsy (empty or
missing), or no rule is registered for `a`, or the history entries with action
`a` and a timestamp strictly greater than `now - windowMs` are strictly fewer
than `maxEvents`. -/
theorem checkRateLimit_iff (p : EventManager) (action : JSValue) (now : Int) :
    checkRateLimit p action now = true ↔
      truthy action = false ∨
      (∀ a, action = .string a → mapGet? p.rateLimits a = none) ∨
      ∃ a limit, action = .string a ∧ mapGet? p.rateLimits a = some limit ∧
        (p.eventHistory.filter (fun e =>
          decide (e.action = action) && decide (e.timestamp > now - limit.windowMs))).length
          < limit.maxEvents := by
  cases action with
  | string a =>
    have hfilter : ∀ w : Int,
        p.eventHistory.filter (fun e =>
          strictEq e.action (.string a) && decide (e.timestamp > now - w)) =
        p.eventHistory.filter (fun e =>
          decide (e.action = .string a) && decide (e.timestamp > now - w)) := by
      intro w
      apply List.filter_congr
      intro e _
      have := strictEq_string e.action a
      by_cases h : e.action = .string a
      · have h1 := this.mpr h
        simp only [h1, Bool.true_and]
        simp [h]
      · have h2 : strictEq e.action (.string a) = false := by
          cases hs : strictEq e.action (.string a) with
          | false => rfl
          | true => exact absurd (this.mp hs) h
        simp [h, h2]
    unfold checkRateLimit
    simp only
    cases hr : mapGet? p.rateLimits a with
    | none =>
      simp [mapHas, hr]
    | some limit =>
      by_cases ht : truthy (.string a) = true
      · simp only [ht, mapHas, hr, Option.isSome_some, Bool.not_true, Bool.or_self,
          Bool.false_eq_true, if_false, hfilter, decide_eq_true_eq]
        constructor
        · intro h
          right; right
          exact ⟨a, limit, rfl, hr, h⟩
        · rintro (h | h | ⟨a1, l1, h1, h2, h3⟩)
          · cases h
          · have := h a rfl
            rw [hr] at this
            cases this
          · cases h1
            rw [hr] at h2
            cases h2
            exact h3
      · simp only [Bool.not_eq_true] at ht
        simp [ht]
  | undefined => simp [checkRateLimit, truthy]
  | null => simp [checkRateLimit, truthy]
  | bool b => simp [checkRateLimit]
  | number n => simp [checkRateLimit]
  | func i => simp [checkRateLimit]
  | date t => simp [checkRateLimit]
  | array xs => simp [checkRateLimit]
  | object fs => simp [checkRateLimit]

/-! ## C19: the rate limit -/

/-- The events of action `a` with a timestamp after `c`. -/
theorem count_after_mono (a : String) (l : List InboundEvent) (c d : Int) (h : c ≤ d) :
    (l.filter (fun e => decide (e.action = .string a) && decide (d < e.timestamp))).length ≤
      (l.filter (fun e => decide (e.action = .string a) && decide (c < e.timestamp))).length := by
  induction l with
  | nil => simp
  | cons e l ih =>
    simp only [List.filter_cons]
    by_cases ha : e.action = .string a
    · by_cases hd : d < e.timestamp
      · have hc : c < e.timestamp := lt_of_le_of_lt h hd
        simp only [ha, hd, hc, decide_True, Bool.and_self, if_true, List.length_cons]
        omega
      · by_cases hc : c < e.timestamp
        · simp only [ha, hd, hc, decide_True, decide_False, Bool.and_false, Bool.and_self,
            if_true, Bool.false_eq_true, if_false, List.length_cons]
          omega
        · simp only [ha, hd, hc, decide_True, decide_False, Bool.and_false,
            Bool.false_eq_true, if_false]
          exact ih
    · simp only [ha, decide_False, Bool.false_and, Bool.false_eq_true, if_false]
      exact ih

/-- When the history is the tail of the queue, full if anything was trimmed, and
the events after `c` fit in it, no trimmed event lies after `c`. -/
theorem trimmed_before_window (old hist : List InboundEvent) (capacity : Nat) (c : Int)
    (hsorted : (old ++ hist).Pairwise (fun x y => x.timestamp ≤ y.timestamp))
    (hold : old = [] ∨ (hist.length = capacity ∧ 0 < capacity))
    (hcap : ((old ++ hist).filter (fun e => decide (c < e.timestamp))).length ≤ capacity) :
    ∀ e ∈ old, ¬ c < e.timestamp := by
  intro e he hlt
  rcases hold with h | ⟨h, _⟩
  · rw [h] at he; cases he
  · have hall : ∀ x ∈ hist, (fun e => decide (c < e.timestamp)) x = true := by
      intro x hx
      have := (List.pairwise_append.mp hsorted).2.2 e he x hx
      simp only [decide_eq_true_eq]
      exact lt_of_lt_of_le hlt this
    have h1 : hist.filter (fun e => decide (c < e.timestamp)) = hist :=
      List.filter_eq_self.mpr hall
    have h2 : 0 < (old.filter (fun e => decide (c < e.timestamp))).length := by
      apply List.length_pos_of_mem (a := e)
      exact List.mem_filter.mpr ⟨he, by simpa using hlt⟩
    rw [List.filter_append, List.length_append, h1, h] at hcap
    omega

theorem queueEvent_eventQueue (p : EventManager) (e : InboundEvent) :
    (queueEvent p e).eventQueue = p.eventQueue ++ [e] := by
  unfold queueEvent addToHistory
  dsimp only
  split_ifs <;> rfl

theorem queueEvent_rateLimits (p : EventManager) (e : InboundEvent) :
    (queueEvent p e).rateLimits = p.rateLimits := by
  unfold queueEvent addToHistory
  dsimp only
  split_ifs <;> rfl

theorem queueEvent_maxHistorySize (p : EventManager) (e : InboundEvent) :
    (queueEvent p e).maxHistorySize = p.maxHistorySize := by
  unfold queueEvent addToHistory
  dsimp only
  split_ifs <;> rfl

theorem queueEvent_isNuiEnvironment (p : EventManager) (e : InboundEvent) :
    (queueEvent p e).isNuiEnvironment = p.isNuiEnvironment := by
  unfold queueEvent addToHistory
  dsimp only
  split_ifs <;> rfl

theorem queueEvent_eventHistory (p : EventManager) (e : InboundEvent) :
    (queueEvent p e).eventHistory =
      if (p.eventHistory ++ [e]).length > p.maxHistorySize then
        sliceLast p.maxHistorySize (p.eventHistory ++ [e])
      else p.eventHistory ++ [e] := by
  unfold queueEvent addToHistory
  dsimp only
  split_ifs <;> rfl

/-- The history stays the tail of the record of queued events, and is full once
an event has been trimmed. -/
theorem queueEvent_tail (p : EventManager) (e : InboundEvent) (old : List InboundEvent)
    (hq : p.eventQueue = old ++ p.eventHistory)
    (hold : old = [] ∨ (p.eventHistory.length = p.maxHistorySize ∧ 0 < p.maxHistorySize)) :
    ∃ old1, (queueEvent p e).eventQueue = old1 ++ (queueEvent p e).eventHistory ∧
      (old1 = [] ∨ ((queueEvent p e).eventHistory.length = (queueEvent p e).maxHistorySize ∧
        0 < (queueEvent p e).maxHistorySize)) := by
  rw [queueEvent_eventQueue, queueEvent_eventHistory, queueEvent_maxHistorySize, hq]
  by_cases hlen : (p.eventHistory ++ [e]).length > p.maxHistorySize
  · simp only [hlen, if_true]
    by_cases h0 : p.maxHistorySize = 0
    · refine ⟨old, by simp [sliceLast, h0], ?_⟩
      rcases hold with h | ⟨_, h⟩
      · exact Or.inl h
      · omega
    · refine ⟨old ++ (p.eventHistory ++ [e]).take
        ((p.eventHistory ++ [e]).length - p.maxHistorySize), ?_, ?_⟩
      · simp only [sliceLast, h0, if_false, List.append_assoc, List.take_append_drop]
      · right
        simp only [sliceLast, h0, if_false, List.length_drop]
        omega
  · simp only [hlen, if_false]
    refine ⟨old, by simp, ?_⟩
    rcases hold with h | ⟨h, _⟩
    · exact Or.inl h
    · simp only [List.length_append, List.length_singleton] at hlen
      omega

/-- A message is dropped, or queued after `checkRateLimit` has accepted it. -/
theorem ingress_cases (p : EventManager) (m : MessageEvent) (t : Int) :
    ingress p m t = p ∨
      (ingress p m t = queueEvent p ⟨getProp m.data "action", m.data, t⟩ ∧
        checkRateLimit p (getProp m.data "action") t = true) := by
  unfold ingress
  dsimp only
  split_ifs with h1 h2 h3
  · left; rfl
  · left; rfl
  · left; rfl
  · right
    exact ⟨rfl, by simpa using h3⟩

theorem ingress_rateLimits (p : EventManager) (m : MessageEvent) (t : Int) :
    (ingress p m t).rateLimits = p.rateLimits := by
  rcases ingress_cases p m t with h | ⟨h, _⟩
  · rw [h]
  · rw [h, queueEvent_rateLimits]

theorem ingress_maxHistorySize (p : EventManager) (m : MessageEvent) (t : Int) :
    (ingress p m t).maxHistorySize = p.maxHistorySize := by
  rcases ingress_cases p m t with h | ⟨h, _⟩
  · rw [h]
  · rw [h, queueEvent_maxHistorySize]

/-- One more message keeps the invariant of the rate limit, when the messages so
far and this one arrive in order and those of the trailing window fit in the
history. -/
theorem ingress_rateInvariant (a : String) (n : Nat) (w : Int) (p : EventManager)
    (earlier : List (MessageEvent × Int)) (m : MessageEvent) (t : Int)
    (ha : a ≠ "") (hrule : mapGet? p.rateLimits a = some ⟨n, w⟩)
    (hinv : rateInvariant a n w p earlier)
    (hsorted : (earlier ++ [(m, t)]).Pairwise (fun x y => x.2 ≤ y.2))
    (hcap : (earlier.filter (fun x => decide (t - w < x.2))).length ≤ p.maxHistorySize) :
    rateInvariant a n w (ingress p m t) (earlier ++ [(m, t)]) := by
  obtain ⟨⟨old, hq, hold⟩, hsub, hcount⟩ := hinv
  have hearlier : ∀ x ∈ earlier, x.2 ≤ t := by
    intro x hx
    exact (List.pairwise_append.mp hsorted).2.2 x hx (m, t) (List.mem_singleton.mpr rfl)
  rcases ingress_cases p m t with h | ⟨h, hcheck⟩
  · rw [h]
    refine ⟨⟨old, hq, hold⟩, ?_, ?_⟩
    · rw [List.map_append]
      exact hsub.trans (List.sublist_append_left _ _)
    · intro now hnow
      exact hcount now (fun x hx => hnow x (List.mem_append_left _ hx))
  · rw [h]
    refine ⟨queueEvent_tail p _ old hq hold, ?_, ?_⟩
    · rw [queueEvent_eventQueue, List.map_append, List.map_append]
      exact List.Sublist.append hsub (List.Sublist.refl _)
    · intro now hnow
      have htnow : t ≤ now := hnow (m, t) (List.mem_append_right _ (List.mem_singleton.mpr rfl))
      rw [queueEvent_eventQueue, List.filter_append, List.length_append]
      by_cases hact : getProp m.data "action" = .string a
      · -- the event has the limited action: the check counted the whole window
        have hsortedQ : (old ++ p.eventHistory).Pairwise
            (fun x y => x.timestamp ≤ y.timestamp) := by
          rw [← hq]
          have h1 : (earlier.map (fun x => x.2)).Pairwise (fun x y => x ≤ y) := by
            rw [List.pairwise_map]
            exact (List.pairwise_append.mp hsorted).1
          have h2 := h1.sublist hsub
          rwa [List.pairwise_map] at h2
        have hfit : ((old ++ p.eventHistory).filter
            (fun e => decide (t - w < e.timestamp))).length ≤ p.maxHistorySize := by
          rw [← hq]
          have h1 : ((p.eventQueue.map (fun e => e.timestamp)).filter
              (fun x => decide (t - w < x))).Sublist
              ((earlier.map (fun x => x.2)).filter (fun x => decide (t - w < x))) :=
            hsub.filter _
          have h2 := h1.length_le
          rw [List.filter_map, List.filter_map, List.length_map, List.length_map] at h2
          exact le_trans h2 hcap
        have hout := trimmed_before_window old p.eventHistory p.maxHistorySize (t - w)
          hsortedQ hold hfit
        have hold0 : old.filter (fun e =>
            decide (e.action = .string a) && decide (t - w < e.timestamp)) = [] := by
          apply List.filter_eq_nil_iff.mpr
          intro e he
          have := hout e he
          simp [this]
        have hhist : (p.eventHistory.filter (fun e =>
            decide (e.action = .string a) && decide (t - w < e.timestamp))).length < n := by
          have hc := (checkRateLimit_iff p (getProp m.data "action") t).mp hcheck
          rw [hact] at hc
          rcases hc with hc | hc | ⟨a1, l1, h1, h2, h3⟩
          · have : truthy (.string a) = true := by simpa [truthy] using ha
            rw [this] at hc; cases hc
          · have := hc a rfl
            rw [hrule] at this; cases this
          · cases h1
            rw [hrule] at h2
            cases h2
            simpa using h3
        have hqt : (p.eventQueue.filter (fun e =>
            decide (e.action = .string a) && decide (t - w < e.timestamp))).length < n := by
          rw [hq, List.filter_append, hold0]
          simpa using hhist
        have hmono := count_after_mono a p.eventQueue (t - w) (now - w) (by omega)
        have hone : ([(⟨getProp m.data "action", m.data, t⟩ : InboundEvent)].filter (fun e =>
            decide (e.action = .string a) && decide (now - w < e.timestamp))).length ≤ 1 :=
          le_trans (List.length_filter_le _ _) (by simp)
        omega
      · -- another action: the event does not count
        have hzero : ([(⟨getProp m.data "action", m.data, t⟩ : InboundEvent)].filter (fun e =>
            decide (e.action = .string a) && decide (now - w < e.timestamp))) = [] := by
          simp [hact]
        rw [hzero]
        have := hcount now (fun x hx => hnow x (List.mem_append_left _ hx))
        simpa using this

/-- The invariant of the rate limit holds after any list of messages that arrive
in order, at a rate the history can hold. -/
theorem ingressAll_rateInvariant (a : String) (n : Nat) (w : Int)
    (todo : List (MessageEvent × Int)) :
    ∀ (p : EventManager) (earlier : List (MessageEvent × Int)),
      a ≠ "" → mapGet? p.rateLimits a = some ⟨n, w⟩ →
      rateInvariant a n w p earlier →
      (earlier ++ todo).Pairwise (fun x y => x.2 ≤ y.2) →
      withinCapacity p.maxHistorySize w earlier todo = true →
      rateInvariant a n w (ingressAll p todo) (earlier ++ todo) := by
  induction todo with
  | nil =>
    intro p earlier _ _ hinv _ _
    simpa [ingressAll] using hinv
  | cons x rest ih =>
    obtain ⟨m, t⟩ := x
    intro p earlier ha hrule hinv hsorted hcap
    simp only [withinCapacity, Bool.and_eq_true, decide_eq_true_eq] at hcap
    have hs1 : (earlier ++ [(m, t)]).Pairwise (fun x y => x.2 ≤ y.2) := by
      have : (earlier ++ [(m, t)]).Sublist (earlier ++ (m, t) :: rest) :=
        List.Sublist.append (List.Sublist.refl _)
          (List.Sublist.cons₂ _ (List.nil_sublist _))
      exact hsorted.sublist this
    have hstep := ingress_rateInvariant a n w p earlier m t ha hrule hinv hs1 hcap.1
    have := ih (ingress p m t) (earlier ++ [(m, t)]) ha
      (by rw [ingress_rateLimits]; exact hrule) hstep
      (by simpa using hsorted)
      (by rw [ingress_maxHistorySize]; exact hcap.2)
    simpa [ingressAll] using this

theorem withinCapacity_append (capacity : Nat) (w : Int) (l1 l2 : List (MessageEvent × Int)) :
    ∀ earlier, withinCapacity capacity w earlier (l1 ++ l2) = true →
      withinCapacity capacity w earlier l1 = true := by
  induction l1 with
  | nil => intro _ _; rfl
  | cons x l1 ih =>
    obtain ⟨m, t⟩ := x
    intro earlier h
    simp only [List.cons_append, withinCapacity, Bool.and_eq_true] at h ⊢
    exact ⟨h.1, ih _ h.2⟩

/-- C19, amended: for a rule `{ maxEvents: n, windowMs: w }` on a non-empty action
`a`, a pipeline with empty queue and history, and messages of any actions that
arrive in order, at most `maxHistorySize` of them within the `w` milliseconds
before any arrival: at every arrival time `t`, at most `n` of the events queued so
far have the action `a` and a timestamp in the window `(t - w, t]`. -/
theorem rate_limit_in_window (p : EventManager) (a : String) (n : Nat) (w : Int)
    (pre rest : List (MessageEvent × Int)) (m : MessageEvent) (t : Int)
    (ha : a ≠ "") (hrule : mapGet? p.rateLimits a = some ⟨n, w⟩)
    (hq : p.eventQueue = []) (hh : p.eventHistory = [])
    (hsorted : (pre ++ (m, t) :: rest).Pairwise (fun x y => x.2 ≤ y.2))
    (hcap : withinCapacity p.maxHistorySize w [] (pre ++ (m, t) :: rest) = true) :
    (inWindow (ingressAll p (pre ++ [(m, t)])).eventQueue a w t).length ≤ n := by
  have hsplit : pre ++ (m, t) :: rest = (pre ++ [(m, t)]) ++ rest := by simp
  have hs1 : (pre ++ [(m, t)]).Pairwise (fun x y => x.2 ≤ y.2) := by
    rw [hsplit] at hsorted
    exact (List.pairwise_append.mp hsorted).1
  have hc1 : withinCapacity p.maxHistorySize w [] (pre ++ [(m, t)]) = true := by
    rw [hsplit] at hcap
    exact withinCapacity_append _ _ _ _ _ hcap
  have h0 : rateInvariant a n w p [] := by
    refine ⟨⟨[], by simp [hq, hh], Or.inl rfl⟩, by simp [hq], ?_⟩
    intro now _
    simp [hq]
  have hinv := ingressAll_rateInvariant a n w (pre ++ [(m, t)]) p [] ha hrule h0
    (by simpa using hs1) hc1
  have hle : ∀ x ∈ [] ++ (pre ++ [(m, t)]), x.2 ≤ t := by
    intro x hx
    simp only [List.nil_append] at hx
    rcases List.mem_append.mp hx with h | h
    · exact (List.pairwise_append.mp hs1).2.2 x h (m, t) (List.mem_singleton.mpr rfl)
    · rw [List.mem_singleton.mp h]
  have hcount := hinv.2.2 t hle
  refine le_trans ?_ hcount
  unfold inWindow
  apply List.Sublist.length_le
  apply List.monotone_filter_right
  intro e he
  simp only [Bool.and_eq_true, decide_eq_true_eq] at he ⊢
  exact ⟨he.1.1, he.1.2⟩

/-- C19, witness: with the rule `{ maxEvents: 2, windowMs: 1000 }` on `ping`, three
`ping` messages at the times 0, 400 and 900 leave exactly two queued events, those
of the times 0 and 400: the third message is dropped. -/
theorem rate_limit_in_window_witness :
    (inWindow (ingressAll
        { new true with rateLimits := mapSet (new true).rateLimits "ping" ⟨2, 1000⟩ }
        ([(message "ping", 0), (message "ping", 400)] ++ [(message "ping", 900)])).eventQueue
      "ping" 1000 900).length ≤ 2 ∧
    (ingressAll { new true with rateLimits := mapSet (new true).rateLimits "ping" ⟨2, 1000⟩ }
        [(message "ping", 0), (message "ping", 400), (message "ping", 900)]).eventQueue.map
      (fun e => e.timestamp) = [0, 400] :=
  ⟨rate_limit_in_window
      { new true with rateLimits := mapSet (new true).rateLimits "ping" ⟨2, 1000⟩ }
      "ping" 2 1000 [(message "ping", 0), (message "ping", 400)] [] (message "ping") 900
      (by decide) (by decide) (by decide) (by decide) (by decide) (by decide),
    by decide⟩

theorem ingressAll_append (l1 l2 : List (MessageEvent × Int)) :
    ∀ p, ingressAll p (l1 ++ l2) = ingressAll (ingressAll p l1) l2 := by
  induction l1 with
  | nil => intro p; rfl
  | cons x l1 ih =>
    obtain ⟨m, t⟩ := x
    intro p
    simp only [List.cons_append, ingressAll]
    exact ih _

theorem ingress_isNuiEnvironment (p : EventManager) (m : MessageEvent) (t : Int) :
    (ingress p m t).isNuiEnvironment = p.isNuiEnvironment := by
  rcases ingress_cases p m t with h | ⟨h, _⟩
  · rw [h]
  · rw [h, queueEvent_isNuiEnvironment]

/-- With a positive `maxHistorySize`, the history stays the last `maxHistorySize`
events of the record of queued events. -/
theorem queueEvent_history_drop (p : EventManager) (e : InboundEvent)
    (hpos : 0 < p.maxHistorySize)
    (h : p.eventHistory = p.eventQueue.drop (p.eventQueue.length - p.maxHistorySize)) :
    (queueEvent p e).eventHistory =
      (queueEvent p e).eventQueue.drop
        ((queueEvent p e).eventQueue.length - (queueEvent p e).maxHistorySize) := by
  rw [queueEvent_eventHistory, queueEvent_eventQueue, queueEvent_maxHistorySize, h]
  have hne : p.maxHistorySize ≠ 0 := by omega
  by_cases hlt : p.eventQueue.length < p.maxHistorySize
  · have hd : p.eventQueue.length - p.maxHistorySize = 0 := by omega
    have hd2 : (p.eventQueue ++ [e]).length - p.maxHistorySize = 0 := by
      simp only [List.length_append, List.length_singleton]; omega
    have hnot : ¬ (p.eventQueue ++ [e]).length > p.maxHistorySize := by
      simp only [List.length_append, List.length_singleton]; omega
    simp only [hd, hd2, List.drop_zero, hnot, if_false]
  · have hlen : (p.eventQueue.drop (p.eventQueue.length - p.maxHistorySize) ++ [e]).length
        = p.maxHistorySize + 1 := by
      simp only [List.length_append, List.length_drop, List.length_singleton]; omega
    have hgt : (p.eventQueue.drop (p.eventQueue.length - p.maxHistorySize) ++ [e]).length
        > p.maxHistorySize := by omega
    rw [if_pos hgt]
    simp only [sliceLast, hne, if_false, hlen]
    have h1 : p.maxHistorySize + 1 - p.maxHistorySize = 1 := by omega
    have h2 : (p.eventQueue ++ [e]).length - p.maxHistorySize
        = (p.eventQueue.length - p.maxHistorySize) + 1 := by
      simp only [List.length_append, List.length_singleton]; omega
    rw [h1, h2, ← List.drop_drop,
      List.drop_append_of_le_length (by omega : p.eventQueue.length - p.maxHistorySize
        ≤ p.eventQueue.length)]

theorem ingressAll_history_drop (l : List (MessageEvent × Int)) :
    ∀ p : EventManager, 0 < p.maxHistorySize →
      p.eventHistory = p.eventQueue.drop (p.eventQueue.length - p.maxHistorySize) →
      (ingressAll p l).eventHistory =
        (ingressAll p l).eventQueue.drop
          ((ingressAll p l).eventQueue.length - (ingressAll p l).maxHistorySize) := by
  induction l with
  | nil => intro p _ h; exact h
  | cons x l ih =>
    obtain ⟨m, t⟩ := x
    intro p hpos h
    simp only [ingressAll]
    apply ih
    · rw [ingress_maxHistorySize]; exact hpos
    · rcases ingress_cases p m t with h1 | ⟨h1, _⟩
      · rw [h1]; exact h
      · rw [h1]; exact queueEvent_history_drop p _ hpos h

theorem ingressAll_rateLimits (l : List (MessageEvent × Int)) :
    ∀ p : EventManager, (ingressAll p l).rateLimits = p.rateLimits ∧
      (ingressAll p l).maxHistorySize = p.maxHistorySize ∧
      (ingressAll p l).isNuiEnvironment = p.isNuiEnvironment := by
  induction l with
  | nil => intro p; exact ⟨rfl, rfl, rfl⟩
  | cons x l ih =>
    obtain ⟨m, t⟩ := x
    intro p
    simp only [ingressAll]
    obtain ⟨h1, h2, h3⟩ := ih (ingress p m t)
    exact ⟨h1.trans (ingress_rateLimits p m t), h2.trans (ingress_maxHistorySize p m t),
      h3.trans (ingress_isNuiEnvironment p m t)⟩

/-- In the host environment a message that passes the rate limit is queued. -/
theorem ingress_checked (p : EventManager) (a : String) (t : Int)
    (hnui : p.isNuiEnvironment = true) (hc : checkRateLimit p (.string a) t = true) :
    ingress p (message a) t = queueEvent p (queued a t) := by
  have hc1 : checkRateLimit p (getField [("action", JSValue.string a)] "action") t = true := by
    simpa [getField] using hc
  simp [ingress, validateMessageOrigin, hnui, message, truthy, typeof, getProp, hc1, queued]
  simp [getField]

/-- In the host environment a message whose action has no rule is queued. -/
theorem ingress_unlimited (p : EventManager) (a : String) (t : Int)
    (hnui : p.isNuiEnvironment = true) (hno : mapHas p.rateLimits a = false) :
    ingress p (message a) t = queueEvent p (queued a t) :=
  ingress_checked p a t hnui (by simp [checkRateLimit, hno])

theorem ingressAll_singleton (p : EventManager) (m : MessageEvent) (t : Int) :
    ingressAll p [(m, t)] = ingress p m t := rfl

theorem ingressAll_unlimited (a : String) (t : Int) (k : Nat) :
    ∀ p : EventManager, p.isNuiEnvironment = true → mapHas p.rateLimits a = false →
      (ingressAll p (List.replicate k (message a, t))).eventQueue =
        p.eventQueue ++ List.replicate k (queued a t) := by
  induction k with
  | zero => intro p _ _; simp [ingressAll]
  | succ k ih =>
    intro p hnui hno
    simp only [List.replicate_succ, ingressAll]
    rw [ih _ (by rw [ingress_isNuiEnvironment]; exact hnui)
      (by rw [ingress_rateLimits]; exact hno), ingress_unlimited p a t hnui hno,
      queueEvent_eventQueue]
    simp

/-- C19, counterexample: in the host environment, with the rule of the
constructor `{ maxEvents: 10, windowMs: 1000 }` on `triggerGlow`, ten `triggerGlow`
messages, a thousand `car` messages (no rule) and one more `triggerGlow` message
all arrive at the time 0. The thousand `car` events push the ten `triggerGlow`
events out of the history, the last message is queued, and eleven queued
`triggerGlow` events lie in the window `(-1000, 0]`. -/
theorem rate_limit_lost_by_trimming :
    mapGet? (new true).rateLimits "triggerGlow" = some ⟨10, 1000⟩ ∧
    (inWindow (ingressAll (new true)
        (List.replicate 10 (message "triggerGlow", 0) ++
          List.replicate 1000 (message "car", 0) ++ [(message "triggerGlow", 0)])).eventQueue
      "triggerGlow" 1000 0).length = 11 := by
  refine ⟨by decide, ?_⟩
  have hq1 : (ingressAll (new true) (List.replicate 10 (message "triggerGlow", 0))).eventQueue
      = List.replicate 10 (queued "triggerGlow" 0) := by
    decide
  have hf1 := ingressAll_rateLimits (List.replicate 10 (message "triggerGlow", 0)) (new true)
  have hq2 := ingressAll_unlimited "car" 0 1000
    (ingressAll (new true) (List.replicate 10 (message "triggerGlow", 0)))
    (by rw [hf1.2.2]; rfl) (by rw [hf1.1]; decide)
  rw [hq1] at hq2
  have hf2 := ingressAll_rateLimits (List.replicate 10 (message "triggerGlow", 0) ++
    List.replicate 1000 (message "car", 0)) (new true)
  have hh2 := ingressAll_history_drop (List.replicate 10 (message "triggerGlow", 0) ++
    List.replicate 1000 (message "car", 0)) (new true) (by decide) (by decide)
  rw [ingressAll_append] at hh2 hf2
  rw [hq2, hf2.2.1] at hh2
  have hdrop : (List.replicate 10 (queued "triggerGlow" 0) ++
      List.replicate 1000 (queued "car" 0)).drop
      ((List.replicate 10 (queued "triggerGlow" 0) ++
        List.replicate 1000 (queued "car" 0)).length - (new true).maxHistorySize)
      = List.replicate 1000 (queued "car" 0) := by
    have hl : (List.replicate 10 (queued "triggerGlow" 0) ++
        List.replicate 1000 (queued "car" 0)).length - (new true).maxHistorySize = 10 := by
      simp only [List.length_append, List.length_replicate]
      rfl
    rw [hl]
    exact List.drop_left' (List.length_replicate _ _)
  rw [hdrop] at hh2
  -- the last message passes the check: the history holds `car` events only
  have hcheck : checkRateLimit (ingressAll (ingressAll (new true)
      (List.replicate 10 (message "triggerGlow", 0)))
      (List.replicate 1000 (message "car", 0))) (.string "triggerGlow") 0 = true := by
    rw [checkRateLimit_iff]
    right; right
    refine ⟨"triggerGlow", ⟨10, 1000⟩, rfl, by rw [hf2.1]; decide, ?_⟩
    rw [hh2]
    have : (List.replicate 1000 (queued "car" 0)).filter
        (fun e => decide (e.action = .string "triggerGlow") &&
          decide (e.timestamp > 0 - (⟨10, 1000⟩ : RateLimit).windowMs)) = [] := by
      apply List.filter_eq_nil_iff.mpr
      intro e he
      rw [List.eq_of_mem_replicate he]
      decide
    rw [this]
    decide
  have hlast := ingress_checked _ "triggerGlow" 0 hf2.2.2 hcheck
  rw [ingressAll_append, ingressAll_append, ingressAll_singleton, hlast, queueEvent_eventQueue, hq2]
  unfold inWindow
  rw [List.filter_append, List.filter_append, List.length_append, List.length_append]
  have e1 : (List.replicate 10 (queued "triggerGlow" 0)).filter
      (fun e => decide (e.action = .string "triggerGlow") &&
        decide ((0 : Int) - 1000 < e.timestamp) && decide (e.timestamp ≤ 0))
      = List.replicate 10 (queued "triggerGlow" 0) := by
    apply List.filter_eq_self.mpr
    intro e he
    rw [List.eq_of_mem_replicate he]
    decide
  have e2 : (List.replicate 1000 (queued "car" 0)).filter
      (fun e => decide (e.action = .string "triggerGlow") &&
        decide ((0 : Int) - 1000 < e.timestamp) && decide (e.timestamp ≤ 0)) = [] := by
    apply List.filter_eq_nil_iff.mpr
    intro e he
    rw [List.eq_of_mem_replicate he]
    decide
  rw [e1, e2]
  decide

/-! ## The drain and the handlers

### Frame of the handlers: the `eventError` notifications -/

theorem eventErrors_dispatchEvent (page : Page) (name : String) (detail : JSValue)
    (h : name ≠ "eventError") :
    eventErrors (dispatchEvent page name detail) = eventErrors page := by
  simp [eventErrors, dispatchEvent, List.filter_append, h]

theorem eventErrors_write (page : Page) (method : Store → Outcome) :
    eventErrors (write page method) = eventErrors page := by
  unfold write eventErrors
  cases page.stateManager <;> rfl

theorem eventErrors_callTheme (page : Page) (t : ThemeManager) (call : ThemeCall) :
    eventErrors (callTheme page t call).page = eventErrors page := rfl

theorem eventErrors_thenDispatch (r : Handled) (name : String) (detail : JSValue)
    (h : name ≠ "eventError") :
    eventErrors (thenDispatch r name detail).page = eventErrors r.page := by
  unfold thenDispatch
  split_ifs
  · rfl
  · exact eventErrors_dispatchEvent r.page name detail h

theorem eventErrors_withTheme (page : Page) (block : ThemeManager → Handled)
    (h : ∀ t, eventErrors (block t).page = eventErrors page) :
    eventErrors (withTheme page block).page = eventErrors page := by
  unfold withTheme
  cases page.themeManager with
  | none => rfl
  | some t => exact h t

theorem eventErrors_checkCriticalStats (t : ThemeManager) (data : JSValue) (keys : List String) :
    ∀ page, eventErrors (checkCriticalStats page t data keys).page = eventErrors page := by
  induction keys with
  | nil => intro page; rfl
  | cons key rest ih =>
    intro page
    simp only [checkCriticalStats]
    split_ifs
    · rfl
    · rw [ih]; rfl
    · exact ih page

theorem eventErrors_checkCriticalValues (page : Page) (data : JSValue) :
    eventErrors (checkCriticalValues page data).page = eventErrors page := by
  unfold checkCriticalValues
  apply eventErrors_withTheme
  intro t
  simp only
  split_ifs <;> simp [eventErrors_callTheme, eventErrors_checkCriticalStats]

theorem eventErrors_menuGlow (page : Page) (t : ThemeManager) :
    eventErrors (menuGlow page t).page = eventErrors page := by
  unfold menuGlow
  simp only
  split_ifs <;> rfl

theorem eventErrors_ite (c : Prop) [Decidable c] (a b : Handled) :
    eventErrors (if c then a else b).page =
      if c then eventErrors a.page else eventErrors b.page := by
  split_ifs <;> rfl

theorem eventErrors_handleHudTick (page : Page) (data : JSValue) :
    eventErrors (handleHudTick page data).page = eventErrors page := by
  simp [handleHudTick, eventErrors_ite, eventErrors_thenDispatch, eventErrors_write,
    eventErrors_checkCriticalValues, eventErrors_withTheme, eventErrors_menuGlow,
    eventErrors_callTheme]

theorem eventErrors_handleVehicleHud (page : Page) (data : JSValue) :
    eventErrors (handleVehicleHud page data).page = eventErrors page := by
  simp [handleVehicleHud, eventErrors_ite, eventErrors_thenDispatch, eventErrors_write,
    eventErrors_checkCriticalValues, eventErrors_withTheme, eventErrors_menuGlow,
    eventErrors_callTheme]

theorem eventErrors_handleCompassUpdate (page : Page) (data : JSValue) :
    eventErrors (handleCompassUpdate page data).page = eventErrors page := by
  simp [handleCompassUpdate, eventErrors_ite, eventErrors_thenDispatch, eventErrors_write,
    eventErrors_checkCriticalValues, eventErrors_withTheme, eventErrors_menuGlow,
    eventErrors_callTheme]

theorem eventErrors_handleCompassDirectionUpdate (page : Page) (data : JSValue) :
    eventErrors (handleCompassDirectionUpdate page data).page = eventErrors page := by
  simp [handleCompassDirectionUpdate, eventErrors_ite, eventErrors_thenDispatch, eventErrors_write,
    eventErrors_checkCriticalValues, eventErrors_withTheme, eventErrors_menuGlow,
    eventErrors_callTheme]

theorem eventErrors_handleMenuOpen (page : Page) (data : JSValue) :
    eventErrors (handleMenuOpen page data).page = eventErrors page := by
  simp [handleMenuOpen, eventErrors_ite, eventErrors_thenDispatch, eventErrors_write,
    eventErrors_checkCriticalValues, eventErrors_withTheme, eventErrors_menuGlow,
    eventErrors_callTheme]

theorem eventErrors_handleSettingsOpen (page : Page) (data : JSValue) :
    eventErrors (handleSettingsOpen page data).page = eventErrors page := by
  simp [handleSettingsOpen, eventErrors_ite, eventErrors_thenDispatch, eventErrors_write,
    eventErrors_checkCriticalValues, eventErrors_withTheme, eventErrors_menuGlow,
    eventErrors_callTheme]

theorem eventErrors_handleThemeUpdate (page : Page) (data : JSValue) :
    eventErrors (handleThemeUpdate page data).page = eventErrors page := by
  simp [handleThemeUpdate, eventErrors_ite, eventErrors_thenDispatch, eventErrors_write,
    eventErrors_checkCriticalValues, eventErrors_withTheme, eventErrors_menuGlow,
    eventErrors_callTheme]

theorem eventErrors_handleGlowEffect (page : Page) (data : JSValue) :
    eventErrors (handleGlowEffect page data).page = eventErrors page := by
  simp [handleGlowEffect, eventErrors_ite, eventErrors_thenDispatch, eventErrors_write,
    eventErrors_checkCriticalValues, eventErrors_withTheme, eventErrors_menuGlow,
    eventErrors_callTheme]

theorem eventErrors_handleCriticalAlert (page : Page) (data : JSValue) :
    eventErrors (handleCriticalAlert page data).page = eventErrors page := by
  simp [handleCriticalAlert, eventErrors_ite, eventErrors_thenDispatch, eventErrors_write,
    eventErrors_checkCriticalValues, eventErrors_withTheme, eventErrors_menuGlow,
    eventErrors_callTheme]

theorem eventErrors_handleValueChanged (page : Page) (data : JSValue) :
    eventErrors (handleValueChanged page data).page = eventErrors page := by
  simp [handleValueChanged, eventErrors_ite, eventErrors_thenDispatch, eventErrors_write,
    eventErrors_checkCriticalValues, eventErrors_withTheme, eventErrors_menuGlow,
    eventErrors_callTheme]

theorem eventErrors_handleGpsToggle (page : Page) (data : JSValue) :
    eventErrors (handleGpsToggle page data).page = eventErrors page := by
  simp [handleGpsToggle, eventErrors_ite, eventErrors_thenDispatch, eventErrors_write,
    eventErrors_checkCriticalValues, eventErrors_withTheme, eventErrors_menuGlow,
    eventErrors_callTheme]

theorem eventErrors_handleGpsLocationUpdate (page : Page) (data : JSValue) :
    eventErrors (handleGpsLocationUpdate page data).page = eventErrors page := by
  simp [handleGpsLocationUpdate, eventErrors_ite, eventErrors_thenDispatch, eventErrors_write,
    eventErrors_checkCriticalValues, eventErrors_withTheme, eventErrors_menuGlow,
    eventErrors_callTheme]

theorem eventErrors_handleGpsStatsUpdate (page : Page) (data : JSValue) :
    eventErrors (handleGpsStatsUpdate page data).page = eventErrors page := by
  simp [handleGpsStatsUpdate, eventErrors_ite, eventErrors_thenDispatch, eventErrors_write,
    eventErrors_checkCriticalValues, eventErrors_withTheme, eventErrors_menuGlow,
    eventErrors_callTheme]

theorem eventErrors_handleGpsPositionSet (page : Page) (data : JSValue) :
    eventErrors (handleGpsPositionSet page data).page = eventErrors page := by
  simp [handleGpsPositionSet, eventErrors_ite, eventErrors_thenDispatch, eventErrors_write,
    eventErrors_checkCriticalValues, eventErrors_withTheme, eventErrors_menuGlow,
    eventErrors_callTheme]

theorem eventErrors_handleGpsThemeSet (page : Page) (data : JSValue) :
    eventErrors (handleGpsThemeSet page data).page = eventErrors page := by
  simp [handleGpsThemeSet, eventErrors_ite, eventErrors_thenDispatch, eventErrors_write,
    eventErrors_checkCriticalValues, eventErrors_withTheme, eventErrors_menuGlow,
    eventErrors_callTheme]

theorem eventErrors_handleMoneyShow (page : Page) (data : JSValue) :
    eventErrors (handleMoneyShow page data).page = eventErrors page := by
  simp [handleMoneyShow, eventErrors_ite, eventErrors_thenDispatch, eventErrors_write,
    eventErrors_checkCriticalValues, eventErrors_withTheme, eventErrors_menuGlow,
    eventErrors_callTheme]

theorem eventErrors_handleMoneyUpdate (page : Page) (data : JSValue) :
    eventErrors (handleMoneyUpdate page data).page = eventErrors page := by
  simp [handleMoneyUpdate, eventErrors_ite, eventErrors_thenDispatch, eventErrors_write,
    eventErrors_checkCriticalValues, eventErrors_withTheme, eventErrors_menuGlow,
    eventErrors_callTheme]

theorem eventErrors_handleEffectsToggle (page : Page) (data : JSValue) :
    eventErrors (handleEffectsToggle page data).page = eventErrors page := by
  simp [handleEffectsToggle, eventErrors_ite, eventErrors_thenDispatch, eventErrors_write,
    eventErrors_checkCriticalValues, eventErrors_withTheme, eventErrors_menuGlow,
    eventErrors_callTheme]

theorem eventErrors_handleNeonIntensityChange (page : Page) (data : JSValue) :
    eventErrors (handleNeonIntensityChange page data).page = eventErrors page := by
  simp [handleNeonIntensityChange, eventErrors_ite, eventErrors_thenDispatch, eventErrors_write,
    eventErrors_checkCriticalValues, eventErrors_withTheme, eventErrors_menuGlow,
    eventErrors_callTheme]

theorem eventErrors_handleThemeSync (page : Page) (data : JSValue) :
    eventErrors (handleThemeSync page data).page = eventErrors page := by
  simp [handleThemeSync, eventErrors_ite, eventErrors_thenDispatch, eventErrors_write,
    eventErrors_checkCriticalValues, eventErrors_withTheme, eventErrors_menuGlow,
    eventErrors_callTheme]

theorem mapGet?_mem {β : Type} (m : List (String × β)) (k : String) (x : β)
    (h : mapGet? m k = some x) : (k, x) ∈ m := by
  induction m with
  | nil => simp [mapGet?] at h
  | cons e m ih =>
    obtain ⟨k1, y⟩ := e
    by_cases hk : k1 = k
    · simp [mapGet?, hk] at h
      simp [hk, h]
    · simp [mapGet?, hk] at h
      exact List.mem_cons_of_mem _ (ih h)

theorem eventErrors_handlers :
    ∀ entry ∈ handlers, ∀ page data,
      eventErrors (entry.2 page data).page = eventErrors page := by
  simp only [handlers, List.forall_mem_cons]
  refine ⟨eventErrors_handleHudTick, eventErrors_handleVehicleHud,
    eventErrors_handleCompassUpdate, eventErrors_handleCompassDirectionUpdate,
    eventErrors_handleMenuOpen, eventErrors_handleSettingsOpen, eventErrors_handleThemeUpdate,
    eventErrors_handleGlowEffect, eventErrors_handleCriticalAlert,
    eventErrors_handleValueChanged, eventErrors_handleGpsToggle,
    eventErrors_handleGpsLocationUpdate, eventErrors_handleGpsStatsUpdate,
    eventErrors_handleGpsPositionSet, eventErrors_handleGpsThemeSet,
    eventErrors_handleMoneyShow, eventErrors_handleMoneyUpdate, eventErrors_handleEffectsToggle,
    eventErrors_handleNeonIntensityChange, eventErrors_handleThemeSync, ?_⟩
  intro entry hmem
  cases hmem

theorem eventErrors_route (page : Page) (event : InboundEvent) :
    eventErrors (route page event).page = eventErrors page := by
  have hunknown : eventErrors (handleUnknownEvent page event).page = eventErrors page := by
    simp [handleUnknownEvent, eventErrors_thenDispatch]
  unfold route
  cases event.action with
  | string action =>
    cases hget : mapGet? handlers action with
    | none => simp only [hget]; exact hunknown
    | some handler =>
      simp only [hget]
      exact eventErrors_handlers _ (mapGet?_mem handlers action handler hget) page event.data
  | _ => exact hunknown

theorem processEvent_processed (h : Hud) (event : InboundEvent) (now : Int) :
    (processEvent h event now).processed =
      h.processed ++ [(event, (route h.page event).raised)] := by
  unfold processEvent handleEventError attemptRecovery initializePipeline
  simp only
  split_ifs <;> rfl

theorem processEvent_quiet (h : Hud) (event : InboundEvent) (now : Int)
    (hr : (route h.page event).raised = false) :
    (processEvent h event now).manager = h.manager ∧
      eventErrors (processEvent h event now).page = eventErrors h.page := by
  simp [processEvent, hr, eventErrors_route]

theorem processEvent_fault (h : Hud) (event : InboundEvent) (now : Int)
    (hr : (route h.page event).raised = true) (hc : h.manager.errorCount < 50) :
    (processEvent h event now).manager =
        { h.manager with errorCount := h.manager.errorCount + 1 } ∧
      eventErrors (processEvent h event now).page =
        eventErrors h.page ++ [faultNotice now event] := by
  have hn : ¬ (h.manager.errorCount + 1 > 50) := by omega
  simp [processEvent, hr, handleEventError, hn, eventErrors, dispatchEvent, faultNotice,
    List.filter_append]
  exact eventErrors_route h.page event

theorem processEvent_recovery (h : Hud) (event : InboundEvent) (now : Int)
    (hr : (route h.page event).raised = true) (hc : 50 ≤ h.manager.errorCount) :
    (processEvent h event now).manager.eventQueue = [] ∧
      (processEvent h event now).manager.processing = false ∧
      (processEvent h event now).manager.errorCount = 0 := by
  have hn : h.manager.errorCount + 1 > 50 := by omega
  simp [processEvent, hr, handleEventError, hn, attemptRecovery, initializePipeline]

/-! ### The drain loop -/

theorem drainLoop_empty (now : Int) (turns : Nat) (h : Hud)
    (hq : h.manager.eventQueue = []) : drainLoop now turns h = h := by
  cases turns with
  | zero => rfl
  | succ n => simp [drainLoop, hq]

theorem faultsOf_cons_quiet (event : InboundEvent) (log : List (InboundEvent × Bool)) :
    faultsOf ((event, false) :: log) = faultsOf log := by
  simp [faultsOf]

theorem faultsOf_cons_fault (event : InboundEvent) (log : List (InboundEvent × Bool)) :
    faultsOf ((event, true) :: log) = event :: faultsOf log := by
  simp [faultsOf]

theorem drainLoop_spec (now : Int) :
    ∀ (turns : Nat) (h : Hud), h.manager.eventQueue.length ≤ turns →
      (drainLoop now turns h).manager.eventQueue = [] ∧
      ∃ log, (drainLoop now turns h).processed = h.processed ++ log ∧
        log.map (fun entry => entry.1) <+: h.manager.eventQueue ∧
        (h.manager.errorCount + (faultsOf log).length ≤ 50 →
          log.map (fun entry => entry.1) = h.manager.eventQueue ∧
          (drainLoop now turns h).manager =
            { h.manager with eventQueue := [],
                             errorCount := h.manager.errorCount + (faultsOf log).length } ∧
          eventErrors (drainLoop now turns h).page =
            eventErrors h.page ++ (faultsOf log).map (faultNotice now)) := by
  intro turns
  induction turns with
  | zero =>
    intro h hlen
    have hq : h.manager.eventQueue = [] := List.length_eq_zero.mp (Nat.le_zero.mp hlen)
    refine ⟨hq, [], by simp [drainLoop], by simp, fun _ => ?_⟩
    simp [drainLoop, faultsOf, hq]
    rw [← hq]
  | succ n ih =>
    intro h hlen
    cases hq : h.manager.eventQueue with
    | nil =>
      rw [drainLoop_empty now _ h hq]
      refine ⟨hq, [], by simp, by simp, fun _ => ?_⟩
      simp [faultsOf]
      rw [← hq]
    | cons event rest =>
      have hstep : drainLoop now (n + 1) h = drainLoop now n
          (processEvent { h with manager := { h.manager with eventQueue := rest } } event now) := by
        simp [drainLoop, hq]
      rw [hstep]
      set h0 : Hud := { h with manager := { h.manager with eventQueue := rest } } with hh0
      have hrest : rest.length ≤ n := by
        rw [hq] at hlen
        simpa using hlen
      have hproc := processEvent_processed h0 event now
      cases hr : (route h0.page event).raised with
      | false =>
        obtain ⟨hm, he⟩ := processEvent_quiet h0 event now hr
        have hlen1 : (processEvent h0 event now).manager.eventQueue.length ≤ n := by
          rw [hm]; exact hrest
        obtain ⟨hempty, log, hlog, hpre, hcalm⟩ := ih _ hlen1
        refine ⟨hempty, (event, false) :: log, ?_, ?_, ?_⟩
        · rw [hlog, hproc, hr]; simp [hh0]
        · rw [hm] at hpre
          simpa [hh0] using (List.prefix_cons_inj event).mpr hpre
        · intro hc
          rw [faultsOf_cons_quiet] at hc ⊢
          rw [hm] at hcalm
          obtain ⟨h1, h2, h3⟩ := hcalm (by simpa [hh0] using hc)
          refine ⟨by simpa [hh0] using h1, ?_, ?_⟩
          · rw [h2]
          · rw [h3, he]
      | true =>
        by_cases hc50 : h.manager.errorCount < 50
        · obtain ⟨hm, he⟩ := processEvent_fault h0 event now hr (by simpa [hh0] using hc50)
          have hlen1 : (processEvent h0 event now).manager.eventQueue.length ≤ n := by
            rw [hm]; exact hrest
          obtain ⟨hempty, log, hlog, hpre, hcalm⟩ := ih _ hlen1
          refine ⟨hempty, (event, true) :: log, ?_, ?_, ?_⟩
          · rw [hlog, hproc, hr]; simp [hh0]
          · rw [hm] at hpre
            simpa [hh0] using (List.prefix_cons_inj event).mpr hpre
          · intro hc
            rw [faultsOf_cons_fault] at hc ⊢
            rw [hm] at hcalm
            simp only [List.length_cons] at hc ⊢
            obtain ⟨h1, h2, h3⟩ := hcalm (by simp only [hh0]; omega)
            refine ⟨by simpa [hh0] using h1, ?_, ?_⟩
            · rw [h2]
              simp only [hh0]
              congr 1
              omega
            · rw [h3, he]
              simp [hh0]
        · obtain ⟨hm1, _, _⟩ := processEvent_recovery h0 event now hr
            (by simp only [hh0]; omega)
          rw [drainLoop_empty now n _ hm1]
          refine ⟨hm1, [(event, true)], ?_, ?_, ?_⟩
          · rw [hproc, hr]
          · simp
          · intro hc
            rw [faultsOf_cons_fault] at hc
            simp only [List.length_cons] at hc
            omega

theorem processEventQueue_spec (h : Hud) (now : Int) (hidle : h.manager.processing = false) :
    (processEventQueue h now).manager.eventQueue = [] ∧
    (processEventQueue h now).manager.processing = false ∧
    ∃ log, (processEventQueue h now).processed = h.processed ++ log ∧
      log.map (fun entry => entry.1) <+: h.manager.eventQueue ∧
      (h.manager.errorCount + (faultsOf log).length ≤ 50 →
        log.map (fun entry => entry.1) = h.manager.eventQueue ∧
        (processEventQueue h now).manager.errorCount =
          h.manager.errorCount + (faultsOf log).length ∧
        eventErrors (processEventQueue h now).page =
          eventErrors h.page ++ (faultsOf log).map (faultNotice now)) := by
  unfold processEventQueue
  by_cases hq : h.manager.eventQueue = []
  · simp only [hidle, hq, List.isEmpty_nil, Bool.or_true, if_true]
    refine ⟨trivial, trivial, [], by simp, by simp, fun _ => ?_⟩
    simp [faultsOf]
  · have hne : h.manager.eventQueue.isEmpty = false := by
      cases hl : h.manager.eventQueue with
      | nil => exact absurd hl hq
      | cons _ _ => rfl
    simp only [hidle, hne, Bool.or_false, Bool.false_eq_true, if_false]
    obtain ⟨hempty, log, hlog, hpre, hcalm⟩ := drainLoop_spec now h.manager.eventQueue.length
      { h with manager := { h.manager with processing := true } } (le_refl _)
    refine ⟨hempty, trivial, log, hlog, hpre, fun hc => ?_⟩
    obtain ⟨h1, h2, h3⟩ := hcalm hc
    refine ⟨h1, ?_, h3⟩
    rw [h2]

theorem processed_drop (h after : Hud) (log : List (InboundEvent × Bool))
    (hlog : after.processed = h.processed ++ log) :
    after.processed.drop h.processed.length = log := by
  rw [hlog, List.drop_left]

/-! ### The two renderings of the drain agree -/

theorem processEvent_queue_cases (h : Hud) (event : InboundEvent) (now : Int) :
    (processEvent h event now).manager.eventQueue = h.manager.eventQueue ∨
      (processEvent h event now).manager.eventQueue = [] := by
  cases hr : (route h.page event).raised with
  | false => left; rw [(processEvent_quiet h event now hr).1]
  | true =>
    by_cases hc : h.manager.errorCount < 50
    · left; rw [(processEvent_fault h event now hr hc).1]
    · right; exact (processEvent_recovery h event now hr (by omega)).1

theorem run_resume_idle (now : Int) (n : Nat) (r : Running) (h : r.loops = 0) :
    run r (List.replicate n (.resume now)) = r := by
  induction n with
  | zero => rfl
  | succ n ih => simp [List.replicate_succ, run, step, h, ih]

/-- A drain loop that goes on with no other code running in between does what
`drainLoop` does, and ends through its `finally`. -/
theorem run_resume_eq_drainLoop (now : Int) :
    ∀ (n : Nat) (r : Running), r.loops = 1 → r.hud.manager.eventQueue.length ≤ n →
      run r (List.replicate (n + 1) (.resume now)) =
        ⟨{ drainLoop now n r.hud with
            manager := { (drainLoop now n r.hud).manager with processing := false } }, 0⟩ := by
  intro n
  induction n with
  | zero =>
    intro r hl hlen
    have hq : r.hud.manager.eventQueue = [] := List.length_eq_zero.mp (Nat.le_zero.mp hlen)
    simp [run, step, hl, turn, hq, drainLoop]
  | succ n ih =>
    intro r hl hlen
    rw [List.replicate_succ]
    cases hq : r.hud.manager.eventQueue with
    | nil =>
      rw [drainLoop_empty now _ r.hud hq]
      simp only [run, step, hl, turn, hq, Nat.one_ne_zero, if_false]
      exact run_resume_idle now _ _ rfl
    | cons event rest =>
      have hlen1 : (processEvent
          { r.hud with manager := { r.hud.manager with eventQueue := rest } } event
            now).manager.eventQueue.length ≤ n := by
        rw [hq] at hlen
        simp only [List.length_cons] at hlen
        rcases processEvent_queue_cases
          { r.hud with manager := { r.hud.manager with eventQueue := rest } } event now
          with h1 | h1
        · rw [h1]; simp only; omega
        · rw [h1]; simp
      have hstep : step r (.resume now) = ⟨processEvent
          { r.hud with manager := { r.hud.manager with eventQueue := rest } } event now,
          r.loops⟩ := by
        simp [step, hl, turn, hq]
      have hrun := ih ⟨processEvent
          { r.hud with manager := { r.hud.manager with eventQueue := rest } } event now,
          r.loops⟩ hl hlen1
      have hgoal : run r (.resume now :: List.replicate (n + 1) (.resume now)) =
          run (step r (.resume now)) (List.replicate (n + 1) (.resume now)) := rfl
      rw [hgoal, hstep]
      refine hrun.trans ?_
      simp [drainLoop, hq]

/-- The two renderings of the drain agree: on an idle pipeline, a call of
`processEventQueue` followed by as many turns of its loop as there are queued
events, with no other code in between, leaves what `processEventQueue` run to its
end leaves, and no loop is waiting any more. -/
theorem beginDrain_then_resume (h : Hud) (now : Int)
    (hidle : h.manager.processing = false) (hq : h.manager.eventQueue ≠ []) :
    run (beginDrain ⟨h, 0⟩ now) (List.replicate h.manager.eventQueue.length (.resume now)) =
      ⟨processEventQueue h now, 0⟩ := by
  cases hl : h.manager.eventQueue with
  | nil => exact absurd hl hq
  | cons event rest =>
    have hlen1 : (processEvent
        { h with manager := { h.manager with eventQueue := rest, processing := true } } event
          now).manager.eventQueue.length ≤ rest.length := by
      rcases processEvent_queue_cases
        { h with manager := { h.manager with eventQueue := rest, processing := true } } event now
        with h1 | h1
      · rw [h1]
      · rw [h1]; simp
    have hrun := run_resume_eq_drainLoop now rest.length
      ⟨processEvent
        { h with manager := { h.manager with eventQueue := rest, processing := true } } event now,
        1⟩ rfl hlen1
    simp only [beginDrain, hidle, hl, List.isEmpty_cons, Bool.or_false, Bool.false_eq_true,
      if_false, turn, List.length_cons, processEventQueue, drainLoop]
    simpa using hrun

/-! ## C21: the drain dispatches in order -/

/-- C21, amended: a drain started on a queue of accepted events leaves the queue
empty and the draining flag cleared, and passes the accepted events to
`processEvent` once each, in the order of their acceptance, up to the first event
whose fault takes the error counter past 50 (the recovery discards the events
behind it); every accepted event is dispatched when the error counter stays at or
below 50. -/
theorem drain_dispatches_in_order (h : Hud) (now : Int)
    (hidle : h.manager.processing = false) :
    (processEventQueue h now).manager.eventQueue = [] ∧
    (processEventQueue h now).manager.processing = false ∧
    (processEventQueue h now).processed =
      h.processed ++ (processEventQueue h now).processed.drop h.processed.length ∧
    ((processEventQueue h now).processed.drop h.processed.length).map (fun entry => entry.1)
      <+: h.manager.eventQueue ∧
    (h.manager.errorCount +
        (faultsOf ((processEventQueue h now).processed.drop h.processed.length)).length ≤ 50 →
      ((processEventQueue h now).processed.drop h.processed.length).map (fun entry => entry.1)
        = h.manager.eventQueue) := by
  obtain ⟨h1, h2, log, hlog, hpre, hcalm⟩ := processEventQueue_spec h now hidle
  rw [processed_drop h _ log hlog]
  exact ⟨h1, h2, hlog, hpre, fun hc => (hcalm hc).1⟩

/-- C21, witness: the pipeline `gameHud` with two accepted messages, the first of
which makes its handler raise, dispatches both, in order. -/
theorem drain_dispatches_in_order_witness :
    (withAccepted gameHud [(fromGame glowPayload, 0),
      (fromGame (moneyPayload (num 5) (num 7)), 1)]).manager.processing = false ∧
    ((processEventQueue (withAccepted gameHud [(fromGame glowPayload, 0),
        (fromGame (moneyPayload (num 5) (num 7)), 1)]) 2).processed.drop
      (withAccepted gameHud [(fromGame glowPayload, 0),
        (fromGame (moneyPayload (num 5) (num 7)), 1)]).processed.length).map
        (fun entry => entry.1) =
      (withAccepted gameHud [(fromGame glowPayload, 0),
        (fromGame (moneyPayload (num 5) (num 7)), 1)]).manager.eventQueue :=
  ⟨by decide,
    (drain_dispatches_in_order (withAccepted gameHud [(fromGame glowPayload, 0),
      (fromGame (moneyPayload (num 5) (num 7)), 1)]) 2 (by decide)).2.2.2.2 (by decide)⟩

/-- C21, counterexample: the pipeline `strainedHud`, whose error counter is 50,
accepts two messages; the handler of the first raises, the recovery empties the
queue, and the second accepted event is never passed to `processEvent`. -/
theorem recovery_drops_accepted_event :
    strainedHud.manager.errorCount = 50 ∧
    (withAccepted strainedHud [(fromGame glowPayload, 50000),
        (fromGame (moneyPayload (num 5) (num 7)), 50001)]).manager.eventQueue
      = [queuedFor glowPayload 50000, queuedFor (moneyPayload (num 5) (num 7)) 50001] ∧
    ((processEventQueue (withAccepted strainedHud [(fromGame glowPayload, 50000),
        (fromGame (moneyPayload (num 5) (num 7)), 50001)]) 50002).processed.drop
      strainedHud.processed.length).map (fun entry => entry.1)
      = [queuedFor glowPayload 50000] := by
  decide

/-! ## C22: one drain loop at a time -/

theorem queueEvent_processing (p : EventManager) (e : InboundEvent) :
    (queueEvent p e).processing = p.processing := by
  unfold queueEvent addToHistory
  simp only
  split_ifs <;> rfl

theorem ingress_of_accepts (p : EventManager) (m : MessageEvent) (now : Int)
    (h : accepts p m now = true) :
    ingress p m now = queueEvent p ⟨getProp m.data "action", m.data, now⟩ := by
  unfold accepts at h
  simp only [Bool.and_eq_true, beq_iff_eq] at h
  obtain ⟨⟨h1, h2, h3⟩, h4⟩ := h
  simp [ingress, h1, h2, h3, h4]

theorem ingress_of_not_accepts (p : EventManager) (m : MessageEvent) (now : Int)
    (h : accepts p m now = false) : ingress p m now = p := by
  unfold accepts at h
  unfold ingress
  simp only
  split_ifs with h1 h2 h3
  · rfl
  · rfl
  · rfl
  · exfalso
    simp only [Bool.not_eq_true, Bool.not_eq_false, Bool.or_eq_true, Bool.not_eq_eq_eq_not,
      Bool.not_true, bne_iff_ne, ne_eq, not_or, Bool.not_eq_false, Decidable.not_not] at h1 h2 h3
    simp [h1, h2.1, h2.2, h3] at h

theorem handleEventError_listeners (h : Hud) (context data : JSValue) (now : Int) :
    ((handleEventError h context data now).messageListeners = h.messageListeners ∧
        (handleEventError h context data now).manager.processing = h.manager.processing) ∨
      (handleEventError h context data now).messageListeners = h.messageListeners + 1 := by
  unfold handleEventError
  simp only
  split_ifs
  · right; rfl
  · left; exact ⟨rfl, rfl⟩

theorem processEvent_listeners (h : Hud) (event : InboundEvent) (now : Int) :
    ((processEvent h event now).messageListeners = h.messageListeners ∧
        (processEvent h event now).manager.processing = h.manager.processing) ∨
      (processEvent h event now).messageListeners = h.messageListeners + 1 := by
  unfold processEvent
  simp only
  split_ifs
  · exact handleEventError_listeners _ _ _ _
  · left; exact ⟨rfl, rfl⟩

theorem turn_guarded (r : Running) (now : Int)
    (hg : r.hud.manager.processing = true ∧ r.loops = 1) :
    (guarded (turn r now) ∧ (turn r now).hud.messageListeners = r.hud.messageListeners) ∨
      (turn r now).hud.messageListeners = r.hud.messageListeners + 1 := by
  unfold turn
  cases hq : r.hud.manager.eventQueue with
  | nil =>
    left
    simp only
    exact ⟨Or.inr ⟨rfl, by simp [hg.2]⟩, trivial⟩
  | cons event rest =>
    simp only
    rcases processEvent_listeners
      { r.hud with manager := { r.hud.manager with eventQueue := rest } } event now
      with ⟨h1, h2⟩ | h1
    · left
      exact ⟨Or.inl ⟨h2.trans hg.1, hg.2⟩, h1⟩
    · right
      exact h1

theorem step_guarded (r : Running) (s : Step) (hg : guarded r) :
    (guarded (step r s) ∧ (step r s).hud.messageListeners = r.hud.messageListeners) ∨
      (step r s).hud.messageListeners = r.hud.messageListeners + 1 := by
  cases s with
  | message event now =>
    simp only [step]
    split_ifs with hacc
    · rw [ingress_of_accepts _ _ _ hacc]
      unfold beginDrain
      simp only [queueEvent_processing]
      split_ifs with hb
      · left
        refine ⟨?_, rfl⟩
        unfold guarded
        simp only [queueEvent_processing]
        exact hg
      · have hp : r.hud.manager.processing = false := by
          cases hpp : r.hud.manager.processing with
          | false => rfl
          | true => simp [hpp] at hb
        rcases hg with ⟨h1, _⟩ | ⟨_, h2⟩
        · rw [hp] at h1; cases h1
        · exact turn_guarded _ now ⟨rfl, by simp [h2]⟩
    · left; exact ⟨hg, rfl⟩
  | resume now =>
    simp only [step]
    split_ifs with hz
    · left; exact ⟨hg, rfl⟩
    · rcases hg with h1 | ⟨_, h2⟩
      · exact turn_guarded r now h1
      · exact absurd h2 hz
  | globalError data now =>
    simp only [step]
    rcases handleEventError_listeners r.hud (.string "global_error") data now with ⟨h1, h2⟩ | h1
    · left
      refine ⟨?_, h1⟩
      unfold guarded
      simp only [h2]
      exact hg
    · right; exact h1

theorem turn_listeners_le (r : Running) (now : Int) :
    r.hud.messageListeners ≤ (turn r now).hud.messageListeners := by
  unfold turn
  cases hq : r.hud.manager.eventQueue with
  | nil => exact le_refl _
  | cons event rest =>
    simp only
    rcases processEvent_listeners
      { r.hud with manager := { r.hud.manager with eventQueue := rest } } event now
      with ⟨h1, _⟩ | h1
    · rw [h1]
    · rw [h1]; exact Nat.le_succ _

theorem step_listeners_le (r : Running) (s : Step) :
    r.hud.messageListeners ≤ (step r s).hud.messageListeners := by
  cases s with
  | message event now =>
    simp only [step]
    split_ifs
    · unfold beginDrain
      split_ifs
      · exact le_refl _
      · refine le_trans (le_of_eq ?_) (turn_listeners_le _ now)
        rfl
    · exact le_refl _
  | resume now =>
    simp only [step]
    split_ifs
    · exact le_refl _
    · exact turn_listeners_le r now
  | globalError data now =>
    simp only [step]
    rcases handleEventError_listeners r.hud (.string "global_error") data now with ⟨h1, _⟩ | h1
    · rw [h1]
    · rw [h1]; exact Nat.le_succ _

theorem run_listeners_le (steps : List Step) :
    ∀ r : Running, r.hud.messageListeners ≤ (run r steps).hud.messageListeners := by
  induction steps with
  | nil => intro r; exact le_refl _
  | cons s rest ih =>
    intro r
    exact le_trans (step_listeners_le r s) (ih (step r s))

/-- The guard of `processEventQueue` does its work in every execution in which no
recovery runs, that is, in which the pipeline registers no further `message`
listener: at most one drain loop is waiting at any time. -/
theorem run_guarded (steps : List Step) :
    ∀ r : Running, guarded r →
      (run r steps).hud.messageListeners = r.hud.messageListeners →
        guarded (run r steps) ∧ (run r steps).loops ≤ 1 := by
  induction steps with
  | nil =>
    intro r hg _
    refine ⟨hg, ?_⟩
    rcases hg with ⟨_, h⟩ | ⟨_, h⟩ <;> simp [run, h]
  | cons s rest ih =>
    intro r hg hsame
    have hrun : run r (s :: rest) = run (step r s) rest := rfl
    rw [hrun] at hsame ⊢
    rcases step_guarded r s hg with ⟨hg1, h1⟩ | h1
    · exact ih (step r s) hg1 (by rw [hsame, h1])
    · have hle := run_listeners_le rest (step r s)
      omega

/-- C22, at the failing input: the pipeline `strainedHud`, whose error counter is 50,
receives a message whose handler raises; the recovery clears the draining flag
while the loop that dispatched the event waits, so the next message, arriving
before that loop goes on, starts a second loop. -/
theorem recovery_lets_second_loop_start :
    (run ⟨strainedHud, 0⟩ [.message (fromGame glowPayload) 50000]).loops = 1 ∧
    (run ⟨strainedHud, 0⟩
      [.message (fromGame glowPayload) 50000]).hud.manager.processing = false ∧
    (run ⟨strainedHud, 0⟩ [.message (fromGame glowPayload) 50000,
      .message (fromGame (moneyPayload (num 5) (num 7))) 50001]).loops = 2 := by
  decide

/-! ## C23: the recovery after the 51st fault -/

theorem handleEventError_below (h : Hud) (context data : JSValue) (now : Int)
    (hc : h.manager.errorCount < 50) :
    (handleEventError h context data now).manager =
      { h.manager with errorCount := h.manager.errorCount + 1 } := by
  have hn : ¬ (h.manager.errorCount + 1 > 50) := by omega
  simp [handleEventError, hn]

theorem handleEventError_recovers (h : Hud) (context data : JSValue) (now : Int)
    (hc : 50 ≤ h.manager.errorCount) :
    (handleEventError h context data now).manager.eventQueue = [] ∧
      (handleEventError h context data now).manager.processing = false ∧
      (handleEventError h context data now).manager.errorCount = 0 := by
  have hn : h.manager.errorCount + 1 > 50 := by omega
  simp [handleEventError, hn, attemptRecovery, initializePipeline]

theorem reportAll_below (faults : List Fault) :
    ∀ h : Hud, h.manager.errorCount + faults.length ≤ 50 →
      (reportAll h faults).manager =
        { h.manager with errorCount := h.manager.errorCount + faults.length } := by
  induction faults with
  | nil => intro h _; rfl
  | cons fault rest ih =>
    intro h hc
    simp only [List.length_cons] at hc
    have h1 := handleEventError_below h fault.context fault.data fault.time (by omega)
    have h2 := ih (handleEventError h fault.context fault.data fault.time)
      (by rw [h1]; simp only; omega)
    simp only [reportAll, List.foldl_cons] at h2 ⊢
    rw [h2, h1]
    simp only [List.length_cons]
    congr 1
    omega

/-- C23: from an error counter of 0, after any faults up to 50 in number the error
counter is their number and the queue and the draining flag are as they were;
right after a 51st fault the queue is empty, the draining flag is false and the
error counter is 0. -/
theorem recovery_after_51_faults (h : Hud) (faults : List Fault) (last : Fault)
    (hzero : h.manager.errorCount = 0) :
    (faults.length ≤ 50 →
      (reportAll h faults).manager.errorCount = faults.length ∧
      (reportAll h faults).manager.eventQueue = h.manager.eventQueue ∧
      (reportAll h faults).manager.processing = h.manager.processing) ∧
    (faults.length = 50 →
      (reportAll h (faults ++ [last])).manager.eventQueue = [] ∧
      (reportAll h (faults ++ [last])).manager.processing = false ∧
      (reportAll h (faults ++ [last])).manager.errorCount = 0) := by
  constructor
  · intro hlen
    rw [reportAll_below faults h (by omega)]
    simp [hzero]
  · intro hlen
    have hm := reportAll_below faults h (by omega)
    have hsplit : reportAll h (faults ++ [last]) =
        handleEventError (reportAll h faults) last.context last.data last.time := by
      simp [reportAll, List.foldl_append]
    rw [hsplit]
    exact handleEventError_recovers _ _ _ _ (by rw [hm]; simp only; omega)

/-- C23, witness: fifty-one faults reported to the pipeline `gameHud` while two
events wait in its queue. -/
theorem recovery_after_51_faults_witness :
    (withAccepted gameHud [(fromGame glowPayload, 0),
      (fromGame (moneyPayload (num 5) (num 7)), 1)]).manager.errorCount = 0 ∧
    ((reportAll (withAccepted gameHud [(fromGame glowPayload, 0),
        (fromGame (moneyPayload (num 5) (num 7)), 1)])
      (List.replicate 50 ⟨.string "hudtick", .null, 2⟩)).manager.errorCount = 50 ∧
      (reportAll (withAccepted gameHud [(fromGame glowPayload, 0),
        (fromGame (moneyPayload (num 5) (num 7)), 1)])
      (List.replicate 50 ⟨.string "hudtick", .null, 2⟩)).manager.eventQueue.length = 2) ∧
    (reportAll (withAccepted gameHud [(fromGame glowPayload, 0),
        (fromGame (moneyPayload (num 5) (num 7)), 1)])
      (List.replicate 50 ⟨.string "hudtick", .null, 2⟩ ++
        [⟨.string "hudtick", .null, 3⟩])).manager.eventQueue = [] :=
  ⟨by decide,
    ⟨((recovery_after_51_faults (withAccepted gameHud [(fromGame glowPayload, 0),
        (fromGame (moneyPayload (num 5) (num 7)), 1)])
        (List.replicate 50 ⟨.string "hudtick", .null, 2⟩) ⟨.string "hudtick", .null, 3⟩
        (by decide)).1 (by simp)).1.trans (by simp),
      by decide⟩,
    ((recovery_after_51_faults (withAccepted gameHud [(fromGame glowPayload, 0),
        (fromGame (moneyPayload (num 5) (num 7)), 1)])
        (List.replicate 50 ⟨.string "hudtick", .null, 2⟩) ⟨.string "hudtick", .null, 3⟩
        (by decide)).2 (by simp)).1⟩

/-! ## C24: faults do not stop the drain -/

/-- C24: a drain during which the cumulative error count stays at or below 50
passes every event of the queue to `processEvent`, in order; the error counter
grows by the number of events whose handler raised, and one `eventError`
notification is dispatched for each of them, in order. -/
theorem drain_survives_faults (h : Hud) (now : Int)
    (hidle : h.manager.processing = false)
    (hcalm : h.manager.errorCount +
      (faultsOf ((processEventQueue h now).processed.drop h.processed.length)).length ≤ 50) :
    ((processEventQueue h now).processed.drop h.processed.length).map (fun entry => entry.1)
      = h.manager.eventQueue ∧
    (processEventQueue h now).manager.errorCount = h.manager.errorCount +
      (faultsOf ((processEventQueue h now).processed.drop h.processed.length)).length ∧
    eventErrors (processEventQueue h now).page = eventErrors h.page ++
      (faultsOf ((processEventQueue h now).processed.drop h.processed.length)).map
        (faultNotice now) := by
  obtain ⟨_, _, log, hlog, _, hc⟩ := processEventQueue_spec h now hidle
  rw [processed_drop h _ log hlog] at hcalm ⊢
  exact hc hcalm

/-- C24, witness: the pipeline `gameHud` drains two accepted events, of which the
first makes its handler raise: both are dispatched, the error counter goes from 0
to 1 and one `eventError` notification is dispatched. -/
theorem drain_survives_faults_witness :
    (withAccepted gameHud [(fromGame glowPayload, 0),
      (fromGame (moneyPayload (num 5) (num 7)), 1)]).manager.processing = false ∧
    (processEventQueue (withAccepted gameHud [(fromGame glowPayload, 0),
      (fromGame (moneyPayload (num 5) (num 7)), 1)]) 2).manager.errorCount = 1 ∧
    eventErrors (processEventQueue (withAccepted gameHud [(fromGame glowPayload, 0),
      (fromGame (moneyPayload (num 5) (num 7)), 1)]) 2).page
      = [faultNotice 2 (queuedFor glowPayload 0)] :=
  ⟨by decide,
    (drain_survives_faults (withAccepted gameHud [(fromGame glowPayload, 0),
      (fromGame (moneyPayload (num 5) (num 7)), 1)]) 2 (by decide) (by decide)).2.1.trans
      (by decide),
    (drain_survives_faults (withAccepted gameHud [(fromGame glowPayload, 0),
      (fromGame (moneyPayload (num 5) (num 7)), 1)]) 2 (by decide) (by decide)).2.2.trans
      (by decide)⟩

/-! ## C25: events with an unknown action -/

theorem mapGet?_eq_none {β : Type} (m : List (String × β)) (k : String)
    (h : k ∉ m.map (fun entry => entry.1)) : mapGet? m k = none := by
  induction m with
  | nil => simp [mapGet?]
  | cons e m ih =>
    obtain ⟨k1, y⟩ := e
    simp only [List.map_cons, List.mem_cons, not_or] at h
    simp [mapGet?, Ne.symm h.1, ih h.2]

theorem route_unknown (page : Page) (event : InboundEvent)
    (hunknown : ∀ a ∈ handledActions, event.action ≠ .string a) :
    route page event = handleUnknownEvent page event := by
  unfold route
  cases hact : event.action with
  | string action =>
    have : action ∉ handledActions := fun hmem => hunknown action hmem hact
    simp [mapGet?_eq_none handlers action this]
  | _ => rfl

/-- C25: an event whose action is none of the twenty handled ones, a missing
action included, is routed to `handleUnknownEvent` alone: `processEvent`
dispatches one `unknownEvent` notification that carries the event and changes
nothing else, so the store and the error counter are as before and nothing is
raised. -/
theorem unknown_action_only_notifies (h : Hud) (event : InboundEvent) (now : Int)
    (hunknown : ∀ a ∈ handledActions, event.action ≠ .string a) :
    processEvent h event now =
      { h with page := dispatchEvent h.page "unknownEvent" (eventObject event),
               processed := h.processed ++ [(event, false)] } := by
  simp [processEvent, route_unknown h.page event hunknown, handleUnknownEvent, thenDispatch]


/-- C25, witness: an event without an action, on the pipeline `gameHud`. -/
theorem unknown_action_only_notifies_witness :
    (∀ a ∈ handledActions, (queuedFor (.object [("cash", num 5)]) 0).action ≠ .string a) ∧
    (processEvent gameHud (queuedFor (.object [("cash", num 5)]) 0) 1).page.dispatched
      = [⟨"unknownEvent", eventObject (queuedFor (.object [("cash", num 5)]) 0)⟩] ∧
    (processEvent gameHud (queuedFor (.object [("cash", num 5)]) 0) 1).manager.errorCount
      = 0 :=
  ⟨by decide,
    (congrArg (fun h => h.page.dispatched)
      (unknown_action_only_notifies gameHud (queuedFor (.object [("cash", num 5)]) 0) 1
        (by decide))).trans (by decide),
    by decide⟩

/-! ## C26: a money update, end to end -/


theorem mapGet?_of_mapHas_false {β : Type} (m : List (String × β)) (k : String)
    (h : mapHas m k = false) : mapGet? m k = none := by
  unfold mapHas at h
  cases hg : mapGet? m k with
  | none => rfl
  | some x => rw [hg] at h; cases h

theorem orElse_num (c : Int) : orElse (num c) (num 0) = num c := by
  unfold orElse num truthy
  by_cases hc : c = 0
  · simp [hc]
  · simp [hc]

theorem updateMultiple_money (s : Store) (v1 v2 : JSValue)
    (hcash : mapHas s.validators "cash" = false) (hbank : mapHas s.validators "bank" = false) :
    (HudStateManager.updateMultiple s (.object [("cash", v1), ("bank", v2)]) true).store.state =
        mapSet (mapSet s.state "cash" v1) "bank" v2 ∧
      (HudStateManager.updateMultiple s (.object [("cash", v1), ("bank", v2)]) true).calls = [] := by
  have h1 : HudStateManager.isValidKey (.string "cash") = true := by decide
  have h2 : HudStateManager.isValidKey (.string "bank") = true := by decide
  simp [HudStateManager.updateMultiple, truthy, typeof, entries, HudStateManager.firstPass, h1,
    h2, mapGet?_of_mapHas_false _ _ hcash, mapGet?_of_mapHas_false _ _ hbank,
    HudStateManager.applyChanges, HudStateManager.incrementOperationCount, deepClone_eq]

theorem checkRateLimit_unlimited (p : EventManager) (a : String) (now : Int)
    (h : mapHas p.rateLimits a = false) : checkRateLimit p (.string a) now = true := by
  simp [checkRateLimit, h]

theorem processEventQueue_one (h : Hud) (event : InboundEvent) (now : Int)
    (hidle : h.manager.processing = false) (hq : h.manager.eventQueue = [event])
    (hr : (route h.page event).raised = false) :
    processEventQueue h now =
      { h with manager := { h.manager with eventQueue := [] },
               page := (route h.page event).page,
               processed := h.processed ++ [(event, false)] } := by
  simp [processEventQueue, hidle, hq, drainLoop, processEvent, hr]

theorem route_updatemoney (page : Page) (data : JSValue) (now : Int) :
    route page ⟨.string "updatemoney", data, now⟩ = handleMoneyUpdate page data := by
  simp [route, handlers, mapGet?]

theorem write_some (page : Page) (s : Store) (m : Store → Outcome)
    (hstore : page.stateManager = some s) :
    write page m =
      { page with stateManager := some (m s).store,
                  subscriberCalls := page.subscriberCalls ++ (m s).calls } := by
  simp [write, hstore]

theorem handleMoneyUpdate_plain (page : Page) (s : Store) (c b : JSValue)
    (hstore : page.stateManager = some s) :
    handleMoneyUpdate page (moneyPayload c b) =
      ⟨{ page with
          stateManager := some
            (HudStateManager.updateMultiple s (moneyUpdates (moneyPayload c b)) true).store,
          subscriberCalls := page.subscriberCalls ++
            (HudStateManager.updateMultiple s (moneyUpdates (moneyPayload c b)) true).calls,
          dispatched := page.dispatched ++ [⟨"moneyUpdated", moneyPayload c b⟩] }, false⟩ := by
  have htheme : ∀ m, (write page m).themeManager = page.themeManager := by
    intro m; rw [write_some page s m hstore]
  unfold handleMoneyUpdate
  simp only [moneyPayload, nullish, Bool.and_false, Bool.false_eq_true, if_false]
  unfold withTheme
  rw [htheme]
  cases hth : page.themeManager with
  | none => simp [thenDispatch, dispatchEvent, write_some page s _ hstore, hth]
  | some t =>
    simp [thenDispatch, dispatchEvent, write_some page s _ hstore, getProp, getField, truthy,
      hth]

/-- C26, amended: for all numbers `c` and `b` other than `NaN` and every store
without validators on `cash` and `bank`, one message
`{ action: 'updatemoney', cash: c, bank: b }` from a trusted origin, handled by an
idle pipeline and drained, leaves the store holding `cash = c` and `bank = b` and
dispatches `moneyUpdated` once, with the payload received. -/
theorem money_update_end_to_end (h : Hud) (s : Store) (origin : String) (c b now : Int)
    (hstore : h.page.stateManager = some s)
    (hcash : mapHas s.validators "cash" = false) (hbank : mapHas s.validators "bank" = false)
    (hidle : h.manager.processing = false) (hempty : h.manager.eventQueue = [])
    (htrust : validateMessageOrigin h.manager ⟨origin, moneyPayload (num c) (num b)⟩ = true)
    (hrate : mapHas h.manager.rateLimits "updatemoney" = false) :
    storeValue (handleIncomingMessage h ⟨origin, moneyPayload (num c) (num b)⟩ now) "cash"
      = num c ∧
    storeValue (handleIncomingMessage h ⟨origin, moneyPayload (num c) (num b)⟩ now) "bank"
      = num b ∧
    (handleIncomingMessage h ⟨origin, moneyPayload (num c) (num b)⟩ now).page.dispatched =
      h.page.dispatched ++ [⟨"moneyUpdated", moneyPayload (num c) (num b)⟩] ∧
    (handleIncomingMessage h ⟨origin, moneyPayload (num c) (num b)⟩ now).manager.eventQueue
      = [] ∧
    (handleIncomingMessage h ⟨origin, moneyPayload (num c) (num b)⟩ now).manager.processing
      = false := by
  have hact : getProp (moneyPayload (num c) (num b)) "action" = .string "updatemoney" := by
    simp [moneyPayload, getProp, getField]
  have hacc : accepts h.manager ⟨origin, moneyPayload (num c) (num b)⟩ now = true := by
    unfold accepts
    rw [htrust, hact, checkRateLimit_unlimited _ _ _ hrate]
    rfl
  have hupd : moneyUpdates (moneyPayload (num c) (num b)) =
      .object [("cash", num c), ("bank", num b)] := by
    simp [moneyUpdates, moneyPayload, getProp, getField, orElse_num]
  have hroute := handleMoneyUpdate_plain h.page s (num c) (num b) hstore
  obtain ⟨hst, _⟩ := updateMultiple_money s (num c) (num b) hcash hbank
  have hdrain := processEventQueue_one
    { h with manager := ingress h.manager ⟨origin, moneyPayload (num c) (num b)⟩ now }
    ⟨.string "updatemoney", moneyPayload (num c) (num b), now⟩ now
    (by rw [ingress_of_accepts _ _ _ hacc, queueEvent_processing]; exact hidle)
    (by rw [ingress_of_accepts _ _ _ hacc, queueEvent_eventQueue, hempty, hact]; rfl)
    (by rw [route_updatemoney, hroute])
  simp only [handleIncomingMessage, hacc, if_true]
  rw [hdrain, route_updatemoney, hroute, hupd]
  refine ⟨?_, ?_, rfl, rfl, ?_⟩
  · simp only [storeValue, HudStateManager.stateGet, hst]
    rw [mapGet?_mapSet_ne _ _ _ _ (by decide), mapGet?_mapSet_same]
    rfl
  · simp only [storeValue, HudStateManager.stateGet, hst]
    rw [mapGet?_mapSet_same]
    rfl
  · simp only
    rw [ingress_of_accepts _ _ _ hacc, queueEvent_processing]
    exact hidle

/-- C26, witness: the message `{ action: 'updatemoney', cash: 500, bank: 1200 }`
sent by the game to the pipeline `gameHud`. -/
theorem money_update_end_to_end_witness :
    storeValue (handleIncomingMessage gameHud
      ⟨"nui-game-internal", moneyPayload (num 500) (num 1200)⟩ 0) "cash" = num 500 ∧
    storeValue (handleIncomingMessage gameHud
      ⟨"nui-game-internal", moneyPayload (num 500) (num 1200)⟩ 0) "bank" = num 1200 ∧
    (handleIncomingMessage gameHud
      ⟨"nui-game-internal", moneyPayload (num 500) (num 1200)⟩ 0).page.dispatched
      = [⟨"moneyUpdated", moneyPayload (num 500) (num 1200)⟩] :=
  ⟨(money_update_end_to_end gameHud HudStateManager.new "nui-game-internal" 500 1200 0 rfl
      (by decide) (by decide) (by decide) (by decide) (by decide) (by decide)).1,
    (money_update_end_to_end gameHud HudStateManager.new "nui-game-internal" 500 1200 0 rfl
      (by decide) (by decide) (by decide) (by decide) (by decide) (by decide)).2.1,
    (money_update_end_to_end gameHud HudStateManager.new "nui-game-internal" 500 1200 0 rfl
      (by decide) (by decide) (by decide) (by decide) (by decide) (by decide)).2.2.1⟩

/-- C26, counterexample: `NaN` is a number, and `NaN || 0` is `0`, so the message
`{ action: 'updatemoney', cash: NaN, bank: 7 }` leaves the store holding
`cash = 0`. -/
theorem money_update_nan_stored_as_zero :
    storeValue (handleIncomingMessage gameHud
      (fromGame (moneyPayload (.number .nan) (num 7))) 0) "cash" = num 0 ∧
    storeValue (handleIncomingMessage gameHud
      (fromGame (moneyPayload (.number .nan) (num 7))) 0) "cash" ≠ .number .nan := by
  decide

/-! ## C27, C28: what `handleHudTick` writes into the store -/

/-- C27, at the failing input: with a stored health of 73, the message
`{ action: 'hudtick', health: 'NaN-ish' }` leaves the string `'NaN-ish'` as the
health in `playerStats`, and a message without `health` leaves 100; `validateStat`,
which the controller applies to the same payload, gives the 73 held before. -/
theorem hudtick_overwrites_health :
    getProp (storeValue (construct true (pageOf (some storeWithHealth73) none)) "playerStats")
      "health" = num 73 ∧
    getProp (storeValue
      (handleIncomingMessage (construct true (pageOf (some storeWithHealth73) none))
        (fromGame (hudTickPayload (.string "NaN-ish"))) 0) "playerStats") "health"
      = .string "NaN-ish" ∧
    getProp (storeValue
      (handleIncomingMessage (construct true (pageOf (some storeWithHealth73) none))
        (fromGame (.object [("action", .string "hudtick")])) 0) "playerStats") "health"
      = num 100 ∧
    HudController.validateStat (.string "NaN-ish") 0 100 (num 73) = num 73 := by
  decide

/-- C28, at the failing input: the messages `{ action: 'hudtick', health: 500 }` and
`{ action: 'hudtick', health: -40 }` leave 500 and -40 as the health in
`playerStats`. -/
theorem hudtick_stores_out_of_range :
    getProp (storeValue
      (handleIncomingMessage (construct true (pageOf (some storeWithHealth73) none))
        (fromGame (hudTickPayload (num 500))) 0) "playerStats") "health" = num 500 ∧
    getProp (storeValue
      (handleIncomingMessage (construct true (pageOf (some storeWithHealth73) none))
        (fromGame (hudTickPayload (num (-40)))) 0) "playerStats") "health" = num (-40) := by
  decide

/-! ## C29: the origin of a message -/

/-- A message whose origin `validateMessageOrigin` refuses changes nothing. -/
theorem handleIncomingMessage_untrusted (h : Hud) (event : MessageEvent) (now : Int)
    (hv : validateMessageOrigin h.manager event = false) :
    handleIncomingMessage h event now = h := by
  simp [handleIncomingMessage, accepts, hv]

/-- C29, at the failing input: outside the game, a message whose origin
`https://localhost.evil.example` is not in the trusted set, and whose host is not
`localhost`, is queued and dispatched, and changes the store. -/
theorem lookalike_origin_is_queued :
    (construct false (pageOf (some HudStateManager.new) none)).manager.trustedOrigins.contains
      "https://localhost.evil.example" = false ∧
    (handleIncomingMessage (construct false (pageOf (some HudStateManager.new) none))
      ⟨"https://localhost.evil.example", moneyPayload (num 5) (num 7)⟩ 0).manager.eventHistory
      = [queuedFor (moneyPayload (num 5) (num 7)) 0] ∧
    storeValue (handleIncomingMessage (construct false (pageOf (some HudStateManager.new) none))
      ⟨"https://localhost.evil.example", moneyPayload (num 5) (num 7)⟩ 0) "cash" = num 5 := by
  decide

/-! ## C30: the history -/

theorem queueEvent_eventCount (p : EventManager) (e : InboundEvent) :
    (queueEvent p e).eventCount = p.eventCount + 1 := by
  unfold queueEvent addToHistory
  simp only
  split_ifs <;> rfl

theorem ingressAll_eventCount (l : List (MessageEvent × Int)) :
    ∀ p : EventManager, p.eventCount = p.eventQueue.length →
      (ingressAll p l).eventCount = (ingressAll p l).eventQueue.length := by
  induction l with
  | nil => intro p h; exact h
  | cons x l ih =>
    obtain ⟨m, t⟩ := x
    intro p h
    simp only [ingressAll]
    apply ih
    rcases ingress_cases p m t with h1 | ⟨h1, _⟩
    · rw [h1]; exact h
    · rw [h1, queueEvent_eventCount, queueEvent_eventQueue, h]
      simp

/-- C30: on the pipeline the constructor builds, after any messages the history
holds the most recent `min(n, maxHistorySize)` accepted events in the order of
their arrival, `n` being `eventCount`, the number of events accepted so far; the
length of the history never exceeds `maxHistorySize`, which is 1000. -/
theorem history_is_most_recent (isNuiEnvironment : Bool) (messages : List (MessageEvent × Int)) :
    (ingressAll (new isNuiEnvironment) messages).eventCount =
      (ingressAll (new isNuiEnvironment) messages).eventQueue.length ∧
    (ingressAll (new isNuiEnvironment) messages).eventHistory =
      (ingressAll (new isNuiEnvironment) messages).eventQueue.drop
        ((ingressAll (new isNuiEnvironment) messages).eventQueue.length -
          min (ingressAll (new isNuiEnvironment) messages).eventCount
            (ingressAll (new isNuiEnvironment) messages).maxHistorySize) ∧
    (ingressAll (new isNuiEnvironment) messages).eventHistory.length =
      min (ingressAll (new isNuiEnvironment) messages).eventCount
        (ingressAll (new isNuiEnvironment) messages).maxHistorySize ∧
    (ingressAll (new isNuiEnvironment) messages).eventHistory.length ≤
      (ingressAll (new isNuiEnvironment) messages).maxHistorySize ∧
    (ingressAll (new isNuiEnvironment) messages).maxHistorySize = 1000 := by
  have hcount := ingressAll_eventCount messages (new isNuiEnvironment) rfl
  have hdrop := ingressAll_history_drop messages (new isNuiEnvironment)
    (by show (0 : Nat) < 1000; omega) rfl
  have hcap := (ingressAll_rateLimits messages (new isNuiEnvironment)).2.1
  have hcap1 : (ingressAll (new isNuiEnvironment) messages).maxHistorySize = 1000 := by
    rw [hcap]; rfl
  have hsub : (ingressAll (new isNuiEnvironment) messages).eventQueue.length -
      min (ingressAll (new isNuiEnvironment) messages).eventCount
        (ingressAll (new isNuiEnvironment) messages).maxHistorySize =
      (ingressAll (new isNuiEnvironment) messages).eventQueue.length -
        (ingressAll (new isNuiEnvironment) messages).maxHistorySize := by
    rw [hcount]; omega
  refine ⟨hcount, ?_, ?_, ?_, hcap1⟩
  · rw [hsub]; exact hdrop
  · rw [hdrop, List.length_drop, hcount]; omega
  · rw [hdrop, List.length_drop]; omega

/-! ## C31: the store writes of the handlers -/

theorem set_silent_calls (s : Store) (key value : JSValue) :
    (HudStateManager.set s key value true).calls = [] := by
  unfold HudStateManager.set HudStateManager.commit
  simp only [Bool.not_true, Bool.false_eq_true, if_false]
  repeat' split
  all_goals rfl

theorem updateMultiple_silent_calls (s : Store) (updates : JSValue) :
    (HudStateManager.updateMultiple s updates true).calls = [] := by
  unfold HudStateManager.updateMultiple
  simp only [Bool.not_true, Bool.false_eq_true, if_false]
  repeat' split
  all_goals rfl

theorem calls_write (page : Page) (method : Store → Outcome)
    (h : ∀ s, (method s).calls = []) :
    (write page method).subscriberCalls = page.subscriberCalls := by
  unfold write
  cases page.stateManager with
  | none => rfl
  | some s => simp [h s]

theorem calls_thenDispatch (r : Handled) (name : String) (detail : JSValue) :
    (thenDispatch r name detail).page.subscriberCalls = r.page.subscriberCalls := by
  unfold thenDispatch
  split_ifs <;> rfl

theorem calls_withTheme (page : Page) (block : ThemeManager → Handled)
    (h : ∀ t, (block t).page.subscriberCalls = page.subscriberCalls) :
    (withTheme page block).page.subscriberCalls = page.subscriberCalls := by
  unfold withTheme
  cases page.themeManager with
  | none => rfl
  | some t => exact h t

theorem calls_ite (c : Prop) [Decidable c] (a b : Handled) :
    (if c then a else b).page.subscriberCalls =
      if c then a.page.subscriberCalls else b.page.subscriberCalls := by
  split_ifs <;> rfl

theorem calls_callTheme (page : Page) (t : ThemeManager) (call : ThemeCall) :
    (callTheme page t call).page.subscriberCalls = page.subscriberCalls := rfl

theorem calls_checkCriticalStats (t : ThemeManager) (data : JSValue) (keys : List String) :
    ∀ page, (checkCriticalStats page t data keys).page.subscriberCalls
      = page.subscriberCalls := by
  induction keys with
  | nil => intro page; rfl
  | cons key rest ih =>
    intro page
    simp only [checkCriticalStats]
    split_ifs
    · rfl
    · rw [ih]; rfl
    · exact ih page

theorem calls_checkCriticalValues (page : Page) (data : JSValue) :
    (checkCriticalValues page data).page.subscriberCalls = page.subscriberCalls := by
  unfold checkCriticalValues
  apply calls_withTheme
  intro t
  simp only
  split_ifs <;> simp [calls_callTheme, calls_checkCriticalStats]

theorem calls_handleHudTick (page : Page) (data : JSValue) :
    (handleHudTick page data).page.subscriberCalls = page.subscriberCalls := by
  simp [handleHudTick, calls_ite, calls_thenDispatch, calls_write, calls_checkCriticalValues,
    calls_withTheme, calls_callTheme, set_silent_calls, updateMultiple_silent_calls]

theorem calls_handleVehicleHud (page : Page) (data : JSValue) :
    (handleVehicleHud page data).page.subscriberCalls = page.subscriberCalls := by
  simp [handleVehicleHud, calls_ite, calls_thenDispatch, calls_write, calls_checkCriticalValues,
    calls_withTheme, calls_callTheme, set_silent_calls, updateMultiple_silent_calls]

theorem calls_handleCompassUpdate (page : Page) (data : JSValue) :
    (handleCompassUpdate page data).page.subscriberCalls = page.subscriberCalls := by
  simp [handleCompassUpdate, calls_ite, calls_thenDispatch, calls_write, calls_checkCriticalValues,
    calls_withTheme, calls_callTheme, set_silent_calls, updateMultiple_silent_calls]

theorem calls_handleCompassDirectionUpdate (page : Page) (data : JSValue) :
    (handleCompassDirectionUpdate page data).page.subscriberCalls = page.subscriberCalls := by
  simp [handleCompassDirectionUpdate, calls_ite, calls_thenDispatch, calls_write, calls_checkCriticalValues,
    calls_withTheme, calls_callTheme, set_silent_calls, updateMultiple_silent_calls]

theorem calls_handleGlowEffect (page : Page) (data : JSValue) :
    (handleGlowEffect page data).page.subscriberCalls = page.subscriberCalls := by
  simp [handleGlowEffect, calls_ite, calls_thenDispatch, calls_write, calls_checkCriticalValues,
    calls_withTheme, calls_callTheme, set_silent_calls, updateMultiple_silent_calls]

theorem calls_handleCriticalAlert (page : Page) (data : JSValue) :
    (handleCriticalAlert page data).page.subscriberCalls = page.subscriberCalls := by
  simp [handleCriticalAlert, calls_ite, calls_thenDispatch, calls_write, calls_checkCriticalValues,
    calls_withTheme, calls_callTheme, set_silent_calls, updateMultiple_silent_calls]

theorem calls_handleValueChanged (page : Page) (data : JSValue) :
    (handleValueChanged page data).page.subscriberCalls = page.subscriberCalls := by
  simp [handleValueChanged, calls_ite, calls_thenDispatch, calls_write, calls_checkCriticalValues,
    calls_withTheme, calls_callTheme, set_silent_calls, updateMultiple_silent_calls]

theorem calls_handleGpsLocationUpdate (page : Page) (data : JSValue) :
    (handleGpsLocationUpdate page data).page.subscriberCalls = page.subscriberCalls := by
  simp [handleGpsLocationUpdate, calls_ite, calls_thenDispatch, calls_write, calls_checkCriticalValues,
    calls_withTheme, calls_callTheme, set_silent_calls, updateMultiple_silent_calls]

theorem calls_handleGpsStatsUpdate (page : Page) (data : JSValue) :
    (handleGpsStatsUpdate page data).page.subscriberCalls = page.subscriberCalls := by
  simp [handleGpsStatsUpdate, calls_ite, calls_thenDispatch, calls_write, calls_checkCriticalValues,
    calls_withTheme, calls_callTheme, set_silent_calls, updateMultiple_silent_calls]

theorem calls_handleMoneyShow (page : Page) (data : JSValue) :
    (handleMoneyShow page data).page.subscriberCalls = page.subscriberCalls := by
  simp [handleMoneyShow, calls_ite, calls_thenDispatch, calls_write, calls_checkCriticalValues,
    calls_withTheme, calls_callTheme, set_silent_calls, updateMultiple_silent_calls]

theorem calls_handleMoneyUpdate (page : Page) (data : JSValue) :
    (handleMoneyUpdate page data).page.subscriberCalls = page.subscriberCalls := by
  simp [handleMoneyUpdate, calls_ite, calls_thenDispatch, calls_write, calls_checkCriticalValues,
    calls_withTheme, calls_callTheme, set_silent_calls, updateMultiple_silent_calls]

theorem calls_handleEffectsToggle (page : Page) (data : JSValue) :
    (handleEffectsToggle page data).page.subscriberCalls = page.subscriberCalls := by
  simp [handleEffectsToggle, calls_ite, calls_thenDispatch, calls_write, calls_checkCriticalValues,
    calls_withTheme, calls_callTheme, set_silent_calls, updateMultiple_silent_calls]

theorem calls_handleNeonIntensityChange (page : Page) (data : JSValue) :
    (handleNeonIntensityChange page data).page.subscriberCalls = page.subscriberCalls := by
  simp [handleNeonIntensityChange, calls_ite, calls_thenDispatch, calls_write, calls_checkCriticalValues,
    calls_withTheme, calls_callTheme, set_silent_calls, updateMultiple_silent_calls]

theorem calls_handleThemeSync (page : Page) (data : JSValue) :
    (handleThemeSync page data).page.subscriberCalls = page.subscriberCalls := by
  simp [handleThemeSync, calls_ite, calls_thenDispatch, calls_write, calls_checkCriticalValues,
    calls_withTheme, calls_callTheme, set_silent_calls, updateMultiple_silent_calls]

theorem calls_route_quiet (page : Page) (a : String) (data : JSValue) (t : Int)
    (ha : a ∈ quietActions) :
    (route page ⟨.string a, data, t⟩).page.subscriberCalls = page.subscriberCalls := by
  simp only [quietActions, List.mem_cons, List.mem_singleton, List.not_mem_nil, or_false] at ha
  rcases ha with h | h | h | h | h | h | h | h | h | h | h | h | h | h <;> subst h <;>
    simp [route, handlers, mapGet?, calls_handleHudTick, calls_handleVehicleHud, calls_handleCompassUpdate, calls_handleCompassDirectionUpdate, calls_handleGlowEffect, calls_handleCriticalAlert,
      calls_handleValueChanged, calls_handleGpsLocationUpdate, calls_handleGpsStatsUpdate, calls_handleMoneyShow, calls_handleMoneyUpdate,
      calls_handleEffectsToggle, calls_handleNeonIntensityChange, calls_handleThemeSync]

theorem calls_handleEventError (h : Hud) (context data : JSValue) (now : Int) :
    (handleEventError h context data now).page.subscriberCalls = h.page.subscriberCalls := by
  unfold handleEventError attemptRecovery initializePipeline
  simp only
  split_ifs <;> rfl

/-- C31, amended: the handlers of `hudtick`, `car`, `baseplate`, `update`,
`updateGpsLocation`, `updateGpsStats`, `show` and `updatemoney` write to the store
with the silent flag, and those of `triggerGlow`, `criticalAlert`, `valueChanged`,
`setEffectsEnabled`, `setNeonIntensity` and `syncTheme` do not write to it: for
every payload, dispatching an event of one of these actions invokes no subscriber
of the store. -/
theorem quiet_actions_call_no_subscriber (h : Hud) (a : String) (data : JSValue) (t now : Int)
    (ha : a ∈ quietActions) :
    (processEvent h ⟨.string a, data, t⟩ now).page.subscriberCalls
      = h.page.subscriberCalls := by
  unfold processEvent
  simp only
  split_ifs
  · rw [calls_handleEventError]
    exact calls_route_quiet h.page a data t ha
  · exact calls_route_quiet h.page a data t ha

/-- C31, witness: a `hudtick` event on a pipeline whose store has a subscriber on
`playerStats`. -/
theorem quiet_actions_call_no_subscriber_witness :
    "hudtick" ∈ quietActions ∧
    (processEvent (construct true (pageOf (some (watchedStore "playerStats")) none))
      ⟨.string "hudtick", hudTickPayload (num 50), 0⟩ 1).page.subscriberCalls = [] :=
  ⟨by decide,
    quiet_actions_call_no_subscriber
      (construct true (pageOf (some (watchedStore "playerStats")) none)) "hudtick"
      (hudTickPayload (num 50)) 0 1 (by decide)⟩

/-- C31, counterexample: `handleMenuOpen` calls `set('menuOpen', true)` without
the silent flag, so the message `{ action: 'open' }` invokes the subscriber of
`menuOpen`. -/
theorem menu_open_calls_subscriber :
    (handleIncomingMessage (construct true (pageOf (some (watchedStore "menuOpen")) none))
      (fromGame (.object [("action", .string "open")])) 0).page.subscriberCalls
      = [⟨1, .bool true, .undefined, "menuOpen"⟩] := by
  decide

/-! ## C32: a stat of 0 -/

/-- C32, at the failing input: the message
`{ action: 'hudtick', health: 0, hunger: 0, thirst: 0, oxygen: 0, engine: 0 }`
leaves 100 in the store for each of the five fields, as `0 || 100` is `100`;
`validateStat`, which the controller applies to the same payload, keeps the 0. -/
theorem hudtick_zero_stored_as_default :
    getProp (storeValue (handleIncomingMessage plainHud (fromGame zeroTickPayload) 0)
      "playerStats") "health" = num 100 ∧
    getProp (storeValue (handleIncomingMessage plainHud (fromGame zeroTickPayload) 0)
      "playerStats") "hunger" = num 100 ∧
    getProp (storeValue (handleIncomingMessage plainHud (fromGame zeroTickPayload) 0)
      "playerStats") "thirst" = num 100 ∧
    getProp (storeValue (handleIncomingMessage plainHud (fromGame zeroTickPayload) 0)
      "playerStats") "oxygen" = num 100 ∧
    getProp (storeValue (handleIncomingMessage plainHud (fromGame zeroTickPayload) 0)
      "vehicleStats") "engine" = num 100 ∧
    HudController.validateStat (num 0) 0 100 (num 73) = num 0 := by
  decide

/-! ## C34: the critical alert for stress -/

/-- For every stress of 80 or more, whatever the theme manager holds,
`triggerCriticalAlert` called as `checkCriticalValues` calls it, with the
threshold 20, returns before it does anything. -/
theorem triggerCriticalAlert_high_value (t : ThemeState) (engine : Engine) (element : String)
    (x : Int) (hx : 80 ≤ x) :
    HudThemeManager.triggerCriticalAlert t engine element (num x) 20 = t := by
  have h20 : decide ((20 : Int) < x) = true := by
    rw [decide_eq_true_eq]; omega
  simp [HudThemeManager.triggerCriticalAlert, toNumber, num, exceeds, h20]

/-- C34, at the failing input: for the message `{ action: 'hudtick', stress: 90 }`
the pipeline calls `triggerCriticalAlert('.stress-indicator', 90)`; with
animations enabled and the element present, that call leaves the theme manager
as it was and raises no alert, as 90 is above the threshold 20 under which the
method acts. A health of 10 does raise its alert, and `isStatCritical` of the
controller counts a stress of 90 as critical. -/
theorem stress_alert_returns_early :
    (handleIncomingMessage (construct true (pageOf (some HudStateManager.new) (some calmTheme)))
      (fromGame (stressPayload (num 90))) 0).page.themeCalls
      = [⟨"triggerCriticalAlert", [.string ".stress-indicator", num 90]⟩] ∧
    HudThemeManager.triggerCriticalAlert ⟨true, [".stress-indicator"], []⟩ plainEngine
      ".stress-indicator" (num 90) 20 = ⟨true, [".stress-indicator"], []⟩ ∧
    HudThemeManager.triggerCriticalAlert ⟨true, [".health-indicator"], []⟩ plainEngine
      ".health-indicator" (num 10) 20
      = ⟨true, [".health-indicator"], [(".health-indicator", num 10)]⟩ ∧
    HudController.isStatCritical 20 80 "stress" (.fin 90) = true := by
  decide

/-! ## C38: the `message` listeners of the pipeline -/

/-- C38, at the failing input: once the page is loaded the pipeline has two
`message` listeners, so one message `{ action: 'updatemoney', cash: 500, bank:
1200 }` is handled twice: two events are queued and `moneyUpdated` is dispatched
twice; a recovery registers one more listener. -/
theorem page_load_registers_two_listeners :
    (loaded true (pageOf (some HudStateManager.new) none)).messageListeners = 2 ∧
    (deliver (loaded true (pageOf (some HudStateManager.new) none))
      (fromGame (moneyPayload (num 500) (num 1200))) 0).manager.eventCount = 2 ∧
    (deliver (loaded true (pageOf (some HudStateManager.new) none))
      (fromGame (moneyPayload (num 500) (num 1200))) 0).page.dispatched
      = [⟨"moneyUpdated", moneyPayload (num 500) (num 1200)⟩,
         ⟨"moneyUpdated", moneyPayload (num 500) (num 1200)⟩] ∧
    strainedHud.messageListeners = 1 ∧
    (handleIncomingMessage strainedHud (fromGame glowPayload) 50000).messageListeners
      = 2 := by
  decide

/-! ## C39: the fields of `vehicleStats` -/

/-- C39, at the failing input: after a `car` event the store holds a fuel of 40 in
`vehicleStats`; the `hudtick` event that follows replaces the whole object, which
then has no `fuel`, `altitude` or `seatbelt`, and the next `car` event replaces it
again, which then has no `engine` or `nos`. -/
theorem hudtick_drops_car_fields :
    getProp (storeValue (handleIncomingMessage plainHud (fromGame carPayload) 0)
      "vehicleStats") "fuel" = num 40 ∧
    storeValue (handleIncomingMessage
      (handleIncomingMessage plainHud (fromGame carPayload) 0)
      (fromGame drivingTickPayload) 1) "vehicleStats"
      = .object [("speed", num 60), ("engine", num 80), ("nos", num 50)] ∧
    storeValue (handleIncomingMessage (handleIncomingMessage
      (handleIncomingMessage plainHud (fromGame carPayload) 0)
      (fromGame drivingTickPayload) 1) (fromGame carPayload) 2) "vehicleStats"
      = .object [("speed", num 60), ("fuel", num 40), ("altitude", num 12),
          ("seatbelt", .bool true)] := by
  decide

end HudEventManager

namespace HudController

/-! ## C33: `validateStat` -/

/-- C33: for all bounds `min <= max`, every fallback and every value,
`validateStat(value, min, max, fallback)` returns the fallback when the value is
not a number or is `NaN`, and for a number `x` returns `max(min, min(max, x))`,
which lies between `min` and `max` and is `x` itself when `x` lies there. -/
theorem validateStat_spec (value fallback : JSValue) (min max : Int) (hle : min ≤ max) :
    ((typeof value ≠ JSType.number ∨ value = .number .nan) →
      validateStat value min max fallback = fallback) ∧
    (∀ x : Int, value = num x →
      validateStat value min max fallback = num (Max.max min (Min.min max x)) ∧
      min ≤ Max.max min (Min.min max x) ∧ Max.max min (Min.min max x) ≤ max ∧
      (min ≤ x → x ≤ max → validateStat value min max fallback = value)) := by
  constructor
  · rintro (h | h)
    · unfold validateStat
      have : (typeof value != JSType.number) = true := by simpa using h
      simp [this]
    · subst h
      rfl
  · intro x hx
    subst hx
    have hval : validateStat (num x) min max fallback = num (Max.max min (Min.min max x)) := rfl
    refine ⟨hval, le_max_left _ _, max_le hle (min_le_left _ _), fun h1 h2 => ?_⟩
    rw [hval, min_eq_right h2, max_eq_right h1]

/-- C33, witness: the bounds 0 and 100 with the fallback 73. -/
theorem validateStat_spec_witness :
    (0 : Int) ≤ 100 ∧
    validateStat (.string "NaN-ish") 0 100 (num 73) = num 73 ∧
    validateStat (num 250) 0 100 (num 73) = num 100 ∧
    validateStat (num 42) 0 100 (num 73) = num 42 :=
  ⟨by decide,
    (validateStat_spec (.string "NaN-ish") (num 73) 0 100 (by decide)).1 (Or.inl (by decide)),
    by decide, by decide⟩

end HudController

namespace HudStateManager

/-! ## C35: `updateMultiple` of one key and `set` -/

theorem mapSet_of_mapGet? {β : Type} (m : List (String × β)) (k : String) (x : β)
    (h : mapGet? m k = some x) : mapSet m k x = m := by
  induction m with
  | nil => simp [mapGet?] at h
  | cons e m ih =>
    obtain ⟨k1, y⟩ := e
    by_cases hk : k1 = k
    · simp [mapGet?, hk] at h
      simp [mapSet, hk, h]
    · simp [mapGet?, hk] at h
      simp [mapSet, hk, ih h]

theorem notifyChanges_single (s : Store) (c : Change) :
    notifyChanges s [c] =
      if !deepEqual c.newValue c.oldValue then notifyChange s c.key c.newValue c.oldValue
      else (s, []) := by
  simp only [notifyChanges, List.append_nil]

theorem updateMultiple_single (s : Store) (k : String) (v : JSValue) (silent : Bool)
    (hk : isValidKey (.string k) = true) :
    updateMultiple s (.object [(k, v)]) silent =
      match mapGet? s.validators k with
      | some validator =>
        match validator (deepClone v) (stateGet s k) with
        | .throws => ⟨error s, false, []⟩
        | .returns r =>
          if !truthy r then ⟨s, false, []⟩
          else commitBatch s k (deepClone v) (stateGet s k) silent
      | none => commitBatch s k (deepClone v) (stateGet s k) silent := by
  have hg : (!truthy (.object [(k, v)]) || typeof (.object [(k, v)]) != JSType.object)
      = false := rfl
  have hnk : (!isValidKey (.string k)) = false := by simp [hk]
  unfold updateMultiple
  simp only [hg, Bool.false_eq_true, if_false, entries, firstPass, hnk, List.nil_append]
  cases hv : mapGet? s.validators k with
  | none =>
    simp only [applyChanges, commitBatch]
    cases silent <;> simp [notifyChanges_single]
  | some f =>
    simp only
    cases hf : f (deepClone v) (stateGet s k) with
    | throws => simp
    | returns r =>
      simp only
      by_cases ht : truthy r = true
      · simp only [ht, Bool.not_true, Bool.false_eq_true, if_false, applyChanges, commitBatch]
        cases silent <;> simp [notifyChanges_single]
      · simp [ht]

theorem set_single (s : Store) (k : String) (v : JSValue) (silent : Bool)
    (hk : isValidKey (.string k) = true) :
    set s (.string k) v silent =
      match mapGet? s.validators k with
      | some validator =>
        match validator (deepClone v) (stateGet s k) with
        | .throws => ⟨error s, false, []⟩
        | .returns r =>
          if !truthy r then ⟨s, false, []⟩
          else commit s k (deepClone v) (stateGet s k) silent
      | none => commit s k (deepClone v) (stateGet s k) silent := by
  have hnk : (!isValidKey (.string k)) = false := by simp [hk]
  unfold set
  simp only [hnk, Bool.false_eq_true, if_false]

theorem commitBatch_vs_commit (s : Store) (k : String) (v old : JSValue) (silent : Bool) :
    (commitBatch s k v old silent).result = (commit s k v old silent).result ∧
    (deepEqual v old = deepEqual old v →
      (commitBatch s k v old silent).calls = (commit s k v old silent).calls ∧
      (deepEqual old v = false →
        (commitBatch s k v old silent).store = (commit s k v old silent).store) ∧
      (mapGet? s.state k = some v →
        (commitBatch s k v old silent).store.state = (commit s k v old silent).store.state)) := by
  unfold commitBatch commit
  cases hd : deepEqual old v <;> cases silent
  all_goals simp +contextual [hd, mapSet_of_mapGet?, incrementOperationCount]

/-- C35, amended: for every store, valid key `k`, value `v` and silent flag,
`updateMultiple({k: v}, silent)` and `set(k, v, silent)` return the same result;
when `deepEqual` answers the same on the stored value and `v` in both orders,
they make the same subscriber calls, they leave the same store if the stored
value is not `deepEqual` to `v`, and the same backing map if `k` already holds
`v`. -/
theorem updateMultiple_single_vs_set (s : Store) (k : String) (v : JSValue) (silent : Bool)
    (hk : isValidKey (.string k) = true) :
    (updateMultiple s (.object [(k, v)]) silent).result = (set s (.string k) v silent).result ∧
    (deepEqual v (stateGet s k) = deepEqual (stateGet s k) v →
      (updateMultiple s (.object [(k, v)]) silent).calls = (set s (.string k) v silent).calls ∧
      (deepEqual (stateGet s k) v = false →
        (updateMultiple s (.object [(k, v)]) silent).store = (set s (.string k) v silent).store) ∧
      (mapGet? s.state k = some v →
        (updateMultiple s (.object [(k, v)]) silent).store.state =
          (set s (.string k) v silent).store.state)) := by
  rw [updateMultiple_single s k v silent hk, set_single s k v silent hk, deepClone_eq]
  cases hv : mapGet? s.validators k with
  | none => exact commitBatch_vs_commit s k v (stateGet s k) silent
  | some f =>
    simp only
    cases hf : f v (stateGet s k) with
    | throws => simp
    | returns r =>
      simp only
      by_cases ht : truthy r = true
      · simp only [ht, Bool.not_true, Bool.false_eq_true, if_false]
        exact commitBatch_vs_commit s k v (stateGet s k) silent
      · simp [ht]

/-- C35, witness: the key `cash` and the value 500 on the store of the
constructor. -/
theorem updateMultiple_single_vs_set_witness :
    isValidKey (.string "cash") = true ∧
    (updateMultiple new (.object [("cash", num 500)]) false).store =
      (set new (.string "cash") (num 500) false).store :=
  ⟨by decide,
    ((updateMultiple_single_vs_set new "cash" (num 500) false (by decide)).2 (by decide)).2.1
      (by decide)⟩

/-- C35, counterexample: on the store of the constructor, `set('cash', undefined)`
writes nothing, as the value read for the absent key is `undefined` as well, while
`updateMultiple({cash: undefined})` adds the key `cash` to the backing map. -/
theorem updateMultiple_writes_unchanged_value :
    (set new (.string "cash") .undefined true).store.state = [] ∧
    (updateMultiple new (.object [("cash", .undefined)]) true).store.state
      = [("cash", .undefined)] ∧
    has (set new (.string "cash") .undefined true).store (.string "cash") = false ∧
    has (updateMultiple new (.object [("cash", .undefined)]) true).store (.string "cash")
      = true := by
  decide

/-! ## C36, C37: `deepEqual` -/

/-- C36, at the failing input: `deepEqual` answers `true` for two dates that denote
different instants, and for a date and an empty object. -/
theorem deepEqual_equates_dates :
    deepEqual (.date (.fin 0)) (.date (.fin 86400000)) = true ∧
    deepEqual (.date (.fin 0)) (.object []) = true ∧
    deepClone (.date (.fin 0)) = .date (.fin 0) := by
  decide

/-- C37, at the failing input: `deepEqual({x: undefined}, {y: 1})` is `true` and
`deepEqual({y: 1}, {x: undefined})` is `false`. -/
theorem deepEqual_not_symmetric :
    deepEqual (.object [("x", .undefined)]) (.object [("y", num 1)]) = true ∧
    deepEqual (.object [("y", num 1)]) (.object [("x", .undefined)]) = false := by
  decide

end HudStateManager

end HudState
